import Mathlib

/-!
DynamicLinks-Generator: link codec, short-path resolver, validators and handler.

A shallow embedding of the Go sources

* `utils/url.go`, `utils/validation.go`, `utils/shortid.go`
* `api/service/link_service.go`, `api/repository/link_repository.go`
* `api/handlers.go` (the handler `ExchangeShortLink`)
* `config/config.go`, `api/models/*.go`, `api/apperrors/apperrors.go`

together with the parts of the Go standard library they call (`net/url`,
`strings`, `unicode/utf8`), followed by theorems about them.

Go strings are byte sequences, so a Go `string` is a `List Byte` here, and every
library function is written over bytes exactly as the Go code indexes them.

Conventions of the embedding:

* `net/url` is the parser of Go 1.21 to 1.23 (the repository needs `slices`,
  hence Go 1.21 or later). Loops become structural recursion over the bytes
  still to be read; a loop over runes that only tests for ASCII characters is
  a loop over bytes.
* The table `dynamic_links` is the list of its rows. A query returns the first
  row that matches; an `INSERT` adds a row at the end. Whether the database
  executes a statement is not decided by the program: `Env` says, per call, if
  a statement fails and with which message. A failed statement changes nothing.
* The random source is the sequence of bytes it delivers. A source that
  cannot deliver ends the process and is not an outcome of a call.
* A service call returns its result together with the table afterwards and
  the list of things it did to the world outside (`Event`), so that "makes no
  lookup" and "inserts one row" are statements about that list.
* Package `encoding/json` is not modelled: a decoded request body is an input
  (`RawInput`, the argument of `ExchangeShortLink`), and a handler returns
  what it writes (`HttpResponse`).
-/

namespace DynamicLinks

/-! ## Bytes and Go strings -/

/-- One byte of a Go string. -/
abbrev Byte := Fin 256

/-- A Go `string`: an immutable sequence of bytes. -/
abbrev GoString := List Byte

/-- The byte of an ASCII character literal such as `'a'`. -/
def ch (c : Char) : Byte := Fin.ofNat c.toNat

/-- The Go string of an ASCII string literal such as `"link"`. -/
def B (s : String) : GoString := s.toList.map ch

/-! ## Package `strings` -/

/-- `strings.HasPrefix(s, prefix)`. -/
def hasPrefix : GoString → GoString → Bool
  | _, [] => true
  | [], _ :: _ => false
  | c :: s, d :: p => c == d && hasPrefix s p

/-- `strings.HasSuffix(s, suffix)`. -/
def hasSuffix (s suffix : GoString) : Bool :=
  hasPrefix s.reverse suffix.reverse

/-- `strings.Index(s, substr)`: the index of the first instance of `substr` in
`s`, or `none` where Go returns `-1`. -/
def index : GoString → GoString → Option Nat
  | [], sub => if sub = [] then some 0 else none
  | c :: s, sub =>
    if hasPrefix (c :: s) sub then some 0
    else (index s sub).map (· + 1)

/-- `strings.LastIndex(s, substr)`: the index of the last instance of `substr`
in `s`, or `none` where Go returns `-1`. -/
def lastIndex : GoString → GoString → Option Nat
  | [], sub => if sub = [] then some 0 else none
  | c :: s, sub =>
    match lastIndex s sub with
    | some i => some (i + 1)
    | none => if hasPrefix (c :: s) sub then some 0 else none

/-- `strings.Contains(s, substr)`. -/
def contains (s sub : GoString) : Bool := (index s sub).isSome

/-- `strings.Count(s, substr)` for a one-byte `substr`. -/
def countByte (s : GoString) (c : Byte) : Nat := s.count c

/-- `strings.Cut(s, sep)`: `(before, after, found)`. -/
def cut (s sep : GoString) : GoString × GoString × Bool :=
  match index s sep with
  | some i => (s.take i, s.drop (i + sep.length), true)
  | none => (s, [], false)

/-- `strings.Trim(s, cutset)` for a cutset of ASCII bytes. -/
def trim (s cutset : GoString) : GoString :=
  ((s.dropWhile (fun c => cutset.contains c)).reverse.dropWhile
    (fun c => cutset.contains c)).reverse

/-- The worker of `splitByte`: `cur` is the segment being read, reversed. -/
def splitByteAux (sep : Byte) : GoString → GoString → List GoString
  | [], cur => [cur.reverse]
  | c :: s, cur =>
    if c = sep then cur.reverse :: splitByteAux sep s []
    else splitByteAux sep s (c :: cur)

/-- `strings.Split(s, sep)` for a one-byte separator: the substrings between
the separators; a string without separator gives the one-element list `[s]`. -/
def splitByte (s : GoString) (sep : Byte) : List GoString :=
  splitByteAux sep s []

/-- The ASCII fast path of `strings.ToLower`: maps `A`..`Z` to `a`..`z`. -/
def lowerByte (c : Byte) : Byte :=
  if 65 ≤ c.val ∧ c.val ≤ 90 then Fin.ofNat (c.val + 32) else c

/-- Whether every byte is below `utf8.RuneSelf` (0x80). -/
def isASCII (s : GoString) : Bool := s.all (fun c => c.val < 128)

/-- The table `asciiSpace` of package `strings`: tab, newline, vertical tab,
form feed, carriage return and space. -/
def asciiSpace (c : Byte) : Bool :=
  c.val = 9 || c.val = 10 || c.val = 11 || c.val = 12 || c.val = 13 || c.val = 32

/-- The Unicode tables of the Go runtime that the byte-level code falls back
to on a non-ASCII string. They are not part of the repository and are taken as
parameters: `toLowerUnicode` is `strings.Map(unicode.ToLower, s)`,
`trimUnicode` is `strings.TrimFunc(s, unicode.IsSpace)` and `trimRightUnicode`
is `strings.TrimRightFunc(s, unicode.IsSpace)`. -/
structure Unicode where
  toLowerUnicode : GoString → GoString
  trimUnicode : GoString → GoString
  trimRightUnicode : GoString → GoString

/-- `strings.ToLower(s)`: the ASCII loop for an ASCII string, the Unicode
mapping otherwise. -/
def toLower (U : Unicode) (s : GoString) : GoString :=
  if isASCII s then s.map lowerByte else U.toLowerUnicode s

/-- The second loop of `strings.TrimSpace`, on the reversed remainder: strips
ASCII space from the end and hands over to the Unicode trimmer at the first
non-ASCII byte. `r` is the reversed string still to be examined. -/
def trimSpaceRight (U : Unicode) : GoString → GoString
  | [] => []
  | c :: r =>
    if 128 ≤ c.val then U.trimRightUnicode (c :: r).reverse
    else if asciiSpace c then trimSpaceRight U r
    else (c :: r).reverse

/-- `strings.TrimSpace(s)`: strips leading ASCII space, then trailing ASCII
space; at the first non-ASCII byte met it falls back to the Unicode trimmer on
what is left. -/
def trimSpace (U : Unicode) : GoString → GoString
  | [] => []
  | c :: s =>
    if 128 ≤ c.val then U.trimUnicode (c :: s)
    else if asciiSpace c then trimSpace U s
    else trimSpaceRight U (c :: s).reverse

/-! ## Package `net/url`: escaping -/

/-- The `encoding` modes of `net/url`. -/
inductive Encoding
  | encodePath
  | encodePathSegment
  | encodeHost
  | encodeZone
  | encodeUserPassword
  | encodeQueryComponent
  | encodeFragment
  deriving DecidableEq, Repr

/-- Errors of `net/url`: `EscapeError`, `InvalidHostError`, and the errors made
with `errors.New` / `fmt.Errorf`, kept by their message. -/
inductive UrlError
  | escapeError (s : GoString)
  | invalidHostError (s : GoString)
  | other (msg : String)
  deriving DecidableEq, Repr

deriving instance DecidableEq for Except

/-- `ishex(c)`. -/
def ishex (c : Byte) : Bool :=
  (48 ≤ c.val && c.val ≤ 57) || (97 ≤ c.val && c.val ≤ 102) || (65 ≤ c.val && c.val ≤ 70)

/-- `unhex(c)`. -/
def unhex (c : Byte) : Byte :=
  if 48 ≤ c.val ∧ c.val ≤ 57 then Fin.ofNat (c.val - 48)
  else if 97 ≤ c.val ∧ c.val ≤ 102 then Fin.ofNat (c.val - 97 + 10)
  else if 65 ≤ c.val ∧ c.val ≤ 70 then Fin.ofNat (c.val - 65 + 10)
  else 0

/-- The byte `unhex(a)<<4 | unhex(b)`. -/
def unhexPair (a b : Byte) : Byte :=
  Fin.ofNat ((((unhex a).val <<< 4) % 256) ||| (unhex b).val)

/-- `upperhex[i]` for the constant `upperhex = "0123456789ABCDEF"`. -/
def upperhex (i : Nat) : Byte :=
  (B "0123456789ABCDEF").getD i 0

/-- `shouldEscape(c, mode)`: whether byte `c` must be percent-escaped when it
appears in the part of a URL that `mode` names. -/
def shouldEscape (c : Byte) (mode : Encoding) : Bool :=
  -- §2.3 Unreserved characters (alphanum)
  if (97 ≤ c.val && c.val ≤ 122) || (65 ≤ c.val && c.val ≤ 90) || (48 ≤ c.val && c.val ≤ 57) then
    false
  else if (mode = .encodeHost || mode = .encodeZone) && (B "!$&\x27()*+,;=:[]<>\"").contains c then
    false
  else if (B "-_.~").contains c then
    false
  else if (B "$&+,/:;=?@").contains c then
    match mode with
    | .encodePath => c == ch '?'
    | .encodePathSegment => c == ch '/' || c == ch ';' || c == ch ',' || c == ch '?'
    | .encodeUserPassword => c == ch '@' || c == ch '/' || c == ch '?' || c == ch ':'
    | .encodeQueryComponent => true
    | .encodeFragment => false
    -- the host modes fall out of the inner switch to the end of the function
    | _ => true
  else if mode = .encodeFragment && (B "!()*").contains c then
    false
  else
    true

/-- One step of the writing loop of `escape`: what the byte `c` becomes. -/
def escapeByte (mode : Encoding) (c : Byte) : GoString :=
  if c = ch ' ' ∧ mode = .encodeQueryComponent then [ch '+']
  else if shouldEscape c mode then [ch '%', upperhex (c.val >>> 4), upperhex (c.val &&& 15)]
  else [c]

/-- `escape(s, mode)`. The Go code counts first and returns `s` itself when
nothing needs escaping; the writing loop gives the same string in that case. -/
def escape (s : GoString) (mode : Encoding) : GoString :=
  s.flatMap (escapeByte mode)

/-- `QueryEscape(s)`. -/
def QueryEscape (s : GoString) : GoString := escape s .encodeQueryComponent

/-- `unescape(s, mode)`. The Go code validates `s` in a first loop, returning at
the first malformed position, and decodes in a second loop; both loops advance
over `s` the same way and are run here together, position by position. -/
def unescape (mode : Encoding) : GoString → Except UrlError GoString
  | [] => .ok []
  | c :: rest =>
    if c = ch '%' then
      match rest with
      | h1 :: h2 :: tl =>
        if !ishex h1 || !ishex h2 then
          .error (.escapeError (c :: (rest.take 2)))
        else if mode = .encodeHost ∧ (unhex h1).val < 8 ∧ [c, h1, h2] ≠ B "%25" then
          .error (.escapeError [c, h1, h2])
        else if mode = .encodeZone ∧ [c, h1, h2] ≠ B "%25" ∧ unhexPair h1 h2 ≠ ch ' '
            ∧ shouldEscape (unhexPair h1 h2) .encodeHost then
          .error (.escapeError [c, h1, h2])
        else
          (unescape mode tl).map (unhexPair h1 h2 :: ·)
      | _ => .error (.escapeError (c :: (rest.take 2)))
    else if c = ch '+' then
      (unescape mode rest).map
        ((if mode = .encodeQueryComponent then ch ' ' else ch '+') :: ·)
    else if (mode = .encodeHost ∨ mode = .encodeZone) ∧ c.val < 128 ∧ shouldEscape c .encodeHost then
      .error (.invalidHostError [c])
    else
      (unescape mode rest).map (c :: ·)

/-- `QueryUnescape(s)`. -/
def QueryUnescape (s : GoString) : Except UrlError GoString :=
  unescape .encodeQueryComponent s

/-! ## Package `net/url`: query values -/

/-- `url.Values`, a `map[string][]string`: one entry per key, holding the
values added under that key in the order they were added. The order of the
entries is the order in which the keys were first added; Go does not define an
iteration order for a map, and `Encode`, the only function that iterates,
sorts the keys. -/
abbrev Values := List (GoString × List GoString)

/-- `v.Add(key, value)`: `v[key] = append(v[key], value)`. -/
def Values.Add : Values → GoString → GoString → Values
  | [], key, value => [(key, [value])]
  | (k, vs) :: rest, key, value =>
    if k = key then (k, vs ++ [value]) :: rest
    else (k, vs) :: Values.Add rest key value

/-- The map index expression `v[key]`: `nil` for a key that is not in the map. -/
def Values.at (v : Values) (key : GoString) : List GoString :=
  (v.lookup key).getD []

/-- `v.Get(key)`: the first value of `key`, or `""`. -/
def Values.Get (v : Values) (key : GoString) : GoString :=
  match Values.at v key with
  | [] => []
  | x :: _ => x

/-- The Go order `<=` on strings: bytewise lexicographic. -/
def strLe : GoString → GoString → Bool
  | [], _ => true
  | _ :: _, [] => false
  | a :: s, b :: t => a.val < b.val || (a == b && strLe s t)

/-- `slices.Sort(keys)` on the (distinct) keys of a map. -/
def sortKeys (keys : List GoString) : List GoString :=
  keys.insertionSort (fun a b => strLe a b = true)

/-- The part of `Encode` that writes the values `vs` of one key: for each value
an `&` unless the buffer is still empty, then `key=value`, both escaped. -/
def encodeKey (keyEscaped : GoString) : List GoString → GoString → GoString
  | [], buf => buf
  | value :: vs, buf =>
    encodeKey keyEscaped vs
      ((if buf.length > 0 then buf ++ [ch '&'] else buf) ++ keyEscaped ++ [ch '='] ++ QueryEscape value)

/-- The loop of `Encode` over the sorted keys. -/
def encodeKeys (v : Values) : List GoString → GoString → GoString
  | [], buf => buf
  | k :: keys, buf => encodeKeys v keys (encodeKey (QueryEscape k) (Values.at v k) buf)

/-- `v.Encode()`: the values in "URL encoded" form (`bar=baz&foo=quux`), sorted
by key. -/
def Values.Encode (v : Values) : GoString :=
  if v.length = 0 then []
  else encodeKeys v (sortKeys (v.map Prod.fst)) []

/-- The loop of `parseQuery`: `fuel` bounds the iterations (each consumes at
least one byte of `query`, so `query.length` suffices). The error value of
`parseQuery` is dropped: `URL.Query` discards it. -/
def parseQueryLoop : Nat → Values → GoString → Values
  | 0, m, _ => m
  | fuel + 1, m, query =>
    if query = [] then m
    else
      let (key, query, _) := cut query (B "&")
      if contains key (B ";") then parseQueryLoop fuel m query
      else if key = [] then parseQueryLoop fuel m query
      else
        let (key, value, _) := cut key (B "=")
        match QueryUnescape key with
        | .error _ => parseQueryLoop fuel m query
        | .ok key =>
          match QueryUnescape value with
          | .error _ => parseQueryLoop fuel m query
          | .ok value => parseQueryLoop fuel (Values.Add m key value) query

/-- `u.Query()` on the raw query `query`: `ParseQuery(u.RawQuery)` with the
error discarded; malformed pairs are skipped. -/
def parseQuery (query : GoString) : Values :=
  parseQueryLoop query.length [] query

/-! ## Package `net/url`: parsing -/

/-- The fields of `url.URL` that the repository reads. `User`, `RawPath`,
`ForceQuery`, `OmitHost` and `RawFragment` are never read by it and are left
out; the checks made while computing them are kept, since they decide whether
`Parse` fails. -/
structure URL where
  Scheme : GoString := []
  Opaque : GoString := []
  Host : GoString := []
  Path : GoString := []
  RawQuery : GoString := []
  Fragment : GoString := []
  deriving DecidableEq, Repr

/-- `stringContainsCTLByte(s)`: whether `s` contains an ASCII control byte. -/
def stringContainsCTLByte (s : GoString) : Bool :=
  s.any (fun b => b.val < 32 || b.val = 127)

/-- The loop of `getScheme`: `i` is the loop index and the list argument is
`rawURL[i:]`. -/
def getSchemeLoop (rawURL : GoString) : Nat → GoString → Except UrlError (GoString × GoString)
  | _, [] => .ok ([], rawURL)
  | i, c :: rest =>
    if (97 ≤ c.val && c.val ≤ 122) || (65 ≤ c.val && c.val ≤ 90) then
      getSchemeLoop rawURL (i + 1) rest
    else if (48 ≤ c.val && c.val ≤ 57) || c = ch '+' || c = ch '-' || c = ch '.' then
      if i = 0 then .ok ([], rawURL) else getSchemeLoop rawURL (i + 1) rest
    else if c = ch ':' then
      if i = 0 then .error (.other "missing protocol scheme")
      else .ok (rawURL.take i, rawURL.drop (i + 1))
    else
      .ok ([], rawURL)

/-- `getScheme(rawURL)`: `(scheme, path)`, splitting off a leading `scheme:`. -/
def getScheme (rawURL : GoString) : Except UrlError (GoString × GoString) :=
  getSchemeLoop rawURL 0 rawURL

/-- `validOptionalPort(port)`: `port` is empty or `:` followed by digits. The
Go loop ranges over runes; a byte of a multi-byte rune is never a digit, so the
bytewise test is the same. -/
def validOptionalPort : GoString → Bool
  | [] => true
  | c :: rest => c == ch ':' && rest.all (fun b => 48 ≤ b.val && b.val ≤ 57)

/-- `validUserinfo(s)`. The Go loop ranges over runes; every accepted rune is
ASCII, so the bytewise test is the same. -/
def validUserinfo (s : GoString) : Bool :=
  s.all (fun r =>
    (65 ≤ r.val && r.val ≤ 90) || (97 ≤ r.val && r.val ≤ 122) || (48 ≤ r.val && r.val ≤ 57)
      || (B "-._:~!$&\x27()*+,;=%@").contains r)

/-- `parseHost(host)`: checks and unescapes an authority without user
information, `host[:port]`. -/
def parseHost (host : GoString) : Except UrlError GoString :=
  if hasPrefix host (B "[") then
    -- an IP-literal, e.g. "[fe80::1]", "[fe80::1%25en0]", "[fe80::1]:80"
    match lastIndex host (B "]") with
    | none => .error (.other "missing ']' in host")
    | some i =>
      let colonPort := host.drop (i + 1)
      if !validOptionalPort colonPort then .error (.other "invalid port after host")
      else
        match index (host.take i) (B "%25") with
        | some zone =>
          match unescape .encodeHost (host.take zone) with
          | .error e => .error e
          | .ok host1 =>
            match unescape .encodeZone ((host.take i).drop zone) with
            | .error e => .error e
            | .ok host2 =>
              match unescape .encodeHost (host.drop i) with
              | .error e => .error e
              | .ok host3 => .ok (host1 ++ host2 ++ host3)
        | none => unescape .encodeHost host
  else
    match lastIndex host (B ":") with
    | some i =>
      if !validOptionalPort (host.drop i) then .error (.other "invalid port after host")
      else unescape .encodeHost host
    | none => unescape .encodeHost host

/-- `parseAuthority(authority)`, returning the host; the user information is
validated and unescaped as in Go (an error there fails the parse) and then
dropped, since the repository never reads `URL.User`. -/
def parseAuthority (authority : GoString) : Except UrlError GoString :=
  match lastIndex authority (B "@") with
  | none => parseHost authority
  | some i =>
    match parseHost (authority.drop (i + 1)) with
    | .error e => .error e
    | .ok host =>
      let userinfo := authority.take i
      if !validUserinfo userinfo then .error (.other "net/url: invalid userinfo")
      else if !contains userinfo (B ":") then
        match unescape .encodeUserPassword userinfo with
        | .error e => .error e
        | .ok _ => .ok host
      else
        let (username, password, _) := cut userinfo (B ":")
        match unescape .encodeUserPassword username with
        | .error e => .error e
        | .ok _ =>
          match unescape .encodeUserPassword password with
          | .error e => .error e
          | .ok _ => .ok host

/-- The end of `parse`: `url.setPath(rest)`, which unescapes the path. -/
def setPath (url : URL) (p : GoString) : Except UrlError URL :=
  match unescape .encodePath p with
  | .error e => .error e
  | .ok path => .ok { url with Path := path }

/-- `parse(rawURL, viaRequest)` with `viaRequest = false`, as `Parse` calls it.
`strings.ToLower` of the scheme is the bytewise map: `getScheme` returns only
ASCII letters, digits, `+`, `-` and `.` as a scheme. -/
def parse (rawURL : GoString) : Except UrlError URL :=
  if stringContainsCTLByte rawURL then
    .error (.other "net/url: invalid control character in URL")
  else if rawURL = B "*" then
    .ok { Path := B "*" }
  else
    match getScheme rawURL with
    | .error e => .error e
    | .ok (scheme, rest) =>
      let scheme := scheme.map lowerByte
      let (rest, rawQuery) :=
        if hasSuffix rest (B "?") && countByte rest (ch '?') == 1 then
          (rest.take (rest.length - 1), [])
        else
          ((cut rest (B "?")).1, (cut rest (B "?")).2.1)
      let url : URL := { Scheme := scheme, RawQuery := rawQuery }
      if !hasPrefix rest (B "/") && scheme ≠ [] then
        -- rootless paths are opaque
        .ok { url with Opaque := rest }
      else if !hasPrefix rest (B "/") && contains (cut rest (B "/")).1 (B ":") then
        .error (.other "first path segment in URL cannot contain colon")
      else if (scheme ≠ [] || !hasPrefix rest (B "///")) && hasPrefix rest (B "//") then
        let authority := rest.drop 2
        let (authority, rest) :=
          match index authority (B "/") with
          | some i => (authority.take i, authority.drop i)
          | none => (authority, [])
        match parseAuthority authority with
        | .error e => .error e
        | .ok host => setPath { url with Host := host } rest
      else
        setPath url rest

/-- `url.Parse(rawURL)`: cuts off the fragment, parses the rest and sets the
fragment. Go wraps a failure in `*url.Error`; the cause is returned here. -/
def Parse (rawURL : GoString) : Except UrlError URL :=
  let (u, frag, _) := cut rawURL (B "#")
  match parse u with
  | .error e => .error e
  | .ok url =>
    if frag = [] then .ok url
    else
      match unescape .encodeFragment frag with
      | .error e => .error e
      | .ok f => .ok { url with Fragment := f }

/-- `splitHostPort(hostPort)`, returning the host: the port is cut off at the
last colon when what follows is a valid port, then the square brackets of an
IPv6 literal are removed. -/
def splitHostPort (hostPort : GoString) : GoString :=
  let host :=
    match lastIndex hostPort (B ":") with
    | some colon => if validOptionalPort (hostPort.drop colon) then hostPort.take colon else hostPort
    | none => hostPort
  if hasPrefix host (B "[") && hasSuffix host (B "]") then
    (host.drop 1).take (host.length - 2)
  else host

/-- `u.Hostname()`: `u.Host` without port and brackets. -/
def URL.Hostname (u : URL) : GoString := splitHostPort u.Host

/-- `u.Query()`: the parsed `RawQuery`; malformed pairs are dropped. -/
def URL.Query (u : URL) : Values := parseQuery u.RawQuery

/-! ## `api/models`, `api/apperrors`, `config` -/

structure AndroidParameters where
  AndroidPackageName : GoString := []
  AndroidFallbackLink : GoString := []
  AndroidMinPackageVersionCode : GoString := []
  deriving DecidableEq, Repr

structure IosParameters where
  IosFallbackLink : GoString := []
  IosIpadFallbackLink : GoString := []
  IosAppStoreId : GoString := []
  deriving DecidableEq, Repr

structure OtherPlatformParameters where
  FallbackURL : GoString := []
  deriving DecidableEq, Repr

structure MarketingParameters where
  UtmSource : GoString := []
  UtmMedium : GoString := []
  UtmCampaign : GoString := []
  UtmTerm : GoString := []
  UtmContent : GoString := []
  deriving DecidableEq, Repr

structure ItunesConnectAnalytics where
  At : GoString := []
  Ct : GoString := []
  Mt : GoString := []
  Pt : GoString := []
  deriving DecidableEq, Repr

structure AnalyticsInfo where
  MarketingParameters : MarketingParameters := {}
  ItunesConnectAnalytics : ItunesConnectAnalytics := {}
  deriving DecidableEq, Repr

structure SocialMetaTagInfo where
  SocialTitle : GoString := []
  SocialDescription : GoString := []
  SocialImageLink : GoString := []
  deriving DecidableEq, Repr

structure DynamicLinkInfo where
  Host : GoString := []
  Link : GoString := []
  AndroidParameters : AndroidParameters := {}
  IosParameters : IosParameters := {}
  OtherPlatformParameters : OtherPlatformParameters := {}
  AnalyticsInfo : AnalyticsInfo := {}
  SocialMetaTagInfo : SocialMetaTagInfo := {}
  deriving DecidableEq, Repr

/-- The suffix option: `"SHORT"` or `"UNGUESSABLE"`. -/
structure Suffix where
  Option : GoString := []
  deriving DecidableEq, Repr

/-- `models.CreateDynamicLinkRequest`; `{}` is the Go zero value. -/
structure CreateDynamicLinkRequest where
  DynamicLinkInfo : DynamicLinkInfo := {}
  Suffix : Suffix := {}
  deriving DecidableEq, Repr

/-- Modelled from the spec: the declaration of `models.Warning` is not among
the sources; the spec gives a warning "a code (from a small fixed vocabulary:
MALFORMED_PARAM, UNRECOGNIZED_PARAM) and a human-readable message", and the
composite literals of `CreateDynamicLink` name the two fields. -/
structure Warning where
  WarningCode : String
  WarningMessage : String
  deriving DecidableEq, Repr

structure ShortLinkResponse where
  ShortLink : GoString
  Warnings : List Warning
  deriving DecidableEq, Repr

structure LongLinkResponse where
  LongLink : GoString
  deriving DecidableEq, Repr

/-- Go `error` values that the program returns. The first ten are the sentinel
values of package `apperrors`; `sqlErrNoRows` is `sql.ErrNoRows`; `driver` is
any other error coming from `database/sql` or the database driver; `url` is an
error of `net/url`; `errorf` is `fmt.Errorf` of a plain message; `errorfV` is
`fmt.Errorf` formatting a `net/url` error with `%v` (its text only); and
`wrap msg cause` is `fmt.Errorf("msg: %w", cause)`. -/
inductive AppError
  | ErrInvalidURLFormat
  | ErrHostInvalid
  | ErrInvalidAppStoreID
  | ErrDomainLinkNotAllowed
  | ErrInvalidPathFormat
  | ErrInvalidRequestedLink
  | ErrInvalidFormat
  | ErrMissingHost
  | ErrMissingLink
  | ErrLinkNotFound
  | sqlErrNoRows
  | driver (msg : String)
  | url (e : UrlError)
  | errorf (msg : String)
  | errorfV (msg : String) (e : UrlError)
  | wrap (msg : String) (cause : AppError)
  deriving DecidableEq, Repr

/-- `errors.Is(err, target)` for a sentinel `target`: walks the `%w` chain. -/
def AppError.is : AppError → AppError → Bool
  | .wrap msg cause, target => (AppError.wrap msg cause == target) || AppError.is cause target
  | e, target => e == target

/-- The fields of `config.Config` that the service reads. The path lengths are
Go `int`s and may be zero or negative. -/
structure Config where
  ShortPathLength : Int
  UnguessablePathLength : Int
  URLScheme : GoString
  DomainAllowList : List GoString

/-! ## `utils` -/

/-- `utils.ValidateURLScheme(urlStr)`: `none` is the `nil` error. -/
def ValidateURLScheme (urlStr : GoString) : Option AppError :=
  match Parse urlStr with
  | .error e => some (.errorfV "invalid URL format: " e)
  | .ok u =>
    if [B "http", B "https"].contains u.Scheme then none
    else some (.errorf "link has invalid scheme. Must have schemes [http https]")

/-- `utils.IsURL(str)`. -/
def IsURL (str : GoString) : Bool :=
  match Parse str with
  | .error _ => false
  | .ok u => u.Scheme ≠ [] && u.Host ≠ []

/-- `utils.CleanHost(raw)`. -/
def CleanHost (U : Unicode) (raw : GoString) : Except AppError GoString :=
  let raw := trimSpace U raw
  if raw = [] then .error (.errorf "host is required")
  else
    let raw := if !contains raw (B "://") then B "https://" ++ raw else raw
    match Parse raw with
    | .error e => .error (.url e)
    | .ok u => .ok u.Hostname

/-- `utils.IsNumericString(s)`. The Go loop ranges over the runes of `s`; a
byte of a multi-byte (or invalid) encoding decodes to a rune above `'9'`, so
the test on bytes is the same. -/
def IsNumericString (s : GoString) : Bool :=
  if s = [] then true
  else s.all (fun c => !(c.val < 48 || c.val > 57))

/-- `utils.IsDomainAllowed(allowList, rawLink)`. -/
def IsDomainAllowed (U : Unicode) (allowList : List GoString) (rawLink : GoString) : Bool :=
  match Parse rawLink with
  | .error _ => false
  | .ok u =>
    let host := toLower U u.Hostname
    allowList.any (fun allowed => host == toLower U (trimSpace U allowed))

/-- The constant `alphanumeric` of `GenerateDynamicLinkPath`. -/
def alphanumeric : GoString :=
  B "abcdefghijklmnopqrstuvwxyzABCDEFGHIJKLMNOPQRSTUVWXYZ0123456789"

/-- `utils.GenerateDynamicLinkPath(length)`. `rand` is what `crypto/rand`
delivers: `rand i` is the `i`-th byte that `rand.Read(b)` writes (a failing
source ends the process and delivers nothing). `none` is a Go panic:
`make([]byte, length)` panics for a negative length, and an index outside
`alphanumeric` would panic too. -/
def GenerateDynamicLinkPath (rand : Nat → Byte) (length : Int) : Option GoString :=
  if length < 0 then none
  else
    let b := (List.range length.toNat).map rand
    b.mapM (fun x => alphanumeric.get? (x.val % (alphanumeric.length % 256)))

/-! ## `api/repository` -/

/-- A row of the table `dynamic_links`. -/
structure ShortLinkRecord where
  host : GoString
  path : GoString
  query_params : GoString
  is_unguessable_path : Bool
  deriving DecidableEq, Repr

/-- The table `dynamic_links`: its rows, in the order in which the database
returns them (new rows are added at the end). -/
abbrev Store := List ShortLinkRecord

/-- What the world outside the program does during one service call: the
bytes the random source delivers, and for each of the three statements
whether the database (driver, connection) fails it and with which message;
`none` means that the statement is executed. -/
structure Env where
  rand : Nat → Byte
  findErr : Option String := none
  insertErr : Option String := none
  getErr : Option String := none

/-- `linkRepository.GetQueryParamsByHostAndPath`: the `query_params` of the
first row with this host and path. -/
def GetQueryParamsByHostAndPath (env : Env) (store : Store) (host path : GoString) :
    Except AppError GoString :=
  match env.getErr with
  | some msg => .error (.wrap "database error" (.driver msg))
  | none =>
    match store.find? (fun r => r.host = host ∧ r.path = path) with
    | none => .error .ErrLinkNotFound
    | some r => .ok r.query_params

/-- `linkRepository.FindExistingShortLink`: the `path` of the first guessable
row with this host and query string (`LIMIT 1`); `sql.ErrNoRows` if there is
none; the driver's error unchanged otherwise. -/
def FindExistingShortLink (env : Env) (store : Store) (host rawQS : GoString) :
    Except AppError GoString :=
  match env.findErr with
  | some msg => .error (.driver msg)
  | none =>
    match store.find? (fun r => r.host = host ∧ r.query_params = rawQS
        ∧ r.is_unguessable_path = false) with
    | none => .error .sqlErrNoRows
    | some r => .ok r.path

/-- `linkRepository.CreateShortLink`: the `INSERT`. Returns the table after the
statement and the error (`none` for `nil`); a failed statement adds no row. -/
def CreateShortLink (env : Env) (store : Store) (host path rawQS : GoString)
    (unguessable : Bool) : Store × Option AppError :=
  match env.insertErr with
  | some msg => (store, some (.driver msg))
  | none => (store ++ [⟨host, path, rawQS, unguessable⟩], none)

/-! ## `api/service` -/

/-- How a call ends: `ok a` is `return a, nil`, `error e` is `return nil, e`,
and `panic` is a Go panic unwinding the call. -/
inductive Result (α : Type)
  | ok (a : α)
  | error (e : AppError)
  | panic
  deriving DecidableEq, Repr

/-- What a service call does to the world outside, in order: `find` is the
reuse query of `FindExistingShortLink`, `generate` a call of
`GenerateDynamicLinkPath` with the path it returned, `insert` the `INSERT` of
`CreateShortLink` with the row it sends, `get` the query of
`GetQueryParamsByHostAndPath`. -/
inductive Event
  | find (host rawQS : GoString)
  | generate (length : Int) (path : GoString)
  | insert (row : ShortLinkRecord)
  | get (host path : GoString)
  deriving DecidableEq, Repr

/-- A finished service call: its result, the table afterwards, and what it did. -/
structure Run (α : Type) where
  result : Result α
  store : Store
  trace : List Event

/-- `fmt.Sprintf("%s://%s/%s", scheme, host, path)`. -/
def sprintfLink (scheme host path : GoString) : GoString :=
  scheme ++ B "://" ++ host ++ B "/" ++ path

/-- `linkService.getLongLinkFromHostAndPath`. -/
def getLongLinkFromHostAndPath (cfg : Config) (env : Env) (store : Store)
    (host path : GoString) : Run LongLinkResponse :=
  match GetQueryParamsByHostAndPath env store host path with
  | .error e => ⟨.error e, store, [.get host path]⟩
  | .ok rawQueryStr =>
    let longLink := sprintfLink cfg.URLScheme host path
    let longLink := if rawQueryStr ≠ [] then longLink ++ B "?" ++ rawQueryStr else longLink
    ⟨.ok { LongLink := longLink }, store, [.get host path]⟩

/-- The closure `addParam` of `CreateDynamicLink`. -/
def addParam (queryParams : Values) (key value : GoString) : Values :=
  if value ≠ [] then Values.Add queryParams key value else queryParams

/-- The `queryParams` that `CreateDynamicLink` builds (lines 94-135 and
185-187), with the `Add` calls in source order. -/
def buildQueryParams (params : CreateDynamicLinkRequest) : Values :=
  let info := params.DynamicLinkInfo
  let isi := info.IosParameters.IosAppStoreId
  let q := Values.Add [] (B "link") info.Link
  let q := addParam q (B "apn") info.AndroidParameters.AndroidPackageName
  let q := addParam q (B "afl") info.AndroidParameters.AndroidFallbackLink
  let q := addParam q (B "amv") info.AndroidParameters.AndroidMinPackageVersionCode
  let q := addParam q (B "ifl") info.IosParameters.IosFallbackLink
  let q := addParam q (B "ipfl") info.IosParameters.IosIpadFallbackLink
  let q := addParam q (B "isi") isi
  let q := addParam q (B "ofl") info.OtherPlatformParameters.FallbackURL
  let q := addParam q (B "st") info.SocialMetaTagInfo.SocialTitle
  let q := addParam q (B "sd") info.SocialMetaTagInfo.SocialDescription
  let q := addParam q (B "si") info.SocialMetaTagInfo.SocialImageLink
  let q := addParam q (B "utm_source") info.AnalyticsInfo.MarketingParameters.UtmSource
  let q := addParam q (B "utm_medium") info.AnalyticsInfo.MarketingParameters.UtmMedium
  let q := addParam q (B "utm_campaign") info.AnalyticsInfo.MarketingParameters.UtmCampaign
  let q := addParam q (B "utm_term") info.AnalyticsInfo.MarketingParameters.UtmTerm
  let q := addParam q (B "utm_content") info.AnalyticsInfo.MarketingParameters.UtmContent
  let q := addParam q (B "pt") info.AnalyticsInfo.ItunesConnectAnalytics.Pt
  let q := addParam q (B "at") info.AnalyticsInfo.ItunesConnectAnalytics.At
  let q := addParam q (B "ct") info.AnalyticsInfo.ItunesConnectAnalytics.Ct
  let q := addParam q (B "mt") info.AnalyticsInfo.ItunesConnectAnalytics.Mt
  q

/-- The warning appended when `value` is non-empty. -/
def warnIf (value : GoString) (code message : String) : List Warning :=
  if value ≠ [] then [⟨code, message⟩] else []

/-- The `warnings` that `CreateDynamicLink` accumulates (lines 65, 120-127 and
137-183), in the order of the `append` calls. -/
def buildWarnings (params : CreateDynamicLinkRequest) : List Warning :=
  let info := params.DynamicLinkInfo
  let isi := info.IosParameters.IosAppStoreId
  let si := info.SocialMetaTagInfo.SocialImageLink
  let ica := info.AnalyticsInfo.ItunesConnectAnalytics
  let pt := ica.Pt
  (if si ≠ [] ∧ !IsURL si then
      [⟨"MALFORMED_PARAM", "Param \x27si\x27 is not a valid URL"⟩]
    else [])
  ++ (if isi = [] then
      warnIf ica.At "UNRECOGNIZED_PARAM" "Param \x27at\x27 is not needed, since \x27isi\x27 is not specified."
      ++ warnIf ica.Ct "UNRECOGNIZED_PARAM" "Param \x27ct\x27 is not needed, since \x27isi\x27 is not specified."
      ++ warnIf ica.Mt "UNRECOGNIZED_PARAM" "Param \x27mt\x27 is not needed, since \x27isi\x27 is not specified."
      ++ warnIf ica.Pt "UNRECOGNIZED_PARAM" "Param \x27pt\x27 is not needed, since \x27isi\x27 is not specified."
    else [])
  ++ (if pt = [] then
      warnIf ica.At "UNRECOGNIZED_PARAM" "Param \x27at\x27 is not needed, since \x27pt\x27 is not specified."
      ++ warnIf ica.Ct "UNRECOGNIZED_PARAM" "Param \x27ct\x27 is not needed, since \x27pt\x27 is not specified."
      ++ warnIf ica.Mt "UNRECOGNIZED_PARAM" "Param \x27mt\x27 is not needed, since \x27pt\x27 is not specified."
    else [])

/-- The second half of `createOrGetShortLink` (lines 322-338): generate a
path, insert the row, answer with the full link. `pre` is what the call did
before. -/
def createNewShortLink (cfg : Config) (env : Env) (store : Store) (host rawQS : GoString)
    (shortPath : Bool) (pre : List Event) : Run ShortLinkResponse :=
  let length := if !shortPath then cfg.UnguessablePathLength else cfg.ShortPathLength
  match GenerateDynamicLinkPath env.rand length with
  | none => ⟨.panic, store, pre⟩
  | some path =>
    let row : ShortLinkRecord := ⟨host, path, rawQS, !shortPath⟩
    match CreateShortLink env store host path rawQS (!shortPath) with
    | (store, some err) =>
      ⟨.error (.wrap "failed to store link" err), store, pre ++ [.generate length path, .insert row]⟩
    | (store, none) =>
      ⟨.ok { ShortLink := sprintfLink cfg.URLScheme host path, Warnings := [] }, store,
        pre ++ [.generate length path, .insert row]⟩

/-- `linkService.createOrGetShortLink`. -/
def createOrGetShortLink (cfg : Config) (env : Env) (store : Store) (host : GoString)
    (queryParams : Values) (shortPath : Bool) : Run ShortLinkResponse :=
  let rawQS := Values.Encode queryParams
  if shortPath then
    match FindExistingShortLink env store host rawQS with
    | .ok path =>
      ⟨.ok { ShortLink := sprintfLink cfg.URLScheme host path, Warnings := [] }, store,
        [.find host rawQS]⟩
    | .error err =>
      if err ≠ .sqlErrNoRows then ⟨.error err, store, [.find host rawQS]⟩
      else createNewShortLink cfg env store host rawQS shortPath [.find host rawQS]
  else
    createNewShortLink cfg env store host rawQS shortPath []

/-- `linkService.CreateDynamicLink`. -/
def CreateDynamicLink (U : Unicode) (cfg : Config) (env : Env) (store : Store)
    (params : CreateDynamicLinkRequest) : Run ShortLinkResponse :=
  match CleanHost U params.DynamicLinkInfo.Host with
  | .error err => ⟨.error (.wrap "invalid host" err), store, []⟩
  | .ok host =>
    if !IsDomainAllowed U cfg.DomainAllowList params.DynamicLinkInfo.Link then
      ⟨.error .ErrDomainLinkNotAllowed, store, []⟩
    else
      let isi := params.DynamicLinkInfo.IosParameters.IosAppStoreId
      if isi ≠ [] ∧ !IsNumericString isi then
        ⟨.error .ErrInvalidAppStoreID, store, []⟩
      else
        let queryParams := buildQueryParams params
        let warnings := buildWarnings params
        let shortPath : Bool := params.Suffix.Option = B "SHORT"
        let r := createOrGetShortLink cfg env store host queryParams shortPath
        match r.result with
        | .ok response => ⟨.ok { response with Warnings := warnings }, r.store, r.trace⟩
        | .error err => ⟨.error err, r.store, r.trace⟩
        | .panic => ⟨.panic, r.store, r.trace⟩

/-- `queryParam.Get(key)` guarded by `!= ""`, as `ParseLongDynamicLink` reads
every optional field: the field keeps its zero value `""` otherwise. -/
def getField (params : Values) (key : GoString) : GoString :=
  if Values.Get params key ≠ [] then Values.Get params key else []

/-- `linkService.ParseLongDynamicLink`: the request and the error (`none` for
`nil`), as the Go function returns both. -/
def ParseLongDynamicLink (longDynamicLink : GoString) :
    CreateDynamicLinkRequest × Option AppError :=
  match Parse longDynamicLink with
  | .error _ => ({}, some .ErrInvalidURLFormat)
  | .ok u =>
    if u.Host = [] then ({}, some .ErrHostInvalid)
    else
      let params := u.Query
      ({ DynamicLinkInfo :=
          { Host := u.Host
            Link := Values.Get params (B "link")
            AndroidParameters :=
              { AndroidPackageName := getField params (B "apn")
                AndroidFallbackLink := getField params (B "afl")
                AndroidMinPackageVersionCode := getField params (B "amv") }
            IosParameters :=
              { IosAppStoreId := getField params (B "isi")
                IosFallbackLink := getField params (B "ifl")
                IosIpadFallbackLink := getField params (B "ipfl") }
            OtherPlatformParameters := { FallbackURL := getField params (B "ofl") }
            AnalyticsInfo :=
              { MarketingParameters :=
                  { UtmSource := getField params (B "utm_source")
                    UtmMedium := getField params (B "utm_medium")
                    UtmCampaign := getField params (B "utm_campaign")
                    UtmTerm := getField params (B "utm_term")
                    UtmContent := getField params (B "utm_content") }
                ItunesConnectAnalytics :=
                  { At := getField params (B "at")
                    Ct := getField params (B "ct")
                    Mt := getField params (B "mt")
                    Pt := getField params (B "pt") } }
            SocialMetaTagInfo :=
              { SocialTitle := getField params (B "st")
                SocialDescription := getField params (B "sd")
                SocialImageLink := getField params (B "si") } }
         Suffix := { Option := getField params (B "path") } }, none)

/-- `linkService.ResolveShortPath`. -/
def ResolveShortPath (cfg : Config) (env : Env) (store : Store) (rawURL : GoString) :
    Run LongLinkResponse :=
  match Parse rawURL with
  | .error _ => ⟨.error .ErrInvalidRequestedLink, store, []⟩
  | .ok u =>
    let host := u.Host
    let pathParts := splitByte (trim u.Path (B "/")) (ch '/')
    match pathParts with
    | [part] => getLongLinkFromHostAndPath cfg env store host part
    | _ => ⟨.error (.wrap "unexpected path format" .ErrInvalidPathFormat), store, []⟩

/-! ## Reference definitions of the canonical query string -/

/-- The query string that `CreateDynamicLink` hands to the repository: `rawQS`
of `createOrGetShortLink` for the `queryParams` built from the request. -/
def canonicalQuery (params : CreateDynamicLinkRequest) : GoString :=
  Values.Encode (buildQueryParams params)

/-- The fields of a request under their query keys, in alphabetical key order. -/
def alphabeticalPairs (info : DynamicLinkInfo) : List (GoString × GoString) :=
  [ (B "afl", info.AndroidParameters.AndroidFallbackLink),
    (B "amv", info.AndroidParameters.AndroidMinPackageVersionCode),
    (B "apn", info.AndroidParameters.AndroidPackageName),
    (B "at", info.AnalyticsInfo.ItunesConnectAnalytics.At),
    (B "ct", info.AnalyticsInfo.ItunesConnectAnalytics.Ct),
    (B "ifl", info.IosParameters.IosFallbackLink),
    (B "ipfl", info.IosParameters.IosIpadFallbackLink),
    (B "isi", info.IosParameters.IosAppStoreId),
    (B "link", info.Link),
    (B "mt", info.AnalyticsInfo.ItunesConnectAnalytics.Mt),
    (B "ofl", info.OtherPlatformParameters.FallbackURL),
    (B "pt", info.AnalyticsInfo.ItunesConnectAnalytics.Pt),
    (B "sd", info.SocialMetaTagInfo.SocialDescription),
    (B "si", info.SocialMetaTagInfo.SocialImageLink),
    (B "st", info.SocialMetaTagInfo.SocialTitle),
    (B "utm_campaign", info.AnalyticsInfo.MarketingParameters.UtmCampaign),
    (B "utm_content", info.AnalyticsInfo.MarketingParameters.UtmContent),
    (B "utm_medium", info.AnalyticsInfo.MarketingParameters.UtmMedium),
    (B "utm_source", info.AnalyticsInfo.MarketingParameters.UtmSource),
    (B "utm_term", info.AnalyticsInfo.MarketingParameters.UtmTerm) ]

/-- The fields of a request under their query keys, in the order in which the
specification lists the keys of encode: link, apn, afl, amv, ifl, ipfl, isi,
ofl, st, sd, si, utm_source, utm_medium, utm_campaign, utm_term, utm_content,
at, ct, mt, pt. -/
def fixedOrderPairs (info : DynamicLinkInfo) : List (GoString × GoString) :=
  [ (B "link", info.Link),
    (B "apn", info.AndroidParameters.AndroidPackageName),
    (B "afl", info.AndroidParameters.AndroidFallbackLink),
    (B "amv", info.AndroidParameters.AndroidMinPackageVersionCode),
    (B "ifl", info.IosParameters.IosFallbackLink),
    (B "ipfl", info.IosParameters.IosIpadFallbackLink),
    (B "isi", info.IosParameters.IosAppStoreId),
    (B "ofl", info.OtherPlatformParameters.FallbackURL),
    (B "st", info.SocialMetaTagInfo.SocialTitle),
    (B "sd", info.SocialMetaTagInfo.SocialDescription),
    (B "si", info.SocialMetaTagInfo.SocialImageLink),
    (B "utm_source", info.AnalyticsInfo.MarketingParameters.UtmSource),
    (B "utm_medium", info.AnalyticsInfo.MarketingParameters.UtmMedium),
    (B "utm_campaign", info.AnalyticsInfo.MarketingParameters.UtmCampaign),
    (B "utm_term", info.AnalyticsInfo.MarketingParameters.UtmTerm),
    (B "utm_content", info.AnalyticsInfo.MarketingParameters.UtmContent),
    (B "at", info.AnalyticsInfo.ItunesConnectAnalytics.At),
    (B "ct", info.AnalyticsInfo.ItunesConnectAnalytics.Ct),
    (B "mt", info.AnalyticsInfo.ItunesConnectAnalytics.Mt),
    (B "pt", info.AnalyticsInfo.ItunesConnectAnalytics.Pt) ]

/-- Whether a key/value pair is written: `link` always, any other key when its
value is non-empty. -/
def emitted (kv : GoString × GoString) : Bool :=
  kv.1 = B "link" || kv.2 ≠ []

/-- The piece `key=QueryEscape(value)` of a pair. -/
def piece (kv : GoString × GoString) : GoString :=
  kv.1 ++ B "=" ++ QueryEscape kv.2

/-- The pieces joined by `&`. -/
def joinAmp : List GoString → GoString
  | [] => []
  | [x] => x
  | x :: y :: rest => x ++ ch '&' :: joinAmp (y :: rest)

/-- Reference definition following the specification: the `&`-joined list of
`key=QueryEscape(value)` for `link` and for every optional field whose value is
non-empty, sorted alphabetically by key. -/
def referenceQuery (info : DynamicLinkInfo) : GoString :=
  joinAmp (((alphabeticalPairs info).filter emitted).map piece)

/-- The query string as section 4.1 of the specification words it: the same
pieces, in the fixed order of `fixedOrderPairs`. -/
def fixedOrderQuery (info : DynamicLinkInfo) : GoString :=
  joinAmp (((fixedOrderPairs info).filter emitted).map piece)

/-- The keys of a query string, in the order in which they appear: the text
before the first `=` of each `&`-separated piece. -/
def keysOf (q : GoString) : List GoString :=
  (splitByte q (ch '&')).map (fun kv => (cut kv (B "=")).1)

/-- ASCII letters. -/
def isLetter (c : Byte) : Bool := (97 ≤ c.val && c.val ≤ 122) || (65 ≤ c.val && c.val ≤ 90)

/-- ASCII digits. -/
def isDigit (c : Byte) : Bool := 48 ≤ c.val && c.val ≤ 57

/-- The bytes of a plain hostname: ASCII letters, digits, `.` and `-`. -/
def isHostnameByte (c : Byte) : Bool := isLetter c || isDigit c || c = ch '.' || c = ch '-'

/-- The bytes of a URL scheme after its first letter. -/
def isSchemeByte (c : Byte) : Bool :=
  isLetter c || isDigit c || c = ch '+' || c = ch '-' || c = ch '.'

/-- A plain hostname: non-empty, made of ASCII letters, digits, `.` and `-`. -/
def isPlainHostname (h : GoString) : Bool := h ≠ [] && h.all isHostnameByte

/-- A URL scheme as RFC 3986 writes it: a letter followed by letters, digits,
`+`, `-` and `.`. -/
def isValidScheme (s : GoString) : Bool :=
  match s with
  | [] => false
  | c :: rest => isLetter c && rest.all isSchemeByte

/-- The query keys in the order in which `CreateDynamicLink` adds them. -/
def sourceKeys : List GoString :=
  [ B "link", B "apn", B "afl", B "amv", B "ifl", B "ipfl", B "isi", B "ofl", B "st", B "sd",
    B "si", B "utm_source", B "utm_medium", B "utm_campaign", B "utm_term", B "utm_content",
    B "pt", B "at", B "ct", B "mt" ]

/-- The query keys in alphabetical order. -/
def alphabeticalKeys : List GoString :=
  [ B "afl", B "amv", B "apn", B "at", B "ct", B "ifl", B "ipfl", B "isi", B "link", B "mt",
    B "ofl", B "pt", B "sd", B "si", B "st", B "utm_campaign", B "utm_content", B "utm_medium",
    B "utm_source", B "utm_term" ]

/-- The field of a request that a query key stands for (`""` for any other key). -/
def fieldValue (info : DynamicLinkInfo) (key : GoString) : GoString :=
  ((alphabeticalPairs info).lookup key).getD []

/-- Whether the key is written for this request. -/
def keyEmitted (info : DynamicLinkInfo) (key : GoString) : Bool :=
  emitted (key, fieldValue info key)

/-! ## Auxiliary definitions: byte classes, helper views of the service, sample inputs -/

/-- The values map holding exactly one value `f k` under each key of `ks`. -/
def single (f : GoString → GoString) (ks : List GoString) : Values :=
  ks.map (fun k => (k, [f k]))

/-- The text that `Encode` appends for the keys `ks`, each with the one value
`f k`, to a buffer that is not empty. -/
def ampPieces (f : GoString → GoString) (ks : List GoString) : GoString :=
  ks.flatMap (fun k => ch '&' :: (QueryEscape k ++ ch '=' :: QueryEscape (f k)))

/-- The length that `createOrGetShortLink` asks of the generator. -/
def pathLength (cfg : Config) (shortPath : Bool) : Int :=
  if !shortPath then cfg.UnguessablePathLength else cfg.ShortPathLength

/-- The bytes that `QueryEscape` writes: letters, digits, and `- _ . ~ + %`. -/
def querySafe (c : Byte) : Bool :=
  (97 ≤ c.val && c.val ≤ 122) || (65 ≤ c.val && c.val ≤ 90) || (48 ≤ c.val && c.val ≤ 57)
    || (B "-_.~+%").contains c

/-- The bytes of the query keys: lower-case letters and `_`. -/
def keyByte (c : Byte) : Bool := (97 ≤ c.val && c.val ≤ 122) || c = ch '_'

/-- Unicode fallbacks for inputs that are ASCII throughout (never reached). -/
def sampleUnicode : Unicode := ⟨id, id, id⟩

/-- The default configuration with `target.com` on the allow list. -/
def sampleConfig : Config :=
  { ShortPathLength := 6, UnguessablePathLength := 10, URLScheme := B "https",
    DomainAllowList := [B "target.com"] }

/-- A world in which the database executes every statement. -/
def sampleEnv : Env := { rand := fun i => Fin.ofNat (7 * i + 3) }

/-- A guessable request with `link` and `apn` set. -/
def sampleRequest : CreateDynamicLinkRequest :=
  { DynamicLinkInfo :=
      { Host := B "example.com", Link := B "https://target.com",
        AndroidParameters := { AndroidPackageName := B "com.app" } },
    Suffix := { Option := B "SHORT" } }

/-- The bytes of a query string that `Encode` writes: those of `QueryEscape`,
and the separators `&` and `=`. -/
def queryByte (c : Byte) : Bool := querySafe c || c = ch '&' || c = ch '='

/-- The checks that `CreateDynamicLink` makes before it builds the query
(lines 71-92): the cleaned host, or the error the call returns. -/
def validate (U : Unicode) (cfg : Config) (params : CreateDynamicLinkRequest) :
    Except AppError GoString :=
  match CleanHost U params.DynamicLinkInfo.Host with
  | .error err => .error (.wrap "invalid host" err)
  | .ok host =>
    if !IsDomainAllowed U cfg.DomainAllowList params.DynamicLinkInfo.Link then
      .error .ErrDomainLinkNotAllowed
    else if params.DynamicLinkInfo.IosParameters.IosAppStoreId ≠ [] ∧
        !IsNumericString params.DynamicLinkInfo.IosParameters.IosAppStoreId then
      .error .ErrInvalidAppStoreID
    else .ok host

/-- The result of `createOrGetShortLink` with the warnings attached (lines
191-196). -/
def attachWarnings (warnings : List Warning) : Result ShortLinkResponse → Result ShortLinkResponse
  | .ok response => .ok { response with Warnings := warnings }
  | .error err => .error err
  | .panic => .panic

/-- Whether the request asks for a guessable path. -/
def wantsShort (params : CreateDynamicLinkRequest) : Bool :=
  decide (params.Suffix.Option = B "SHORT")

/-- The rows that the reuse query selects. -/
def reusable (host rawQS : GoString) (r : ShortLinkRecord) : Bool :=
  decide (r.host = host ∧ r.query_params = rawQS ∧ r.is_unguessable_path = false)

/-- The character that `GenerateDynamicLinkPath` writes for the random byte `x`. -/
def pathByte (x : Byte) : Byte := alphanumeric.getD (x.val % 62) 0

/-- ASCII letters and digits. -/
def isAlnum (c : Byte) : Bool := isLetter c || isDigit c

/-- An unguessable request: the sample request without suffix option. -/
def sampleUnguessable : CreateDynamicLinkRequest := { sampleRequest with Suffix := {} }

/-- A table that already holds a guessable row for the sample request. -/
def sampleStore : Store :=
  [⟨B "example.com", B "abc123", B "apn=com.app&link=https%3A%2F%2Ftarget.com", false⟩]

/-- A world in which the reuse query fails. -/
def sampleEnvFindFails : Env := { rand := fun _ => 0, findErr := some "connection lost" }

/-- The bytes of the path of a short link: letters, digits and `/`. -/
def isPathByte (c : Byte) : Bool := isAlnum c || c = ch '/'

/-- A request whose dynamic-link host is on the allow list of `sampleConfig`
while its destination link is not. -/
def sampleForeignLink : CreateDynamicLinkRequest :=
  { DynamicLinkInfo := { Host := B "target.com", Link := B "https://other.com/x" },
    Suffix := { Option := B "SHORT" } }

/-- The sample request with the app-store id `12a`. -/
def sampleBadIsi : CreateDynamicLinkRequest :=
  { sampleRequest with
    DynamicLinkInfo :=
      { sampleRequest.DynamicLinkInfo with IosParameters := { IosAppStoreId := B "12a" } } }

/-- The sample request with every warning triggered: a social image that is
not a URL, and `at` set while `isi` and `pt` are empty. -/
def sampleWarned : CreateDynamicLinkRequest :=
  { sampleRequest with
    DynamicLinkInfo :=
      { sampleRequest.DynamicLinkInfo with
        SocialMetaTagInfo := { SocialImageLink := B "example.com" }
        AnalyticsInfo := { ItunesConnectAnalytics := { At := B "1000l" } } } }

/-- The warning `UNRECOGNIZED_PARAM` for the parameter `name`, not needed
because the parameter `missing` is not specified. -/
def unneeded (missing name : String) : Warning :=
  ⟨"UNRECOGNIZED_PARAM",
    "Param \x27" ++ name ++ "\x27 is not needed, since \x27" ++ missing ++ "\x27 is not specified."⟩

/-- The warning `MALFORMED_PARAM` for `si`. -/
def siWarning : Warning := ⟨"MALFORMED_PARAM", "Param \x27si\x27 is not a valid URL"⟩

/-- Whether `w` is an `UNRECOGNIZED_PARAM` warning that names `missing` as not
specified. -/
def blames (missing : String) (w : Warning) : Bool :=
  w.WarningCode = "UNRECOGNIZED_PARAM"
    && ("since \x27" ++ missing ++ "\x27 is not specified.").toList.isSuffixOf
        w.WarningMessage.toList

/-- Whether `w` is an `UNRECOGNIZED_PARAM` warning for the parameter `name`. -/
def isAbout (name : String) (w : Warning) : Bool :=
  w.WarningCode = "UNRECOGNIZED_PARAM"
    && ("Param \x27" ++ name ++ "\x27 ").toList.isPrefixOf w.WarningMessage.toList

/-- The warnings of one rule, as the specification words it: one warning
`unneeded missing name` for each of the named fields that is non-empty. -/
def unneededFor (missing : String) (fields : List (String × GoString)) : List Warning :=
  (fields.filter (fun nv => nv.2 ≠ [])).map (fun nv => unneeded missing nv.1)

/-- Whether `w` carries the code `MALFORMED_PARAM`. -/
def isMalformed (w : Warning) : Bool := w.WarningCode = "MALFORMED_PARAM"

/-- The response to `sampleWarned` on an empty table under `sampleEnv`. -/
def sampleWarnedResponse : ShortLinkResponse :=
  ⟨B "https://example.com/dkryFM", [siWarning, unneeded "isi" "at", unneeded "pt" "at"]⟩

/-- The rows that the resolve query selects. -/
def stored (host path : GoString) (r : ShortLinkRecord) : Bool :=
  decide (r.host = host ∧ r.path = path)

/-- What one `&`-separated piece `key=value` of a raw query contributes: the
unescaped key and value; nothing for an empty piece, a piece with a semicolon,
or a piece whose key or value is not well escaped. -/
def decodePiece (p : GoString) : Option (GoString × GoString) :=
  if contains p (B ";") then none
  else if p = [] then none
  else
    match QueryUnescape (cut p (B "=")).1, QueryUnescape (cut p (B "=")).2.1 with
    | .ok key, .ok value => some (key, value)
    | _, _ => none

/-- The key/value pairs of a raw query, in the order in which they appear. -/
def decodedPairs (q : GoString) : List (GoString × GoString) :=
  (splitByte q (ch '&')).filterMap decodePiece

/-- Reference definition following the specification: the unescaped first
value of `key` in the raw query `q`, or `""` when the key does not occur. -/
def firstValue (q key : GoString) : GoString :=
  ((decodedPairs q).lookup key).getD []

/-- The keys that `ParseLongDynamicLink` reads. -/
def decodeKeys : List GoString := B "path" :: alphabeticalKeys

/-- The long link of `TestParseLongDynamicLink`. -/
def sampleLongLink : GoString :=
  B "https://example.com?link=https://target.com&apn=com.android.app"
    ++ B "&afl=https://android-fallback.com&amv=123&isi=123456789"
    ++ B "&ifl=https://ios-fallback.com&ipfl=https://ipad-fallback.com"
    ++ B "&ofl=https://other-platform-fallback.com&utm_source=source&utm_medium=medium"
    ++ B "&utm_campaign=campaign&utm_term=term&utm_content=content&at=at&ct=ct&mt=mt&pt=pt"
    ++ B "&st=social title&sd=social description&si=https://social-image.com&path=SHORT"

/-- The request that `TestParseLongDynamicLink` expects for `sampleLongLink`. -/
def sampleLongLinkRequest : CreateDynamicLinkRequest :=
  { DynamicLinkInfo :=
      { Host := B "example.com"
        Link := B "https://target.com"
        AndroidParameters :=
          { AndroidPackageName := B "com.android.app"
            AndroidFallbackLink := B "https://android-fallback.com"
            AndroidMinPackageVersionCode := B "123" }
        IosParameters :=
          { IosAppStoreId := B "123456789"
            IosFallbackLink := B "https://ios-fallback.com"
            IosIpadFallbackLink := B "https://ipad-fallback.com" }
        OtherPlatformParameters := { FallbackURL := B "https://other-platform-fallback.com" }
        AnalyticsInfo :=
          { MarketingParameters :=
              { UtmSource := B "source", UtmMedium := B "medium", UtmCampaign := B "campaign",
                UtmTerm := B "term", UtmContent := B "content" }
            ItunesConnectAnalytics := { At := B "at", Ct := B "ct", Mt := B "mt", Pt := B "pt" } }
        SocialMetaTagInfo :=
          { SocialTitle := B "social title"
            SocialDescription := B "social description"
            SocialImageLink := B "https://social-image.com" } }
    Suffix := { Option := B "SHORT" } }

/-- The URL that `sampleLongLink` parses to. -/
def sampleLongLinkURL : URL :=
  { Scheme := B "https"
    Host := B "example.com"
    RawQuery := sampleLongLink.drop 20 }

/-- Whether a path is empty or made of slashes only. -/
def onlySlashes (p : GoString) : Bool := p.all (fun c => c = ch '/')

/-- The request body `map[string]any` as `PrepareDynamicLinkRequest` reads it.
`longDynamicLink` is the outcome of `input["longDynamicLink"].(string)`: `none`
when the key is missing or does not hold a string. `structured` is what
`json.Marshal(input)` followed by `json.Unmarshal` into a
`CreateDynamicLinkRequest` gives, `none` when one of the two fails: package
`encoding/json` is not part of the repository, and the function reads only
the outcome of the two calls. -/
structure RawInput where
  longDynamicLink : Option GoString := none
  structured : Option CreateDynamicLinkRequest := none

/-- The `else` branch of `PrepareDynamicLinkRequest` (lines 380-388): the
request decoded from the JSON document, `ErrInvalidFormat` when that fails. -/
def unmarshalRequest (input : RawInput) : Except AppError CreateDynamicLinkRequest :=
  match input.structured with
  | none => .error .ErrInvalidFormat
  | some req => .ok req

/-- The first half of `PrepareDynamicLinkRequest` (lines 372-388): the request
assembled from a non-empty `longDynamicLink` string, or else from the JSON
document. -/
def assembleRequest (input : RawInput) : Except AppError CreateDynamicLinkRequest :=
  match input.longDynamicLink with
  | some longLink =>
    if longLink ≠ [] then
      match ParseLongDynamicLink longLink with
      | (_, some err) => .error err
      | (parsedReq, none) => .ok parsedReq
    else unmarshalRequest input
  | none => unmarshalRequest input

/-- `linkService.PrepareDynamicLinkRequest`: the request and the error (`none`
for `nil`), as the Go function returns both. -/
def PrepareDynamicLinkRequest (input : RawInput) : CreateDynamicLinkRequest × Option AppError :=
  match assembleRequest input with
  | .error err => ({}, some err)
  | .ok req =>
    if req.DynamicLinkInfo.Host = [] then ({}, some .ErrMissingHost)
    else if req.DynamicLinkInfo.Link = [] then ({}, some .ErrMissingLink)
    else
      match ValidateURLScheme req.DynamicLinkInfo.Link with
      | some err => ({}, some err)
      | none => (req, none)

/-- A structured request with a host and no link. -/
def sampleNoLink : CreateDynamicLinkRequest :=
  { DynamicLinkInfo := { Host := B "example.com" } }

/-- A structured request whose link has the scheme `ftp`. -/
def sampleFtpLink : CreateDynamicLinkRequest :=
  { DynamicLinkInfo := { Host := B "example.com", Link := B "ftp://target.com" } }

/-! ## `api` (handlers) -/

/-- What a handler writes to the `http.ResponseWriter`: `json body` is the
encoded body under the default status 200, `error code message status` is
`WriteErrorResponse(w, code, message, status)`, and `panic` is a panic of the
service unwinding the handler. -/
inductive HttpResponse (α : Type)
  | json (body : α)
  | error (code : Nat) (message status : String)
  | panic
  deriving DecidableEq, Repr

/-- A finished request: the response, the table afterwards, and what the
service did. -/
structure Handled (α : Type) where
  response : HttpResponse α
  store : Store
  trace : List Event

/-- `handler.ExchangeShortLink`. `body` is the outcome of decoding the request
body into `models.ExchangeShortLinkRequest`: `none` when the decoder fails,
otherwise the field `RequestedLink`. -/
def ExchangeShortLink (cfg : Config) (env : Env) (store : Store) (body : Option GoString) :
    Handled LongLinkResponse :=
  match body with
  | none => ⟨.error 400 "Invalid or missing requestedLink" "INVALID_ARGUMENT", store, []⟩
  | some requestedLink =>
    if requestedLink = [] then
      ⟨.error 400 "Invalid or missing requestedLink" "INVALID_ARGUMENT", store, []⟩
    else
      let r := ResolveShortPath cfg env store requestedLink
      match r.result with
      | .error err =>
        if AppError.is err .ErrLinkNotFound then
          ⟨.error 404 "Link not found" "NOT_FOUND", r.store, r.trace⟩
        else if AppError.is err .ErrInvalidRequestedLink then
          ⟨.error 400 "Invalid requested link" "INVALID_ARGUMENT", r.store, r.trace⟩
        else
          ⟨.error 500 "Failed to resolve link" "INTERNAL", r.store, r.trace⟩
      | .ok link => ⟨.json link, r.store, r.trace⟩
      | .panic => ⟨.panic, r.store, r.trace⟩

/-! ## Runes: what a Go `range` loop over a string yields -/

/-- The width of the encoding that starts with the byte `s0`, for a leading
byte `0xC2` to `0xF4` (table `first` of package `utf8`, `x & 7`). -/
def runeSize (s0 : Byte) : Nat :=
  if s0.val < 0xE0 then 2 else if s0.val < 0xF0 then 3 else 4

/-- The lowest second byte accepted after the leading byte `s0` (tables
`first` and `acceptRanges` of package `utf8`). -/
def acceptLo (s0 : Byte) : Nat :=
  if s0.val = 0xE0 then 0xA0 else if s0.val = 0xF0 then 0x90 else 0x80

/-- The highest second byte accepted after the leading byte `s0`. -/
def acceptHi (s0 : Byte) : Nat :=
  if s0.val = 0xED then 0x9F else if s0.val = 0xF4 then 0x8F else 0xBF

/-- `utf8.DecodeRuneInString(s)`: the first rune of `s` and its width in
bytes; an invalid or short encoding gives `RuneError` (U+FFFD) and width 1.
The masks, shifts and ors of the Go code work on disjoint bit ranges and are
written with `%`, `*` and `+`. -/
def decodeRune : GoString → Nat × Nat
  | [] => (0xFFFD, 0)
  | s0 :: rest =>
    if s0.val < 0x80 then (s0.val, 1)
    else if s0.val < 0xC2 ∨ 0xF4 < s0.val then (0xFFFD, 1)
    else if rest.length + 1 < runeSize s0 then (0xFFFD, 1)
    else
      match rest with
      | [] => (0xFFFD, 1)
      | s1 :: rest =>
        if s1.val < acceptLo s0 ∨ acceptHi s0 < s1.val then (0xFFFD, 1)
        else if runeSize s0 ≤ 2 then ((s0.val % 32) * 64 + s1.val % 64, 2)
        else
          match rest with
          | [] => (0xFFFD, 1)
          | s2 :: rest =>
            if s2.val < 0x80 ∨ 0xBF < s2.val then (0xFFFD, 1)
            else if runeSize s0 ≤ 3 then
              ((s0.val % 16) * 4096 + (s1.val % 64) * 64 + s2.val % 64, 3)
            else
              match rest with
              | [] => (0xFFFD, 1)
              | s3 :: _ =>
                if s3.val < 0x80 ∨ 0xBF < s3.val then (0xFFFD, 1)
                else
                  ((s0.val % 8) * 262144 + (s1.val % 64) * 4096 + (s2.val % 64) * 64
                    + s3.val % 64, 4)

/-- The worker of `rangeRunes`: decodes rune after rune; `fuel` bounds the
number of runes, and the length of the string is enough. -/
def rangeRunesAux : Nat → GoString → List Nat
  | 0, _ => []
  | _, [] => []
  | fuel + 1, c :: s =>
    (decodeRune (c :: s)).1 :: rangeRunesAux fuel ((c :: s).drop (decodeRune (c :: s)).2)

/-- The runes that `for _, c := range s` yields, in order. -/
def rangeRunes (s : GoString) : List Nat := rangeRunesAux s.length s

/-- `utils.IsNumericString(s)` with its loop over the runes of `s`, as the Go
code is written; `IsNumericString` is the same test on the bytes. -/
def IsNumericStringRunes (s : GoString) : Bool :=
  if s = [] then true
  else (rangeRunes s).all (fun c => !(c < 48 || c > 57))

/-- The full-width digits `１２３` (U+FF11, U+FF12, U+FF13) in UTF-8. -/
def fullWidth123 : GoString := [239, 188, 145, 239, 188, 146, 239, 188, 147]

/-- The Arabic-Indic digit three `٣` (U+0663) in UTF-8. -/
def arabicIndic3 : GoString := [217, 163]

/-- The bytes of `host[:port]` for a plain hostname: those of a hostname and
the colon. -/
def isAuthorityByte (c : Byte) : Bool := isHostnameByte c || c = ch ':'

/-- An optional numeric port: nothing, or a colon followed by one or more
ASCII digits. -/
def isOptionalPort : GoString → Bool
  | [] => true
  | c :: digits => c = ch ':' && digits ≠ [] && digits.all isDigit
/-- The sample request with the host `https://`. -/
def sampleEmptyHost : CreateDynamicLinkRequest :=
  { sampleRequest with
    DynamicLinkInfo := { sampleRequest.DynamicLinkInfo with Host := B "https://" } }

/-- The number of byte values, among all 256, that `GenerateDynamicLinkPath`
maps to the character `c`: those `b` with `alphanumeric[b % 62] = c`. -/
def preimages (c : Byte) : Nat :=
  ((List.finRange 256).filter
    (fun b : Byte => alphanumeric.get? (b.val % (alphanumeric.length % 256)) = some c)).length

/-- A table that holds a guessable row for `sampleWarned`, under the path
`Zx81Qp`. -/
def sampleWarnedStore : Store :=
  [⟨B "example.com", B "Zx81Qp",
    B "apn=com.app&at=1000l&link=https%3A%2F%2Ftarget.com&si=example.com", false⟩]

/-- The response to `sampleWarned` on `sampleWarnedStore`: the stored path and
the warnings. -/
def sampleReusedResponse : ShortLinkResponse :=
  ⟨B "https://example.com/Zx81Qp", [siWarning, unneeded "isi" "at", unneeded "pt" "at"]⟩

/-- Modelled from the spec: the schema of the table `dynamic_links` is not
among the sources; the data model of the specification gives its invariant,
"(host, path) is unique". This is whether a table satisfies it: no two rows
share host and path. -/
def uniqueHostPath (store : Store) : Bool :=
  decide ((store.map (fun r => (r.host, r.path))).Nodup)

/-! ## The order on keys and sorting -/

theorem strLe_refl : ∀ a : GoString, strLe a a = true
  | [] => rfl
  | x :: s => by simp [strLe, strLe_refl s]

theorem strLe_total : ∀ a b : GoString, strLe a b = true ∨ strLe b a = true
  | [], _ => Or.inl (by simp [strLe])
  | _ :: _, [] => Or.inr (by simp [strLe])
  | x :: s, y :: t => by
    rcases Nat.lt_trichotomy x.val y.val with h | h | h
    · left; simp [strLe, h]
    · have hxy : x = y := Fin.ext h
      subst hxy
      rcases strLe_total s t with h1 | h1
      · left; simp [strLe, h1]
      · right; simp [strLe, h1]
    · right; simp [strLe, h]

theorem strLe_antisymm : ∀ a b : GoString, strLe a b = true → strLe b a = true → a = b
  | [], [], _, _ => rfl
  | [], _ :: _, _, h => by simp [strLe] at h
  | _ :: _, [], h, _ => by simp [strLe] at h
  | x :: s, y :: t, h1, h2 => by
    simp only [strLe, Bool.or_eq_true, decide_eq_true_eq, Bool.and_eq_true, beq_iff_eq] at h1 h2
    rcases h1 with h1 | ⟨h1, h1'⟩
    · rcases h2 with h2 | ⟨h2, _⟩
      · omega
      · subst h2; omega
    · subst h1
      rcases h2 with h2 | ⟨_, h2'⟩
      · omega
      · rw [strLe_antisymm s t h1' h2']

theorem strLe_trans : ∀ a b c : GoString, strLe a b = true → strLe b c = true → strLe a c = true
  | [], _, _, _, _ => by simp [strLe]
  | _ :: _, [], _, h, _ => by simp [strLe] at h
  | _ :: _, _ :: _, [], _, h => by simp [strLe] at h
  | x :: s, y :: t, z :: u, h1, h2 => by
    simp only [strLe, Bool.or_eq_true, decide_eq_true_eq, Bool.and_eq_true, beq_iff_eq] at h1 h2 ⊢
    rcases h1 with h1 | ⟨h1, h1'⟩
    · rcases h2 with h2 | ⟨h2, _⟩
      · left; omega
      · subst h2; left; exact h1
    · subst h1
      rcases h2 with h2 | ⟨h2, h2'⟩
      · left; exact h2
      · right; exact ⟨h2, strLe_trans s t u h1' h2'⟩

/-- Sorting commutes with filtering. -/
theorem sortKeys_filter (P : GoString → Bool) (ks : List GoString) :
    sortKeys (ks.filter P) = (sortKeys ks).filter P := by
  haveI : IsTotal GoString (fun a b => strLe a b = true) := ⟨strLe_total⟩
  haveI : IsTrans GoString (fun a b => strLe a b = true) := ⟨strLe_trans⟩
  haveI : IsAntisymm GoString (fun a b => strLe a b = true) := ⟨strLe_antisymm⟩
  unfold sortKeys
  apply List.eq_of_perm_of_sorted (r := fun a b => strLe a b = true)
  · exact (List.perm_insertionSort _ _).trans ((List.perm_insertionSort _ ks).filter P).symm
  · exact List.sorted_insertionSort _ _
  · exact (List.sorted_insertionSort _ _).filter P

theorem sortKeys_sourceKeys : sortKeys sourceKeys = alphabeticalKeys := by decide

/-! ## Building and encoding the query values -/

theorem Values.Add_single (f : GoString → GoString) (ks : List GoString) (k : GoString)
    (hk : k ∉ ks) : Values.Add (single f ks) k (f k) = single f (ks ++ [k]) := by
  induction ks with
  | nil => simp [single, Values.Add]
  | cons a ks ih =>
    have ha : a ≠ k := fun h => hk (by simp [h])
    have hk' : k ∉ ks := fun h => hk (by simp [h])
    have ih' := ih hk'
    simp only [single, List.map_cons, List.cons_append] at ih' ⊢
    simp [Values.Add, ha, ih']

theorem foldl_addParam (f : GoString → GoString) :
    ∀ (ks acc : List GoString), (acc ++ ks).Nodup →
      ks.foldl (fun q k => addParam q k (f k)) (single f acc)
        = single f (acc ++ ks.filter (fun k => f k ≠ []))
  | [], acc, _ => by simp
  | k :: ks, acc, h => by
    have hk : k ∉ acc := by
      intro hmem
      have := List.nodup_append.1 h
      exact this.2.2 hmem (by simp)
    simp only [List.foldl_cons]
    by_cases hf : f k = []
    · have h' : (acc ++ ks).Nodup := by
        have : (acc ++ ks).Sublist (acc ++ k :: ks) :=
          List.Sublist.append_left (List.sublist_cons_self k ks) acc
        exact h.sublist this
      have e1 : addParam (single f acc) k (f k) = single f acc := by simp [addParam, hf]
      have e2 : (k :: ks).filter (fun k => f k ≠ []) = ks.filter (fun k => f k ≠ []) := by
        simp [List.filter_cons, hf]
      rw [e1, e2, foldl_addParam f ks acc h']
    · have h' : ((acc ++ [k]) ++ ks).Nodup := by simpa using h
      have e1 : addParam (single f acc) k (f k) = single f (acc ++ [k]) := by
        simp only [addParam, ne_eq, hf, not_false_eq_true, if_true]
        exact Values.Add_single f acc k hk
      have e2 : (k :: ks).filter (fun k => f k ≠ []) = k :: ks.filter (fun k => f k ≠ []) := by
        simp [List.filter_cons, hf]
      rw [e1, e2, foldl_addParam f ks (acc ++ [k]) h']
      simp

theorem Values.at_single (f : GoString → GoString) (ks : List GoString) (k : GoString)
    (hk : k ∈ ks) : Values.at (single f ks) k = [f k] := by
  induction ks with
  | nil => simp at hk
  | cons a ks ih =>
    by_cases h : k = a
    · subst h; simp [Values.at, single, List.lookup]
    · have hk' : k ∈ ks := by simpa [h] using hk
      have := ih hk'
      simp only [Values.at, single, List.map_cons] at this ⊢
      rw [List.lookup_cons]
      have hb : (k == a) = false := by simpa using h
      simp [hb, this]

theorem Values.at_single_not_mem (f : GoString → GoString) (ks : List GoString) (k : GoString)
    (hk : k ∉ ks) : Values.at (single f ks) k = [] := by
  induction ks with
  | nil => simp [Values.at, single]
  | cons a ks ih =>
    have h : k ≠ a := fun h => hk (by simp [h])
    have hk' : k ∉ ks := fun h => hk (by simp [h])
    have := ih hk'
    simp only [Values.at, single, List.map_cons] at this ⊢
    rw [List.lookup_cons]
    have hb : (k == a) = false := by simpa using h
    simp [hb, this]

theorem encodeKeys_single_nonempty (f : GoString → GoString) (v : Values) :
    ∀ (ks : List GoString) (buf : GoString), (∀ k ∈ ks, Values.at v k = [f k]) → buf ≠ [] →
      encodeKeys v ks buf = buf ++ ampPieces f ks
  | [], buf, _, _ => by simp [encodeKeys, ampPieces]
  | k :: ks, buf, h, hb => by
    have hk := h k (by simp)
    have hlen : buf.length > 0 := List.length_pos.2 hb
    simp only [encodeKeys, hk, encodeKey, hlen, if_true]
    rw [encodeKeys_single_nonempty f v ks _ (fun k hk => h k (by simp [hk])) (by simp)]
    simp [ampPieces, B, ch]

theorem encodeKeys_single (f : GoString → GoString) (v : Values) (k : GoString)
    (ks : List GoString) (h : ∀ k' ∈ k :: ks, Values.at v k' = [f k']) :
    encodeKeys v (k :: ks) [] = (QueryEscape k ++ ch '=' :: QueryEscape (f k)) ++ ampPieces f ks := by
  have hk := h k (by simp)
  simp only [encodeKeys, hk, encodeKey]
  rw [encodeKeys_single_nonempty f v ks _ (fun k hk => h k (by simp [hk])) (by simp)]
  simp [B, ch]

theorem joinAmp_cons (x : GoString) (xs : List GoString) :
    joinAmp (x :: xs) = x ++ xs.flatMap (fun y => ch '&' :: y) := by
  induction xs generalizing x with
  | nil => simp [joinAmp]
  | cons y ys ih => simp [joinAmp, ih y]

/-- `Encode` of a map with one value per key is the `&`-joined list of the
escaped pairs, in sorted key order. -/
theorem Values.Encode_single (f : GoString → GoString) (ks : List GoString) :
    Values.Encode (single f ks)
      = joinAmp ((sortKeys ks).map (fun k => QueryEscape k ++ ch '=' :: QueryEscape (f k))) := by
  have hmap : (single f ks).map Prod.fst = ks := by
    simp [single, Function.comp_def]
  have hmem : ∀ k ∈ sortKeys ks, Values.at (single f ks) k = [f k] := fun k hk =>
    Values.at_single f ks k (((List.perm_insertionSort _ ks).mem_iff).1 hk)
  unfold Values.Encode
  rw [hmap]
  cases hks : ks with
  | nil => simp [single, sortKeys, joinAmp]
  | cons a as =>
    rw [← hks]
    have hlen : ¬ (single f ks).length = 0 := by simp [single, hks]
    rw [if_neg hlen]
    cases hs : sortKeys ks with
    | nil => simp [encodeKeys, joinAmp]
    | cons k ks' =>
      rw [hs] at hmem
      rw [encodeKeys_single f _ k ks' hmem, List.map_cons, joinAmp_cons]
      simp [ampPieces, List.flatMap_map]

/-! ## The canonical query string -/

theorem alphabeticalPairs_eq (info : DynamicLinkInfo) :
    alphabeticalPairs info = alphabeticalKeys.map (fun k => (k, fieldValue info k)) := rfl

theorem QueryEscape_key : ∀ k ∈ alphabeticalKeys, QueryEscape k = k := by decide

theorem sourceKeys_tail_ne_link : ∀ k ∈ sourceKeys.tail, k ≠ B "link" := by decide

theorem sourceKeys_nodup : sourceKeys.Nodup := by decide

theorem buildQueryParams_eq (params : CreateDynamicLinkRequest) :
    buildQueryParams params
      = single (fieldValue params.DynamicLinkInfo)
          (sourceKeys.filter (keyEmitted params.DynamicLinkInfo)) := by
  have h0 : buildQueryParams params
      = sourceKeys.tail.foldl
          (fun q k => addParam q k (fieldValue params.DynamicLinkInfo k))
          (single (fieldValue params.DynamicLinkInfo) [B "link"]) := rfl
  have hnd : ([B "link"] ++ sourceKeys.tail).Nodup := sourceKeys_nodup
  rw [h0, foldl_addParam _ _ _ hnd]
  have hfil : sourceKeys.tail.filter (fun k => fieldValue params.DynamicLinkInfo k ≠ [])
      = sourceKeys.tail.filter (keyEmitted params.DynamicLinkInfo) := by
    apply List.filter_congr
    intro k hk
    have := sourceKeys_tail_ne_link k hk
    simp [keyEmitted, emitted, this]
  have hsrc : sourceKeys = B "link" :: sourceKeys.tail := rfl
  have hlink : keyEmitted params.DynamicLinkInfo (B "link") = true := by
    simp [keyEmitted, emitted]
  rw [hfil]
  conv_rhs => rw [hsrc, List.filter_cons, if_pos hlink]
  rfl

/-- The canonical query string through the key table: the emitted keys in
alphabetical order, each with its escaped value. -/
theorem canonicalQuery_eq_keys (params : CreateDynamicLinkRequest) :
    canonicalQuery params
      = joinAmp ((alphabeticalKeys.filter (keyEmitted params.DynamicLinkInfo)).map
          (fun k => k ++ ch '=' :: QueryEscape (fieldValue params.DynamicLinkInfo k))) := by
  unfold canonicalQuery
  rw [buildQueryParams_eq, Values.Encode_single, sortKeys_filter, sortKeys_sourceKeys]
  congr 1
  apply List.map_congr_left
  intro k hk
  rw [QueryEscape_key k (List.mem_of_mem_filter hk)]

theorem referenceQuery_eq_keys (info : DynamicLinkInfo) :
    referenceQuery info
      = joinAmp ((alphabeticalKeys.filter (keyEmitted info)).map
          (fun k => k ++ ch '=' :: QueryEscape (fieldValue info k))) := by
  unfold referenceQuery
  rw [alphabeticalPairs_eq, List.filter_map, List.map_map]
  have e1 : (emitted ∘ fun k => (k, fieldValue info k)) = keyEmitted info := rfl
  have e2 : (piece ∘ fun k => (k, fieldValue info k))
      = fun k => k ++ ch '=' :: QueryEscape (fieldValue info k) := by
    funext k
    simp [piece, B, ch]
  rw [e1, e2]

theorem canonicalQuery_eq_reference (params : CreateDynamicLinkRequest) :
    canonicalQuery params = referenceQuery params.DynamicLinkInfo := by
  rw [canonicalQuery_eq_keys, referenceQuery_eq_keys]

/-! ## What `createOrGetShortLink` and `CreateDynamicLink` do -/

theorem createNewShortLink_panic (cfg : Config) (env : Env) (store : Store)
    (host rawQS : GoString) (shortPath : Bool) (pre : List Event)
    (hg : GenerateDynamicLinkPath env.rand (pathLength cfg shortPath) = none) :
    createNewShortLink cfg env store host rawQS shortPath pre = ⟨.panic, store, pre⟩ := by
  unfold pathLength at hg
  simp only [createNewShortLink, hg]

theorem createNewShortLink_ok (cfg : Config) (env : Env) (store : Store)
    (host rawQS : GoString) (shortPath : Bool) (pre : List Event) (path : GoString)
    (hg : GenerateDynamicLinkPath env.rand (pathLength cfg shortPath) = some path)
    (hi : env.insertErr = none) :
    createNewShortLink cfg env store host rawQS shortPath pre
      = ⟨.ok { ShortLink := sprintfLink cfg.URLScheme host path, Warnings := [] },
          store ++ [⟨host, path, rawQS, !shortPath⟩],
          pre ++ [.generate (pathLength cfg shortPath) path,
            .insert ⟨host, path, rawQS, !shortPath⟩]⟩ := by
  unfold pathLength at hg ⊢
  simp only [createNewShortLink, hg, CreateShortLink, hi]

theorem createNewShortLink_fail (cfg : Config) (env : Env) (store : Store)
    (host rawQS : GoString) (shortPath : Bool) (pre : List Event) (path : GoString) (msg : String)
    (hg : GenerateDynamicLinkPath env.rand (pathLength cfg shortPath) = some path)
    (hi : env.insertErr = some msg) :
    createNewShortLink cfg env store host rawQS shortPath pre
      = ⟨.error (.wrap "failed to store link" (.driver msg)), store,
          pre ++ [.generate (pathLength cfg shortPath) path,
            .insert ⟨host, path, rawQS, !shortPath⟩]⟩ := by
  unfold pathLength at hg ⊢
  simp only [createNewShortLink, hg, CreateShortLink, hi]

theorem createNewShortLink_insert (cfg : Config) (env : Env) (store : Store)
    (host rawQS : GoString) (shortPath : Bool) (pre : List Event) (row : ShortLinkRecord)
    (hpre : Event.insert row ∉ pre)
    (h : Event.insert row ∈ (createNewShortLink cfg env store host rawQS shortPath pre).trace) :
    row.host = host ∧ row.query_params = rawQS ∧ row.is_unguessable_path = !shortPath := by
  cases hg : GenerateDynamicLinkPath env.rand (pathLength cfg shortPath) with
  | none =>
    rw [createNewShortLink_panic _ _ _ _ _ _ _ hg] at h
    exact absurd h hpre
  | some path =>
    cases hi : env.insertErr with
    | none =>
      rw [createNewShortLink_ok _ _ _ _ _ _ _ _ hg hi] at h
      simp only [List.mem_append, List.mem_cons, reduceCtorEq, Event.insert.injEq, false_or,
        List.mem_nil_iff, or_false] at h
      rcases h with h | h
      · exact absurd h hpre
      · subst h; simp
    | some msg =>
      rw [createNewShortLink_fail _ _ _ _ _ _ _ _ _ hg hi] at h
      simp only [List.mem_append, List.mem_cons, reduceCtorEq, Event.insert.injEq, false_or,
        List.mem_nil_iff, or_false] at h
      rcases h with h | h
      · exact absurd h hpre
      · subst h; simp

theorem createOrGetShortLink_insert (cfg : Config) (env : Env) (store : Store)
    (host : GoString) (queryParams : Values) (shortPath : Bool) (row : ShortLinkRecord)
    (h : Event.insert row ∈ (createOrGetShortLink cfg env store host queryParams shortPath).trace) :
    row.host = host ∧ row.query_params = Values.Encode queryParams
      ∧ row.is_unguessable_path = !shortPath := by
  unfold createOrGetShortLink at h
  cases shortPath with
  | false =>
    simp only [Bool.false_eq_true, if_false] at h
    exact createNewShortLink_insert _ _ _ _ _ _ _ _ (by simp) h
  | true =>
    simp only [if_true] at h
    cases hf : FindExistingShortLink env store host (Values.Encode queryParams) with
    | ok path => simp [hf] at h
    | error err =>
      simp only [hf] at h
      by_cases he : err = .sqlErrNoRows
      · simp only [he, ne_eq, not_true_eq_false, if_false] at h
        exact createNewShortLink_insert _ _ _ _ _ _ _ _ (by simp) h
      · simp [he] at h

/-- A call of `CreateDynamicLink` either stops at validation, touching nothing,
or passes on to `createOrGetShortLink` with the cleaned host. -/
theorem CreateDynamicLink_cases (U : Unicode) (cfg : Config) (env : Env) (store : Store)
    (params : CreateDynamicLinkRequest) :
    ((∃ e, (CreateDynamicLink U cfg env store params).result = .error e)
        ∧ (CreateDynamicLink U cfg env store params).store = store
        ∧ (CreateDynamicLink U cfg env store params).trace = [])
    ∨ (∃ host, CleanHost U params.DynamicLinkInfo.Host = .ok host
        ∧ IsDomainAllowed U cfg.DomainAllowList params.DynamicLinkInfo.Link = true
        ∧ (CreateDynamicLink U cfg env store params).store
            = (createOrGetShortLink cfg env store host (buildQueryParams params)
                (decide (params.Suffix.Option = B "SHORT"))).store
        ∧ (CreateDynamicLink U cfg env store params).trace
            = (createOrGetShortLink cfg env store host (buildQueryParams params)
                (decide (params.Suffix.Option = B "SHORT"))).trace
        ∧ (CreateDynamicLink U cfg env store params).result
            = match (createOrGetShortLink cfg env store host (buildQueryParams params)
                (decide (params.Suffix.Option = B "SHORT"))).result with
              | .ok response => .ok { response with Warnings := buildWarnings params }
              | .error err => .error err
              | .panic => .panic) := by
  unfold CreateDynamicLink
  cases hc : CleanHost U params.DynamicLinkInfo.Host with
  | error e => left; simp
  | ok host =>
    by_cases hd : IsDomainAllowed U cfg.DomainAllowList params.DynamicLinkInfo.Link = true
    · by_cases hi : params.DynamicLinkInfo.IosParameters.IosAppStoreId ≠ [] ∧
          (!IsNumericString params.DynamicLinkInfo.IosParameters.IosAppStoreId) = true
      · left; simp [hd, hi]
      · right
        refine ⟨host, rfl, hd, ?_⟩
        simp only [hd, Bool.not_true, Bool.false_eq_true, if_false, hi]
        cases (createOrGetShortLink cfg env store host (buildQueryParams params)
                (decide (params.Suffix.Option = B "SHORT"))).result <;> simp
    · left; simp [hd]

/-! ## Facts about the `strings` functions -/

theorem hasPrefix_single (c d : Byte) (s : GoString) : hasPrefix (c :: s) [d] = (c == d) := by
  simp [hasPrefix]

theorem index_single_not_mem (c : Byte) : ∀ s : GoString, c ∉ s → index s [c] = none
  | [], _ => by simp [index]
  | a :: s, h => by
    have ha : a ≠ c := fun e => h (by simp [e])
    have hs : c ∉ s := fun e => h (by simp [e])
    simp [index, hasPrefix_single, ha, index_single_not_mem c s hs]

theorem index_single_append (c : Byte) (t : GoString) :
    ∀ s : GoString, c ∉ s → index (s ++ c :: t) [c] = some s.length
  | [], _ => by simp [index, hasPrefix_single]
  | a :: s, h => by
    have ha : a ≠ c := fun e => h (by simp [e])
    have hs : c ∉ s := fun e => h (by simp [e])
    simp [index, hasPrefix_single, ha, index_single_append c t s hs]

theorem lastIndex_single_not_mem (c : Byte) : ∀ s : GoString, c ∉ s → lastIndex s [c] = none
  | [], _ => by simp [lastIndex]
  | a :: s, h => by
    have ha : a ≠ c := fun e => h (by simp [e])
    have hs : c ∉ s := fun e => h (by simp [e])
    simp [lastIndex, hasPrefix_single, ha, lastIndex_single_not_mem c s hs]

theorem cut_single_append (c : Byte) (s t : GoString) (h : c ∉ s) :
    cut (s ++ c :: t) [c] = (s, t, true) := by
  simp [cut, index_single_append c t s h]

theorem cut_single_not_mem (c : Byte) (s : GoString) (h : c ∉ s) :
    cut s [c] = (s, [], false) := by
  simp [cut, index_single_not_mem c s h]

theorem contains_single_not_mem (c : Byte) (s : GoString) (h : c ∉ s) :
    contains s [c] = false := by
  simp [contains, index_single_not_mem c s h]

theorem splitByteAux_append (sep : Byte) (rest : GoString) :
    ∀ (x cur : GoString), sep ∉ x →
      splitByteAux sep (x ++ rest) cur = splitByteAux sep rest (x.reverse ++ cur)
  | [], cur, _ => by simp
  | a :: x, cur, h => by
    have ha : a ≠ sep := fun e => h (by simp [e])
    have hx : sep ∉ x := fun e => h (by simp [e])
    simp [splitByteAux, ha, splitByteAux_append sep rest x (a :: cur) hx]

/-- Splitting the `&`-joined pieces at `&` gives the pieces back. -/
theorem splitByte_joinAmp : ∀ (x : GoString) (xs : List GoString),
    (∀ y ∈ x :: xs, ch '&' ∉ y) → splitByte (joinAmp (x :: xs)) (ch '&') = x :: xs
  | x, [], h => by
    have := splitByteAux_append (ch '&') [] x [] (h x (by simp))
    simp only [List.append_nil] at this
    simp [splitByte, joinAmp, this, splitByteAux]
  | x, y :: ys, h => by
    have ih := splitByte_joinAmp y ys (fun z hz => h z (by simp [hz]))
    have := splitByteAux_append (ch '&') (ch '&' :: joinAmp (y :: ys)) x [] (h x (by simp))
    simp only [splitByte] at ih
    simp [splitByte, joinAmp, this, splitByteAux, ih]

/-! ## Facts about escaping -/

set_option maxRecDepth 100000 in
theorem escapeByte_all_safe :
    ∀ b : Byte, (escapeByte .encodeQueryComponent b).all querySafe = true := by
  decide!

theorem QueryEscape_safe (s : GoString) : ∀ c ∈ QueryEscape s, querySafe c = true := by
  intro c hc
  simp only [QueryEscape, escape, List.mem_flatMap] at hc
  obtain ⟨b, _, hb⟩ := hc
  exact List.all_eq_true.1 (escapeByte_all_safe b) c hb

set_option maxRecDepth 100000 in
/-- Unescaping undoes the escaping of one byte. -/
theorem unescape_escapeByte : ∀ b : Byte,
    (escapeByte .encodeQueryComponent b
          = [ch '%', upperhex (b.val >>> 4), upperhex (b.val &&& 15)]
        ∧ ishex (upperhex (b.val >>> 4)) = true ∧ ishex (upperhex (b.val &&& 15)) = true
        ∧ unhexPair (upperhex (b.val >>> 4)) (upperhex (b.val &&& 15)) = b)
    ∨ (escapeByte .encodeQueryComponent b = [ch '+'] ∧ b = ch ' ')
    ∨ (escapeByte .encodeQueryComponent b = [b] ∧ b ≠ ch '%' ∧ b ≠ ch '+') := by
  decide!

theorem unescape_cons_not_pct (mode : Encoding) (c : Byte) (rest : GoString)
    (hc : c ≠ ch '%') :
    unescape mode (c :: rest)
      = if c = ch '+' then
          (unescape mode rest).map
            ((if mode = .encodeQueryComponent then ch ' ' else ch '+') :: ·)
        else if (mode = .encodeHost ∨ mode = .encodeZone) ∧ c.val < 128
            ∧ shouldEscape c .encodeHost then
          .error (.invalidHostError [c])
        else
          (unescape mode rest).map (c :: ·) := by
  cases rest with
  | nil => simp [unescape, hc]
  | cons h1 r =>
    cases r with
    | nil => simp [unescape, hc]
    | cons h2 tl => simp [unescape, hc]

theorem unescape_pct (mode : Encoding) (h1 h2 : Byte) (tl : GoString) :
    unescape mode (ch '%' :: h1 :: h2 :: tl)
      = if !ishex h1 || !ishex h2 then
          .error (.escapeError (ch '%' :: [h1, h2]))
        else if mode = .encodeHost ∧ (unhex h1).val < 8 ∧ [ch '%', h1, h2] ≠ B "%25" then
          .error (.escapeError [ch '%', h1, h2])
        else if mode = .encodeZone ∧ [ch '%', h1, h2] ≠ B "%25" ∧ unhexPair h1 h2 ≠ ch ' '
            ∧ shouldEscape (unhexPair h1 h2) .encodeHost then
          .error (.escapeError [ch '%', h1, h2])
        else
          (unescape mode tl).map (unhexPair h1 h2 :: ·) := by
  rw [unescape]
  simp

/-- `QueryUnescape(QueryEscape(s)) = s`, for every byte string. -/
theorem QueryUnescape_QueryEscape : ∀ s : GoString, QueryUnescape (QueryEscape s) = .ok s
  | [] => rfl
  | b :: s => by
    have ih := QueryUnescape_QueryEscape s
    simp only [QueryUnescape, QueryEscape, escape, List.flatMap_cons] at ih ⊢
    rcases unescape_escapeByte b with ⟨he, hh1, hh2, hp⟩ | ⟨he, hb⟩ | ⟨he, hb1, hb2⟩
    · rw [he]
      simp only [List.cons_append, List.nil_append]
      rw [unescape_pct]
      simp [hh1, hh2, ih, hp, Except.map]
    · rw [he]
      have h1 : ch '+' ≠ ch '%' := by decide
      simp only [List.cons_append, List.nil_append]
      rw [unescape_cons_not_pct _ _ _ h1]
      simp [ih, hb, Except.map]
    · rw [he]
      simp only [List.cons_append, List.nil_append]
      rw [unescape_cons_not_pct _ _ _ hb1]
      simp [hb2, ih, Except.map]

/-! ## The keys of the canonical query string -/

theorem querySafe_ne (c d : Byte) (hd : querySafe d = false) (hc : querySafe c = true) : c ≠ d := by
  intro h
  subst h
  rw [hd] at hc
  exact Bool.noConfusion hc

theorem QueryEscape_not_mem (d : Byte) (hd : querySafe d = false) (s : GoString) :
    d ∉ QueryEscape s := fun h => querySafe_ne d d hd (QueryEscape_safe s d h) rfl

theorem alphabeticalKeys_keyByte : alphabeticalKeys.all (fun k => k.all keyByte) = true := by
  decide

theorem keyByte_of_mem {k : GoString} (hk : k ∈ alphabeticalKeys) {c : Byte} (hc : c ∈ k) :
    keyByte c = true :=
  List.all_eq_true.1 (List.all_eq_true.1 alphabeticalKeys_keyByte k hk) c hc

set_option maxRecDepth 100000 in
theorem keyByte_querySafe : ∀ c : Byte, keyByte c = true → querySafe c = true := by
  decide!

theorem key_not_mem {k : GoString} (hk : k ∈ alphabeticalKeys) (d : Byte)
    (hd : querySafe d = false) : d ∉ k := fun h =>
  querySafe_ne d d hd (keyByte_querySafe d (keyByte_of_mem hk h)) rfl

theorem key_eq_not_mem {k : GoString} (hk : k ∈ alphabeticalKeys) : ch '=' ∉ k :=
  key_not_mem hk _ (by decide)

theorem keyPiece_amp_not_mem {k : GoString} (hk : k ∈ alphabeticalKeys) (v : GoString) :
    ch '&' ∉ k ++ ch '=' :: QueryEscape v := by
  intro h
  rcases List.mem_append.1 h with h | h
  · exact key_not_mem hk _ (by decide) h
  · rcases List.mem_cons.1 h with h | h
    · exact absurd h (by decide)
    · exact QueryEscape_not_mem _ (by decide) v h

theorem keysOf_joinAmp (f : GoString → GoString) (k : GoString) (ks : List GoString)
    (h : ∀ x ∈ k :: ks, x ∈ alphabeticalKeys) :
    keysOf (joinAmp ((k :: ks).map (fun k => k ++ ch '=' :: QueryEscape (f k)))) = k :: ks := by
  have hsplit : splitByte (joinAmp ((k :: ks).map (fun k => k ++ ch '=' :: QueryEscape (f k))))
      (ch '&') = (k :: ks).map (fun k => k ++ ch '=' :: QueryEscape (f k)) := by
    rw [List.map_cons]
    apply splitByte_joinAmp
    intro y hy
    rcases List.mem_cons.1 hy with rfl | hy
    · exact keyPiece_amp_not_mem (h k (by simp)) _
    · obtain ⟨x, hx, rfl⟩ := List.mem_map.1 hy
      exact keyPiece_amp_not_mem (h x (by simp [hx])) _
  unfold keysOf
  rw [hsplit, List.map_map]
  conv_rhs => rw [← List.map_id (k :: ks)]
  apply List.map_congr_left
  intro x hx
  have : B "=" = [ch '='] := rfl
  simp only [Function.comp, this, cut_single_append _ _ _ (key_eq_not_mem (h x hx)), id]

theorem link_mem_emitted (info : DynamicLinkInfo) :
    B "link" ∈ alphabeticalKeys.filter (keyEmitted info) := by
  apply List.mem_filter.2
  refine ⟨by decide, ?_⟩
  simp [keyEmitted, emitted]

/-- The keys of the canonical query string are the emitted keys in
alphabetical order. -/
theorem keysOf_canonicalQuery (params : CreateDynamicLinkRequest) :
    keysOf (canonicalQuery params)
      = alphabeticalKeys.filter (keyEmitted params.DynamicLinkInfo) := by
  rw [canonicalQuery_eq_keys]
  cases h : alphabeticalKeys.filter (keyEmitted params.DynamicLinkInfo) with
  | nil =>
    have := link_mem_emitted params.DynamicLinkInfo
    rw [h] at this
    simp at this
  | cons k ks =>
    apply keysOf_joinAmp
    intro x hx
    rw [← h] at hx
    exact List.mem_of_mem_filter hx

/-! ## Claims C3 and C4: the canonical query string -/

theorem referenceQuery_host (info : DynamicLinkInfo) (host : GoString) :
    referenceQuery { info with Host := host } = referenceQuery info := rfl

/-- C3: the query string that `CreateDynamicLink` persists equals the reference
string: the `&`-joined `key=QueryEscape(value)` pairs for `link` (always) and
for every optional field with a non-empty value, in alphabetical key order.
It is the same whatever the host and the suffix option are (the reference reads
neither), its keys occur once each, and every row the call inserts carries it. -/
theorem persisted_query_is_reference (U : Unicode) (cfg : Config) (env : Env) (store : Store)
    (params : CreateDynamicLinkRequest) (host : GoString) :
    canonicalQuery params = referenceQuery { params.DynamicLinkInfo with Host := host }
    ∧ (keysOf (canonicalQuery params)).Nodup
    ∧ ∀ row, Event.insert row ∈ (CreateDynamicLink U cfg env store params).trace →
        row.query_params = canonicalQuery params := by
  refine ⟨?_, ?_, ?_⟩
  · rw [referenceQuery_host, canonicalQuery_eq_reference]
  · rw [keysOf_canonicalQuery]
    exact List.Nodup.filter _ (by decide)
  · intro row hrow
    rcases CreateDynamicLink_cases U cfg env store params with ⟨_, _, ht⟩ | ⟨h, _, _, _, ht, _⟩
    · rw [ht] at hrow
      simp at hrow
    · rw [ht] at hrow
      exact (createOrGetShortLink_insert _ _ _ _ _ _ _ hrow).2.1

set_option maxRecDepth 100000 in
/-- C3 (witness): the sample request on an empty table inserts one row, whose
query string is `apn=com.app&link=https%3A%2F%2Ftarget.com`. -/
theorem persisted_query_is_reference_witness :
    (CreateDynamicLink sampleUnicode sampleConfig sampleEnv [] sampleRequest).store
        = [⟨B "example.com", B "dkryFM", B "apn=com.app&link=https%3A%2F%2Ftarget.com", false⟩]
    ∧ canonicalQuery sampleRequest = B "apn=com.app&link=https%3A%2F%2Ftarget.com"
    ∧ (⟨B "example.com", B "dkryFM", B "apn=com.app&link=https%3A%2F%2Ftarget.com", false⟩
        : ShortLinkRecord).query_params = canonicalQuery sampleRequest :=
  ⟨by decide!, by decide!,
    (persisted_query_is_reference sampleUnicode sampleConfig sampleEnv [] sampleRequest []).2.2
      _ (by decide!)⟩

set_option maxRecDepth 100000 in
/-- C4 (counterexample): for the sample request, with `link` and `apn` both
set, the persisted string is `apn=com.app&link=...`: its keys are `apn`, `link`
and not `link`, `apn` as the fixed order of section 4.1 would have them. -/
theorem fixed_order_counterexample :
    canonicalQuery sampleRequest = B "apn=com.app&link=https%3A%2F%2Ftarget.com"
    ∧ keysOf (canonicalQuery sampleRequest) = [B "apn", B "link"]
    ∧ ((fixedOrderPairs sampleRequest.DynamicLinkInfo).filter emitted).map Prod.fst
        = [B "link", B "apn"]
    ∧ keysOf (canonicalQuery sampleRequest)
        ≠ ((fixedOrderPairs sampleRequest.DynamicLinkInfo).filter emitted).map Prod.fst
    ∧ canonicalQuery sampleRequest ≠ fixedOrderQuery sampleRequest.DynamicLinkInfo := by
  decide!

/-- C4 (amended): the keys of the persisted query string appear in alphabetical
order (afl, amv, apn, at, ct, ifl, ipfl, isi, link, mt, ofl, pt, sd, si, st,
utm_campaign, utm_content, utm_medium, utm_source, utm_term), restricted to the
keys that are emitted. -/
theorem keys_in_alphabetical_order (params : CreateDynamicLinkRequest) :
    keysOf (canonicalQuery params)
      = ((alphabeticalPairs params.DynamicLinkInfo).filter emitted).map Prod.fst := by
  rw [keysOf_canonicalQuery, alphabeticalPairs_eq, List.filter_map, List.map_map]
  have e1 : (emitted ∘ fun k => (k, fieldValue params.DynamicLinkInfo k))
      = keyEmitted params.DynamicLinkInfo := rfl
  have e2 : (Prod.fst ∘ fun k => (k, fieldValue params.DynamicLinkInfo k)) = id := rfl
  rw [e1, e2, List.map_id]

/-! ## Parsing the links the service builds -/

theorem getSchemeLoop_colon (raw rest : GoString) (i : Nat) (hi : i ≠ 0) :
    getSchemeLoop raw i (ch ':' :: rest) = .ok (raw.take i, raw.drop (i + 1)) := by
  have h1 : ((97 ≤ (ch ':').val && (ch ':').val ≤ 122)
      || (65 ≤ (ch ':').val && (ch ':').val ≤ 90)) = false := by decide
  have h2 : ((48 ≤ (ch ':').val && (ch ':').val ≤ 57) || decide (ch ':' = ch '+')
      || decide (ch ':' = ch '-') || decide (ch ':' = ch '.')) = false := by decide
  rw [getSchemeLoop]
  simp only [h1, h2, Bool.false_eq_true, if_false, if_true, hi]

theorem getSchemeLoop_letter (raw s : GoString) (i : Nat) (c : Byte) (hc : isLetter c = true) :
    getSchemeLoop raw i (c :: s) = getSchemeLoop raw (i + 1) s := by
  unfold isLetter at hc
  rw [getSchemeLoop]
  simp only [hc, if_true]

theorem getSchemeLoop_other (raw s : GoString) (i : Nat) (c : Byte) (hc : isSchemeByte c = true)
    (hi : i ≠ 0) : getSchemeLoop raw i (c :: s) = getSchemeLoop raw (i + 1) s := by
  by_cases hl : isLetter c = true
  · exact getSchemeLoop_letter raw s i c hl
  · have hl' : ((97 ≤ c.val && c.val ≤ 122) || (65 ≤ c.val && c.val ≤ 90)) = false := by
      simpa [isLetter] using hl
    have hc' : ((48 ≤ c.val && c.val ≤ 57) || decide (c = ch '+') || decide (c = ch '-')
        || decide (c = ch '.')) = true := by
      simp only [isSchemeByte, isLetter, hl', Bool.false_or, isDigit] at hc
      exact hc
    rw [getSchemeLoop]
    simp only [hl', hc', Bool.false_eq_true, if_false, if_true, hi]

theorem getSchemeLoop_scheme (raw rest : GoString) :
    ∀ (s : GoString) (i : Nat), s.all isSchemeByte = true → i ≠ 0 →
      getSchemeLoop raw i (s ++ ch ':' :: rest)
        = .ok (raw.take (i + s.length), raw.drop (i + s.length + 1))
  | [], i, _, hi => by simpa using getSchemeLoop_colon raw rest i hi
  | c :: s, i, hs, hi => by
    simp only [List.all_cons, Bool.and_eq_true] at hs
    rw [List.cons_append, getSchemeLoop_other raw _ i c hs.1 hi,
      getSchemeLoop_scheme raw rest s (i + 1) hs.2 (by omega)]
    simp only [List.length_cons]
    congr 3 <;> omega

/-- `getScheme` splits a valid scheme off at its colon. -/
theorem getScheme_valid (scheme rest : GoString) (h : isValidScheme scheme = true) :
    getScheme (scheme ++ ch ':' :: rest) = .ok (scheme, rest) := by
  cases scheme with
  | nil => simp [isValidScheme] at h
  | cons c s =>
    simp only [isValidScheme, Bool.and_eq_true] at h
    unfold getScheme
    rw [List.cons_append, getSchemeLoop_letter _ _ _ _ h.1,
      getSchemeLoop_scheme _ rest s 1 h.2 (by omega)]
    have e1 : (c :: (s ++ ch ':' :: rest)).take (1 + s.length) = c :: s := by
      rw [Nat.add_comm]
      simp [List.take_succ_cons]
    have e2 : (c :: (s ++ ch ':' :: rest)).drop (1 + s.length + 1) = rest := by
      have : 1 + s.length + 1 = (s.length + 1) + 1 := by omega
      rw [this, List.drop_succ_cons]
      simp [List.drop_append]
    rw [e1, e2]

set_option maxRecDepth 100000 in
theorem isHostnameByte_facts : ∀ c : Byte, isHostnameByte c = true →
    (c ≠ ch '%' ∧ c ≠ ch '+' ∧ shouldEscape c .encodeHost = false ∧ c ≠ ch '@' ∧ c ≠ ch ':'
      ∧ c ≠ ch '[' ∧ c ≠ ch '/' ∧ c ≠ ch '?' ∧ c ≠ ch '#' ∧ c ≠ ch ' '
      ∧ (c.val < 32 || c.val = 127) = false ∧ c.val < 128 ∧ asciiSpace c = false) := by
  decide!

theorem unescape_host_plain : ∀ s : GoString, s.all isHostnameByte = true →
    unescape .encodeHost s = .ok s
  | [], _ => rfl
  | c :: s, h => by
    simp only [List.all_cons, Bool.and_eq_true] at h
    obtain ⟨h1, h2, h3, _⟩ := isHostnameByte_facts c h.1
    rw [unescape_cons_not_pct _ _ _ h1]
    simp [h2, h3, unescape_host_plain s h.2, Except.map]

theorem not_mem_of_all {P : Byte → Bool} {s : GoString} (hs : s.all P = true) {d : Byte}
    (hd : P d = false) : d ∉ s := by
  intro h
  have := List.all_eq_true.1 hs d h
  rw [hd] at this
  exact Bool.noConfusion this

/-- `parseAuthority` accepts a plain hostname as it is. -/
theorem parseAuthority_plain (host : GoString) (h : isPlainHostname host = true) :
    parseAuthority host = .ok host := by
  simp only [isPlainHostname, Bool.and_eq_true] at h
  obtain ⟨hne, hall⟩ := h
  have hat : ch '@' ∉ host := not_mem_of_all hall (by decide)
  have hcol : ch ':' ∉ host := not_mem_of_all hall (by decide)
  have hbr : hasPrefix host (B "[") = false := by
    cases host with
    | nil => simp at hne
    | cons c s =>
      simp only [List.all_cons, Bool.and_eq_true] at hall
      have := (isHostnameByte_facts c hall.1).2.2.2.2.2.1
      have e : B "[" = [ch '['] := rfl
      simp [e, hasPrefix_single, this]
  have e1 : B "@" = [ch '@'] := rfl
  have e2 : B ":" = [ch ':'] := rfl
  unfold parseAuthority
  rw [e1, lastIndex_single_not_mem _ _ hat]
  simp only
  unfold parseHost
  rw [hbr, e2, lastIndex_single_not_mem _ _ hcol]
  simp only [Bool.false_eq_true, if_false]
  exact unescape_host_plain host hall

set_option maxRecDepth 100000 in
theorem isSchemeByte_facts : ∀ c : Byte, isSchemeByte c = true →
    (c ≠ ch '#' ∧ c ≠ ch '?' ∧ (c.val < 32 || c.val = 127) = false ∧ lowerByte c ≠ ch '*') := by
  decide!

set_option maxRecDepth 100000 in
theorem queryByte_facts : ∀ c : Byte, queryByte c = true →
    (c ≠ ch '#' ∧ c ≠ ch '?' ∧ (c.val < 32 || c.val = 127) = false) := by
  decide!

set_option maxRecDepth 100000 in
theorem isLetter_isSchemeByte : ∀ c : Byte, isLetter c = true → isSchemeByte c = true := by
  decide!

theorem isValidScheme_all {s : GoString} (h : isValidScheme s = true) :
    s ≠ [] ∧ s.all isSchemeByte = true := by
  cases s with
  | nil => simp [isValidScheme] at h
  | cons c r =>
    simp only [isValidScheme, Bool.and_eq_true] at h
    simp [h.2, isLetter_isSchemeByte c h.1]

theorem stringContainsCTLByte_append (a b : GoString) :
    stringContainsCTLByte (a ++ b) = (stringContainsCTLByte a || stringContainsCTLByte b) := by
  simp [stringContainsCTLByte]

theorem stringContainsCTLByte_of_all {P : Byte → Bool} {s : GoString} (hs : s.all P = true)
    (hP : ∀ c, P c = true → (c.val < 32 || c.val = 127) = false) :
    stringContainsCTLByte s = false := by
  unfold stringContainsCTLByte
  rw [List.any_eq_false]
  intro c hc
  rw [hP c (List.all_eq_true.1 hs c hc)]
  simp

theorem hasSuffix_single_append (a b : GoString) (c : Byte) (hb : b ≠ []) (hc : c ∉ b) :
    hasSuffix (a ++ b) [c] = false := by
  unfold hasSuffix
  rw [List.reverse_append]
  cases hr : b.reverse with
  | nil => simp at hr; exact absurd hr hb
  | cons d r =>
    have hd : d ∈ b := by
      have : d ∈ b.reverse := by rw [hr]; simp
      simpa using this
    have : d ≠ c := fun e => hc (e ▸ hd)
    simp [hasPrefix_single, this]

/-- What `Parse` makes of `scheme://host?q` for a valid scheme, a plain hostname
and a non-empty query of bytes that `Encode` writes. -/
theorem Parse_host_query (scheme host q : GoString) (hs : isValidScheme scheme = true)
    (hh : isPlainHostname host = true) (hq : q ≠ []) (hqs : q.all queryByte = true) :
    Parse (scheme ++ B "://" ++ host ++ B "?" ++ q)
      = .ok { Scheme := scheme.map lowerByte, Host := host, RawQuery := q } := by
  obtain ⟨hsne, hsall⟩ := isValidScheme_all hs
  have hh' := hh
  simp only [isPlainHostname, Bool.and_eq_true] at hh'
  obtain ⟨_, hhall⟩ := hh'
  -- the raw URL and its rest after the scheme
  have eraw : scheme ++ B "://" ++ host ++ B "?" ++ q
      = scheme ++ ch ':' :: (B "//" ++ host ++ ch '?' :: q) := by
    simp [B, ch]
  have hhash : ch '#' ∉ scheme ++ ch ':' :: (B "//" ++ host ++ ch '?' :: q) := by
    intro h
    simp only [List.mem_append, List.mem_cons] at h
    rcases h with h | h | (h | h) | h | h
    · exact (isSchemeByte_facts _ (List.all_eq_true.1 hsall _ h)).1 rfl
    · exact absurd h (by decide)
    · revert h; decide
    · exact (isHostnameByte_facts _ (List.all_eq_true.1 hhall _ h)).2.2.2.2.2.2.2.2.1 rfl
    · exact absurd h (by decide)
    · exact (queryByte_facts _ (List.all_eq_true.1 hqs _ h)).1 rfl
  have hctl : stringContainsCTLByte (scheme ++ ch ':' :: (B "//" ++ host ++ ch '?' :: q))
      = false := by
    have e : scheme ++ ch ':' :: (B "//" ++ host ++ ch '?' :: q)
        = scheme ++ (B "://" ++ (host ++ (B "?" ++ q))) := by simp [B, ch]
    rw [e]
    simp only [stringContainsCTLByte_append]
    rw [stringContainsCTLByte_of_all hsall (fun c hc => (isSchemeByte_facts c hc).2.2.1),
      stringContainsCTLByte_of_all hhall
        (fun c hc => (isHostnameByte_facts c hc).2.2.2.2.2.2.2.2.2.2.1),
      stringContainsCTLByte_of_all hqs (fun c hc => (queryByte_facts c hc).2.2)]
    decide
  have hstar : scheme ++ ch ':' :: (B "//" ++ host ++ ch '?' :: q) ≠ B "*" := by
    intro h
    have := congrArg List.length h
    simp [B] at this
    omega
  have hqm : ch '?' ∉ q := fun h => (queryByte_facts _ (List.all_eq_true.1 hqs _ h)).2.1 rfl
  have hsuf : hasSuffix (B "//" ++ host ++ ch '?' :: q) (B "?") = false := by
    have e : B "//" ++ host ++ ch '?' :: q = (B "//" ++ host ++ [ch '?']) ++ q := by simp
    rw [e]
    exact hasSuffix_single_append _ _ _ hq hqm
  have hqh : ch '?' ∉ B "//" ++ host := by
    intro h
    rcases List.mem_append.1 h with h | h
    · revert h; decide
    · exact (isHostnameByte_facts _ (List.all_eq_true.1 hhall _ h)).2.2.2.2.2.2.2.1 rfl
  have hcut : cut (B "//" ++ host ++ ch '?' :: q) (B "?") = (B "//" ++ host, q, true) :=
    cut_single_append _ _ _ hqh
  have hsl : ch '/' ∉ host := fun h =>
    (isHostnameByte_facts _ (List.all_eq_true.1 hhall _ h)).2.2.2.2.2.2.1 rfl
  have hidx : index host (B "/") = none := index_single_not_mem _ _ hsl
  have hlow : scheme.map lowerByte ≠ [] := by simpa using hsne
  have hp1 : hasPrefix (B "//" ++ host) (B "/") = true := rfl
  have hp2 : hasPrefix (B "//" ++ host) (B "//") = true := by
    simp [B, hasPrefix]
  have hdrop : (B "//" ++ host).drop 2 = host := rfl
  have hparse : parse (scheme ++ ch ':' :: (B "//" ++ host ++ ch '?' :: q))
      = .ok { Scheme := scheme.map lowerByte, Host := host, RawQuery := q } := by
    unfold parse
    rw [hctl, if_neg (by simp), if_neg hstar, getScheme_valid _ _ hs]
    simp only [hsuf, hcut, Bool.false_and, Bool.false_eq_true, if_false, hp1, hp2, hlow,
      Bool.not_true, ne_eq, not_false_eq_true, decide_True, Bool.true_or,
      Bool.and_self, Bool.and_true, if_true, hdrop, hidx, parseAuthority_plain host hh, setPath]
    rfl
  unfold Parse
  rw [eraw]
  have e : B "#" = [ch '#'] := rfl
  rw [e, cut_single_not_mem _ _ hhash]
  simp only [hparse, if_true]

/-! ## Parsing the canonical query string -/

set_option maxRecDepth 100000 in
theorem keyByte_facts : ∀ c : Byte, keyByte c = true → (c ≠ ch '%' ∧ c ≠ ch '+') := by
  decide!

theorem unescape_key : ∀ s : GoString, s.all keyByte = true →
    unescape .encodeQueryComponent s = .ok s
  | [], _ => rfl
  | c :: s, h => by
    simp only [List.all_cons, Bool.and_eq_true] at h
    obtain ⟨h1, h2⟩ := keyByte_facts c h.1
    rw [unescape_cons_not_pct _ _ _ h1]
    simp [h2, unescape_key s h.2, Except.map]

theorem QueryUnescape_key {k : GoString} (hk : k ∈ alphabeticalKeys) :
    QueryUnescape k = .ok k :=
  unescape_key k (List.all_eq_true.1 alphabeticalKeys_keyByte k hk)

theorem keyPiece_semi_not_mem {k : GoString} (hk : k ∈ alphabeticalKeys) (v : GoString) :
    ch ';' ∉ k ++ ch '=' :: QueryEscape v := by
  intro h
  rcases List.mem_append.1 h with h | h
  · exact key_not_mem hk _ (by decide) h
  · rcases List.mem_cons.1 h with h | h
    · exact absurd h (by decide)
    · exact QueryEscape_not_mem _ (by decide) v h

/-- One round of the loop of `parseQuery` on a piece `key=QueryEscape(value)`. -/
theorem parseQueryLoop_step (fuel : Nat) (m : Values) (query rest k v : GoString) (found : Bool)
    (hk : k ∈ alphabeticalKeys) (hq : query ≠ [])
    (hcut : cut query (B "&") = (k ++ ch '=' :: QueryEscape v, rest, found)) :
    parseQueryLoop (fuel + 1) m query = parseQueryLoop fuel (Values.Add m k v) rest := by
  have h1 : contains (k ++ ch '=' :: QueryEscape v) (B ";") = false :=
    contains_single_not_mem _ _ (keyPiece_semi_not_mem hk v)
  have h2 : (k ++ ch '=' :: QueryEscape v) ≠ [] := by simp
  have h3 : cut (k ++ ch '=' :: QueryEscape v) (B "=") = (k, QueryEscape v, true) :=
    cut_single_append _ _ _ (key_eq_not_mem hk)
  rw [parseQueryLoop]
  simp only [hq, if_false, hcut, h1, Bool.false_eq_true, h2, h3, QueryUnescape_key hk,
    QueryUnescape_QueryEscape]

theorem parseQueryLoop_nil (fuel : Nat) (m : Values) : parseQueryLoop fuel m [] = m := by
  cases fuel <;> simp [parseQueryLoop]

theorem parseQueryLoop_pieces (f : GoString → GoString) :
    ∀ (ks acc : List GoString) (fuel : Nat), (∀ k ∈ ks, k ∈ alphabeticalKeys) →
      (acc ++ ks).Nodup →
      (joinAmp (ks.map (fun k => k ++ ch '=' :: QueryEscape (f k)))).length ≤ fuel →
      parseQueryLoop fuel (single f acc)
          (joinAmp (ks.map (fun k => k ++ ch '=' :: QueryEscape (f k))))
        = single f (acc ++ ks)
  | [], acc, fuel, _, _, _ => by simp [joinAmp, parseQueryLoop_nil]
  | [k], acc, fuel, hks, hnd, hfuel => by
    have hk := hks k (by simp)
    have hkacc : k ∉ acc := fun h => (List.nodup_append.1 hnd).2.2 h (by simp)
    simp only [List.map_cons, List.map_nil, joinAmp] at hfuel ⊢
    cases fuel with
    | zero => simp at hfuel
    | succ fuel =>
      rw [parseQueryLoop_step fuel _ _ [] k (f k) false hk (by simp)
        (cut_single_not_mem _ _ (keyPiece_amp_not_mem hk _)),
        parseQueryLoop_nil, Values.Add_single f acc k hkacc]
  | k :: k2 :: ks, acc, fuel, hks, hnd, hfuel => by
    have hk := hks k (by simp)
    have hkacc : k ∉ acc := fun h => (List.nodup_append.1 hnd).2.2 h (by simp)
    simp only [List.map_cons, joinAmp] at hfuel ⊢
    cases fuel with
    | zero => simp at hfuel
    | succ fuel =>
      have hnd' : ((acc ++ [k]) ++ (k2 :: ks)).Nodup := by simpa using hnd
      have hfuel' : (joinAmp ((k2 :: ks).map (fun k => k ++ ch '=' :: QueryEscape (f k)))).length
          ≤ fuel := by
        simp only [List.map_cons, List.length_append, List.length_cons] at hfuel ⊢
        omega
      have ih := parseQueryLoop_pieces f (k2 :: ks) (acc ++ [k]) fuel
        (fun x hx => hks x (by simp [List.mem_cons.1 hx])) hnd' hfuel'
      rw [parseQueryLoop_step fuel _ _ _ k (f k) true hk (by simp)
        (cut_single_append _ _ _ (keyPiece_amp_not_mem hk _)),
        Values.Add_single f acc k hkacc]
      simp only [List.map_cons] at ih
      rw [ih]
      simp

/-- Parsing the canonical query string gives one value per emitted key. -/
theorem parseQuery_canonicalQuery (params : CreateDynamicLinkRequest) :
    parseQuery (canonicalQuery params)
      = single (fieldValue params.DynamicLinkInfo)
          (alphabeticalKeys.filter (keyEmitted params.DynamicLinkInfo)) := by
  rw [canonicalQuery_eq_keys]
  unfold parseQuery
  have := parseQueryLoop_pieces (fieldValue params.DynamicLinkInfo)
    (alphabeticalKeys.filter (keyEmitted params.DynamicLinkInfo)) []
    (joinAmp ((alphabeticalKeys.filter (keyEmitted params.DynamicLinkInfo)).map
      (fun k => k ++ ch '=' :: QueryEscape (fieldValue params.DynamicLinkInfo k)))).length
    (fun k hk => List.mem_of_mem_filter hk)
    (by simpa using List.Nodup.filter _ (by decide)) (Nat.le_refl _)
  simpa [single] using this

theorem Values.Get_single (f : GoString → GoString) (ks : List GoString) (k : GoString)
    (hk : k ∈ ks) : Values.Get (single f ks) k = f k := by
  simp [Values.Get, Values.at_single f ks k hk]

theorem Values.Get_single_not_mem (f : GoString → GoString) (ks : List GoString) (k : GoString)
    (hk : k ∉ ks) : Values.Get (single f ks) k = [] := by
  simp [Values.Get, Values.at_single_not_mem f ks k hk]

/-- Reading a field back from the parsed canonical query string. -/
theorem getField_canonical (info : DynamicLinkInfo) (k : GoString) :
    getField (single (fieldValue info) (alphabeticalKeys.filter (keyEmitted info))) k
      = if k ∈ alphabeticalKeys then fieldValue info k else [] := by
  unfold getField
  by_cases hk : k ∈ alphabeticalKeys
  · rw [if_pos hk]
    by_cases he : keyEmitted info k = true
    · rw [Values.Get_single _ _ _ (List.mem_filter.2 ⟨hk, he⟩)]
      split <;> simp_all
    · have hnm : k ∉ alphabeticalKeys.filter (keyEmitted info) := fun h =>
        he (List.mem_filter.1 h).2
      rw [Values.Get_single_not_mem _ _ _ hnm]
      simp only [keyEmitted, emitted, Bool.or_eq_true, decide_eq_true_eq, not_or, ne_eq,
        Decidable.not_not] at he
      simp [he.2]
  · have hnm : k ∉ alphabeticalKeys.filter (keyEmitted info) := fun h =>
      hk (List.mem_of_mem_filter h)
    rw [if_neg hk, Values.Get_single_not_mem _ _ _ hnm]
    simp

theorem Get_link_canonical (info : DynamicLinkInfo) :
    Values.Get (single (fieldValue info) (alphabeticalKeys.filter (keyEmitted info))) (B "link")
      = info.Link :=
  Values.Get_single _ _ _ (link_mem_emitted info)

theorem canonicalQuery_ne_nil (params : CreateDynamicLinkRequest) : canonicalQuery params ≠ [] := by
  intro h
  have := keysOf_canonicalQuery params
  rw [h] at this
  have hl := link_mem_emitted params.DynamicLinkInfo
  rw [← this] at hl
  revert hl
  decide

theorem mem_joinAmp (c : Byte) : ∀ xs : List GoString, c ∈ joinAmp xs →
    c = ch '&' ∨ ∃ x ∈ xs, c ∈ x
  | [], h => by simp [joinAmp] at h
  | [x], h => by
    simp only [joinAmp] at h
    exact Or.inr ⟨x, by simp, h⟩
  | x :: y :: rest, h => by
    simp only [joinAmp, List.mem_append, List.mem_cons] at h
    rcases h with h | h | h
    · exact Or.inr ⟨x, by simp, h⟩
    · exact Or.inl h
    · rcases mem_joinAmp c (y :: rest) h with h | ⟨z, hz, hc⟩
      · exact Or.inl h
      · exact Or.inr ⟨z, by simp [List.mem_cons.1 hz], hc⟩

theorem canonicalQuery_queryByte (params : CreateDynamicLinkRequest) :
    (canonicalQuery params).all queryByte = true := by
  rw [canonicalQuery_eq_keys, List.all_eq_true]
  intro c hc
  rcases mem_joinAmp c _ hc with h | ⟨x, hx, hcx⟩
  · subst h; decide
  · obtain ⟨k, hk, rfl⟩ := List.mem_map.1 hx
    have hk' := List.mem_of_mem_filter hk
    rcases List.mem_append.1 hcx with h | h
    · simp [queryByte, keyByte_querySafe c (keyByte_of_mem hk' h)]
    · rcases List.mem_cons.1 h with h | h
      · subst h; decide
      · simp [queryByte, QueryEscape_safe _ c h]

/-! ## Claims C1 and C2: the round trips of the codec -/

/-- Decoding `scheme://host?q`, for the canonical query string `q` of a request,
gives the request back, with the host of the link and no suffix option. -/
theorem ParseLongDynamicLink_canonical (scheme host : GoString)
    (params : CreateDynamicLinkRequest) (hs : isValidScheme scheme = true)
    (hh : isPlainHostname host = true) :
    ParseLongDynamicLink (scheme ++ B "://" ++ host ++ B "?" ++ canonicalQuery params)
      = ({ DynamicLinkInfo := { params.DynamicLinkInfo with Host := host }, Suffix := {} },
          none) := by
  have hne : host ≠ [] := by
    simp only [isPlainHostname, Bool.and_eq_true] at hh
    simpa using hh.1
  unfold ParseLongDynamicLink
  rw [Parse_host_query scheme host _ hs hh (canonicalQuery_ne_nil params)
    (canonicalQuery_queryByte params)]
  simp only [hne, if_false, URL.Query, parseQuery_canonicalQuery, getField_canonical,
    Get_link_canonical]
  rfl

/-- C1: decode after encode is the identity. For every request whose host is a
plain hostname (whatever bytes its fields hold; the link may even be empty),
let `q` be the query string `CreateDynamicLink` builds; then `ParseLongDynamicLink`
applied to `scheme://host?q`, for any valid URL scheme, returns no error and a
request whose `DynamicLinkInfo` equals the original in every field. The suffix
option comes back empty: `path` is never written. -/
theorem decode_encode_roundtrip (scheme : GoString) (params : CreateDynamicLinkRequest)
    (hs : isValidScheme scheme = true)
    (hh : isPlainHostname params.DynamicLinkInfo.Host = true) :
    ParseLongDynamicLink
        (scheme ++ B "://" ++ params.DynamicLinkInfo.Host ++ B "?" ++ canonicalQuery params)
      = ({ DynamicLinkInfo := params.DynamicLinkInfo, Suffix := {} }, none) :=
  ParseLongDynamicLink_canonical scheme _ params hs hh

/-- C1 (witness): the sample request, under the scheme `https`. -/
theorem decode_encode_roundtrip_witness :
    isValidScheme (B "https") = true
    ∧ isPlainHostname sampleRequest.DynamicLinkInfo.Host = true
    ∧ ParseLongDynamicLink (B "https" ++ B "://" ++ sampleRequest.DynamicLinkInfo.Host
          ++ B "?" ++ canonicalQuery sampleRequest)
        = ({ DynamicLinkInfo := sampleRequest.DynamicLinkInfo, Suffix := {} }, none) :=
  ⟨by decide, by decide,
    decode_encode_roundtrip (B "https") sampleRequest (by decide) (by decide)⟩

/-- C2: encode after decode is the identity on canonical query strings. For
every query string `q` that `CreateDynamicLink` builds for some request,
decoding `scheme://host?q` (a valid URL scheme, a plain hostname) succeeds, and
the query string built from the decoded request is `q` again. -/
theorem encode_decode_roundtrip (scheme host q : GoString) (params : CreateDynamicLinkRequest)
    (hq : q = canonicalQuery params) (hs : isValidScheme scheme = true)
    (hh : isPlainHostname host = true) :
    (ParseLongDynamicLink (scheme ++ B "://" ++ host ++ B "?" ++ q)).2 = none
    ∧ canonicalQuery (ParseLongDynamicLink (scheme ++ B "://" ++ host ++ B "?" ++ q)).1 = q := by
  subst hq
  rw [ParseLongDynamicLink_canonical scheme host params hs hh]
  refine ⟨rfl, ?_⟩
  rw [canonicalQuery_eq_reference, canonicalQuery_eq_reference]
  rfl

set_option maxRecDepth 100000 in
/-- C2 (witness): the query string of the sample request, under `https` and
the host `example.com`. -/
theorem encode_decode_roundtrip_witness :
    B "apn=com.app&link=https%3A%2F%2Ftarget.com" = canonicalQuery sampleRequest
    ∧ isValidScheme (B "https") = true ∧ isPlainHostname (B "example.com") = true
    ∧ canonicalQuery (ParseLongDynamicLink (B "https" ++ B "://" ++ B "example.com" ++ B "?"
          ++ B "apn=com.app&link=https%3A%2F%2Ftarget.com")).1
        = B "apn=com.app&link=https%3A%2F%2Ftarget.com" :=
  ⟨by decide!, by decide, by decide,
    (encode_decode_roundtrip (B "https") (B "example.com") _ sampleRequest (by decide!)
      (by decide) (by decide)).2⟩

/-! ## The two halves of `CreateDynamicLink` -/

theorem CreateDynamicLink_invalid (U : Unicode) (cfg : Config) (env : Env) (store : Store)
    (params : CreateDynamicLinkRequest) (e : AppError) (hv : validate U cfg params = .error e) :
    CreateDynamicLink U cfg env store params = ⟨.error e, store, []⟩ := by
  unfold validate at hv
  unfold CreateDynamicLink
  cases hc : CleanHost U params.DynamicLinkInfo.Host with
  | error err =>
    rw [hc] at hv
    simp only [Except.error.injEq] at hv
    simp [hv]
  | ok host =>
    rw [hc] at hv
    simp only at hv ⊢
    split at hv
    · next h1 =>
      simp only [Except.error.injEq] at hv
      simp [h1, hv]
    · next h1 =>
      split at hv
      · next h2 =>
        simp only [Except.error.injEq] at hv
        simp [h1, h2, hv]
      · exact absurd hv (by simp)

theorem CreateDynamicLink_valid (U : Unicode) (cfg : Config) (env : Env) (store : Store)
    (params : CreateDynamicLinkRequest) (host : GoString) (hv : validate U cfg params = .ok host) :
    CreateDynamicLink U cfg env store params
      = ⟨attachWarnings (buildWarnings params)
            (createOrGetShortLink cfg env store host (buildQueryParams params)
              (wantsShort params)).result,
          (createOrGetShortLink cfg env store host (buildQueryParams params)
              (wantsShort params)).store,
          (createOrGetShortLink cfg env store host (buildQueryParams params)
              (wantsShort params)).trace⟩ := by
  unfold validate at hv
  unfold CreateDynamicLink wantsShort
  cases hc : CleanHost U params.DynamicLinkInfo.Host with
  | error err =>
    rw [hc] at hv
    exact absurd hv (by simp)
  | ok host' =>
    rw [hc] at hv
    simp only at hv ⊢
    split at hv
    · exact absurd hv (by simp)
    · next h1 =>
      split at hv
      · exact absurd hv (by simp)
      · next h2 =>
        simp only [Except.ok.injEq] at hv
        subst hv
        simp only [h1, h2, if_false]
        cases (createOrGetShortLink cfg env store host' (buildQueryParams params)
              (decide (params.Suffix.Option = B "SHORT"))).result <;> rfl

theorem createOrGetShortLink_long (cfg : Config) (env : Env) (store : Store) (host : GoString)
    (queryParams : Values) :
    createOrGetShortLink cfg env store host queryParams false
      = createNewShortLink cfg env store host (Values.Encode queryParams) false [] := by
  simp [createOrGetShortLink]

theorem createOrGetShortLink_found (cfg : Config) (env : Env) (store : Store) (host : GoString)
    (queryParams : Values) (path : GoString)
    (hf : FindExistingShortLink env store host (Values.Encode queryParams) = .ok path) :
    createOrGetShortLink cfg env store host queryParams true
      = ⟨.ok { ShortLink := sprintfLink cfg.URLScheme host path, Warnings := [] }, store,
          [.find host (Values.Encode queryParams)]⟩ := by
  simp [createOrGetShortLink, hf]

theorem createOrGetShortLink_failed (cfg : Config) (env : Env) (store : Store) (host : GoString)
    (queryParams : Values) (err : AppError)
    (hf : FindExistingShortLink env store host (Values.Encode queryParams) = .error err)
    (he : err ≠ .sqlErrNoRows) :
    createOrGetShortLink cfg env store host queryParams true
      = ⟨.error err, store, [.find host (Values.Encode queryParams)]⟩ := by
  simp [createOrGetShortLink, hf, he]

theorem createOrGetShortLink_missed (cfg : Config) (env : Env) (store : Store) (host : GoString)
    (queryParams : Values)
    (hf : FindExistingShortLink env store host (Values.Encode queryParams)
      = .error .sqlErrNoRows) :
    createOrGetShortLink cfg env store host queryParams true
      = createNewShortLink cfg env store host (Values.Encode queryParams) true
          [.find host (Values.Encode queryParams)] := by
  simp [createOrGetShortLink, hf]

theorem FindExistingShortLink_eq (env : Env) (store : Store) (host rawQS : GoString) :
    FindExistingShortLink env store host rawQS
      = match env.findErr with
        | some msg => .error (.driver msg)
        | none =>
          match store.find? (reusable host rawQS) with
          | none => .error .sqlErrNoRows
          | some r => .ok r.path := rfl

theorem validate_ok_host (U : Unicode) (cfg : Config) (params : CreateDynamicLinkRequest)
    (host : GoString) (hv : validate U cfg params = .ok host) :
    CleanHost U params.DynamicLinkInfo.Host = .ok host := by
  unfold validate at hv
  cases hc : CleanHost U params.DynamicLinkInfo.Host with
  | error err =>
    rw [hc] at hv
    exact absurd hv (by simp)
  | ok host' =>
    rw [hc] at hv
    simp only at hv
    split at hv
    · exact absurd hv (by simp)
    · split at hv
      · exact absurd hv (by simp)
      · rw [Except.ok.inj hv]

/-- A successful call either reused a stored guessable row, leaving the table
as it was, or generated a path and added its row. -/
theorem CreateDynamicLink_ok_cases (U : Unicode) (cfg : Config) (env : Env) (store : Store)
    (params : CreateDynamicLinkRequest) (response : ShortLinkResponse)
    (hok : (CreateDynamicLink U cfg env store params).result = .ok response) :
    ∃ host path, validate U cfg params = .ok host
      ∧ response = ⟨sprintfLink cfg.URLScheme host path, buildWarnings params⟩
      ∧ (((CreateDynamicLink U cfg env store params).store = store
            ∧ wantsShort params = true
            ∧ ∃ r, store.find? (reusable host (canonicalQuery params)) = some r ∧ r.path = path)
          ∨ (GenerateDynamicLinkPath env.rand (pathLength cfg (wantsShort params)) = some path
            ∧ (CreateDynamicLink U cfg env store params).store
                = store ++ [⟨host, path, canonicalQuery params, !wantsShort params⟩])) := by
  cases hv : validate U cfg params with
  | error e =>
    rw [CreateDynamicLink_invalid U cfg env store params e hv] at hok
    exact absurd hok (by simp)
  | ok host =>
    rw [CreateDynamicLink_valid U cfg env store params host hv] at hok ⊢
    simp only at hok ⊢
    have hnew : ∀ pre, attachWarnings (buildWarnings params) (createNewShortLink cfg env store host
          (Values.Encode (buildQueryParams params)) (wantsShort params) pre).result
            = .ok response →
        ∃ path, response = ⟨sprintfLink cfg.URLScheme host path, buildWarnings params⟩
          ∧ GenerateDynamicLinkPath env.rand (pathLength cfg (wantsShort params)) = some path
          ∧ (createNewShortLink cfg env store host
              (Values.Encode (buildQueryParams params)) (wantsShort params) pre).store
                = store ++ [⟨host, path, canonicalQuery params, !wantsShort params⟩] := by
      intro pre h
      cases hg : GenerateDynamicLinkPath env.rand (pathLength cfg (wantsShort params)) with
      | none =>
        rw [createNewShortLink_panic _ _ _ _ _ _ _ hg] at h
        exact absurd h (by simp [attachWarnings])
      | some path =>
        cases hi : env.insertErr with
        | some msg =>
          rw [createNewShortLink_fail _ _ _ _ _ _ _ _ _ hg hi] at h
          exact absurd h (by simp [attachWarnings])
        | none =>
          rw [createNewShortLink_ok _ _ _ _ _ _ _ _ hg hi] at h ⊢
          simp only [attachWarnings, Result.ok.injEq] at h
          exact ⟨path, h.symm, rfl, rfl⟩
    cases hw : wantsShort params with
    | false =>
      rw [hw] at hok
      rw [createOrGetShortLink_long] at hok ⊢
      simp only [hw] at hnew
      obtain ⟨path, h1, h2, h3⟩ := hnew [] hok
      exact ⟨host, path, rfl, h1, Or.inr ⟨h2, h3⟩⟩
    | true =>
      rw [hw] at hok
      simp only [hw] at hnew
      cases hf : FindExistingShortLink env store host (Values.Encode (buildQueryParams params)) with
      | ok p =>
        rw [createOrGetShortLink_found _ _ _ _ _ _ hf] at hok ⊢
        simp only [attachWarnings, Result.ok.injEq] at hok
        refine ⟨host, p, rfl, hok.symm, Or.inl ⟨rfl, rfl, ?_⟩⟩
        rw [FindExistingShortLink_eq] at hf
        cases hfe : env.findErr with
        | some msg => rw [hfe] at hf; exact absurd hf (by simp)
        | none =>
          rw [hfe] at hf
          simp only at hf
          cases hs : store.find? (reusable host (Values.Encode (buildQueryParams params))) with
          | none => rw [hs] at hf; exact absurd hf (by simp)
          | some r =>
            rw [hs] at hf
            exact ⟨r, hs, Except.ok.inj hf⟩
      | error err =>
        by_cases he : err = .sqlErrNoRows
        · subst he
          rw [createOrGetShortLink_missed _ _ _ _ _ hf] at hok ⊢
          obtain ⟨path, h1, h2, h3⟩ := hnew _ hok
          exact ⟨host, path, rfl, h1, Or.inr ⟨h2, h3⟩⟩
        · rw [createOrGetShortLink_failed _ _ _ _ _ _ hf he] at hok
          exact absurd hok (by simp [attachWarnings])

/-! ## Generated paths -/

set_option maxRecDepth 100000 in
theorem alphanumeric_get : ∀ x : Byte,
    alphanumeric.get? (x.val % (alphanumeric.length % 256)) = some (pathByte x) := by
  decide!

set_option maxRecDepth 100000 in
theorem pathByte_isAlnum : ∀ x : Byte, isAlnum (pathByte x) = true := by
  decide!

theorem mapM_alphanumeric : ∀ b : List Byte,
    b.mapM (fun x => alphanumeric.get? (x.val % (alphanumeric.length % 256)))
      = some (b.map pathByte)
  | [] => rfl
  | x :: b => by
    rw [List.mapM_cons, alphanumeric_get x, mapM_alphanumeric b]
    rfl

/-- For a length that is not negative the generator returns the random bytes
mapped into the alphabet. -/
theorem GenerateDynamicLinkPath_eq (rand : Nat → Byte) (length : Int) (h : 0 ≤ length) :
    GenerateDynamicLinkPath rand length
      = some (((List.range length.toNat).map rand).map pathByte) := by
  unfold GenerateDynamicLinkPath
  rw [if_neg (by omega)]
  exact mapM_alphanumeric _

theorem GenerateDynamicLinkPath_neg (rand : Nat → Byte) (length : Int) (h : length < 0) :
    GenerateDynamicLinkPath rand length = none := by
  unfold GenerateDynamicLinkPath
  rw [if_pos h]

theorem GenerateDynamicLinkPath_some (rand : Nat → Byte) (length : Int) (path : GoString)
    (h : GenerateDynamicLinkPath rand length = some path) :
    0 ≤ length ∧ (path.length : Int) = length ∧ path.all isAlnum = true := by
  by_cases hl : length < 0
  · rw [GenerateDynamicLinkPath_neg rand length hl] at h
    exact absurd h (by simp)
  · have hl' : 0 ≤ length := by omega
    rw [GenerateDynamicLinkPath_eq rand length hl'] at h
    simp only [Option.some.injEq] at h
    subst h
    refine ⟨hl', ?_, ?_⟩
    · simp only [List.length_map, List.length_range]
      omega
    · rw [List.all_eq_true]
      intro c hc
      simp only [List.map_map, List.mem_map] at hc
      obtain ⟨i, _, rfl⟩ := hc
      exact pathByte_isAlnum _

/-! ## Claims C5 to C10: the short-path resolver -/

theorem wantsShort_of_short (params : CreateDynamicLinkRequest)
    (h : params.Suffix.Option = B "SHORT") : wantsShort params = true := by
  simp [wantsShort, h]

theorem wantsShort_of_not_short (params : CreateDynamicLinkRequest)
    (h : params.Suffix.Option ≠ B "SHORT") : wantsShort params = false := by
  simp [wantsShort, h]

/-- The reuse branch: on a table that holds a guessable row for the host and
query string, a call in the guessable regime makes the lookup and nothing
else, and returns the stored path when the lookup is executed. -/
theorem createOrGetShortLink_reuse (cfg : Config) (env : Env) (store : Store) (host : GoString)
    (queryParams : Values) (r : ShortLinkRecord)
    (hs : store.find? (reusable host (Values.Encode queryParams)) = some r) :
    (createOrGetShortLink cfg env store host queryParams true).store = store
    ∧ (createOrGetShortLink cfg env store host queryParams true).trace
        = [.find host (Values.Encode queryParams)]
    ∧ (env.findErr = none →
        (createOrGetShortLink cfg env store host queryParams true).result
          = .ok { ShortLink := sprintfLink cfg.URLScheme host r.path, Warnings := [] }) := by
  cases hf : env.findErr with
  | some msg =>
    have hfind : FindExistingShortLink env store host (Values.Encode queryParams)
        = .error (.driver msg) := by rw [FindExistingShortLink_eq, hf]
    rw [createOrGetShortLink_failed _ _ _ _ _ _ hfind (by simp)]
    exact ⟨rfl, rfl, fun h => absurd h (by simp)⟩
  | none =>
    have hfind : FindExistingShortLink env store host (Values.Encode queryParams)
        = .ok r.path := by rw [FindExistingShortLink_eq, hf, hs]
    rw [createOrGetShortLink_found _ _ _ _ _ _ hfind]
    exact ⟨rfl, rfl, fun _ => rfl⟩

/-- C5: reuse of guessable links is idempotent. Whatever the table holds, if
`CreateDynamicLink` succeeds on a request with suffix option `SHORT`, then a
second call with the same request on the resulting table, whatever the random
source yields, leaves the table as it is and does nothing but the reuse
lookup (no path is generated, no row inserted); and, the database executing
that lookup, it returns the same response, hence the same short link. -/
theorem guessable_reuse_idempotent (U : Unicode) (cfg : Config) (env1 env2 : Env) (store : Store)
    (params : CreateDynamicLinkRequest) (response : ShortLinkResponse)
    (hshort : params.Suffix.Option = B "SHORT")
    (hok : (CreateDynamicLink U cfg env1 store params).result = .ok response) :
    (CreateDynamicLink U cfg env2 (CreateDynamicLink U cfg env1 store params).store params).store
        = (CreateDynamicLink U cfg env1 store params).store
    ∧ (∃ host, (CreateDynamicLink U cfg env2 (CreateDynamicLink U cfg env1 store params).store
          params).trace = [.find host (canonicalQuery params)])
    ∧ (env2.findErr = none →
        (CreateDynamicLink U cfg env2 (CreateDynamicLink U cfg env1 store params).store
            params).result = .ok response) := by
  have hw := wantsShort_of_short params hshort
  obtain ⟨host, path, hv, hresp, hcase⟩ := CreateDynamicLink_ok_cases U cfg env1 store params
    response hok
  rw [hw] at hcase
  have hrow : ∃ r, (CreateDynamicLink U cfg env1 store params).store.find?
      (reusable host (canonicalQuery params)) = some r ∧ r.path = path := by
    rcases hcase with ⟨hsame, _, r, hr, hp⟩ | ⟨_, hadd⟩
    · rw [hsame]
      exact ⟨r, hr, hp⟩
    · rw [hadd]
      cases hs : store.find? (reusable host (canonicalQuery params)) with
      | some r =>
        -- a stored row would have been reused, and the table left as it was
        exfalso
        have h1 := CreateDynamicLink_valid U cfg env1 store params host hv
        have h2 := createOrGetShortLink_reuse cfg env1 store host (buildQueryParams params) r hs
        rw [h1] at hadd
        simp only [hw] at hadd
        rw [h2.1] at hadd
        have := congrArg List.length hadd
        simp at this
      | none =>
        refine ⟨⟨host, path, canonicalQuery params, !true⟩, ?_, rfl⟩
        simp only [List.find?_append, hs, Option.none_or]
        simp [List.find?, reusable]
  obtain ⟨r, hr, hp⟩ := hrow
  have h2 := createOrGetShortLink_reuse cfg env2 _ host (buildQueryParams params) r hr
  rw [CreateDynamicLink_valid U cfg env2 _ params host hv]
  simp only [hw]
  refine ⟨h2.1, ⟨host, h2.2.1⟩, ?_⟩
  intro hdb
  rw [h2.2.2 hdb, hresp, hp]
  rfl

set_option maxRecDepth 100000 in
/-- C5 (witness): the sample request on an empty table, and again on the
table that results, with another random source. -/
theorem guessable_reuse_idempotent_witness :
    sampleRequest.Suffix.Option = B "SHORT"
    ∧ (CreateDynamicLink sampleUnicode sampleConfig sampleEnv [] sampleRequest).result
        = .ok ⟨B "https://example.com/dkryFM", []⟩
    ∧ (CreateDynamicLink sampleUnicode sampleConfig { rand := fun _ => 0 }
          (CreateDynamicLink sampleUnicode sampleConfig sampleEnv [] sampleRequest).store
          sampleRequest).store
        = (CreateDynamicLink sampleUnicode sampleConfig sampleEnv [] sampleRequest).store
    ∧ (CreateDynamicLink sampleUnicode sampleConfig { rand := fun _ => 0 }
          (CreateDynamicLink sampleUnicode sampleConfig sampleEnv [] sampleRequest).store
          sampleRequest).result = .ok ⟨B "https://example.com/dkryFM", []⟩ :=
  ⟨by decide, by decide!,
    (guessable_reuse_idempotent sampleUnicode sampleConfig sampleEnv { rand := fun _ => 0 } []
      sampleRequest ⟨B "https://example.com/dkryFM", []⟩ (by decide) (by decide!)).1,
    (guessable_reuse_idempotent sampleUnicode sampleConfig sampleEnv { rand := fun _ => 0 } []
      sampleRequest ⟨B "https://example.com/dkryFM", []⟩ (by decide) (by decide!)).2.2 rfl⟩

theorem validate_ok (U : Unicode) (cfg : Config) (params : CreateDynamicLinkRequest)
    (host : GoString) (hclean : CleanHost U params.DynamicLinkInfo.Host = .ok host)
    (hdom : IsDomainAllowed U cfg.DomainAllowList params.DynamicLinkInfo.Link = true)
    (hisi : IsNumericString params.DynamicLinkInfo.IosParameters.IosAppStoreId = true) :
    validate U cfg params = .ok host := by
  simp [validate, hclean, hdom, hisi]

theorem createNewShortLink_trace_prefix (cfg : Config) (env : Env) (store : Store)
    (host rawQS : GoString) (shortPath : Bool) (pre : List Event) :
    ∀ e ∈ pre, e ∈ (createNewShortLink cfg env store host rawQS shortPath pre).trace := by
  intro e he
  cases hg : GenerateDynamicLinkPath env.rand (pathLength cfg shortPath) with
  | none => rw [createNewShortLink_panic _ _ _ _ _ _ _ hg]; exact he
  | some path =>
    cases hi : env.insertErr with
    | none => rw [createNewShortLink_ok _ _ _ _ _ _ _ _ hg hi]; simp [he]
    | some msg => rw [createNewShortLink_fail _ _ _ _ _ _ _ _ _ hg hi]; simp [he]

theorem createNewShortLink_trace_find (cfg : Config) (env : Env) (store : Store)
    (host rawQS : GoString) (shortPath : Bool) (h q : GoString) :
    Event.find h q ∉ (createNewShortLink cfg env store host rawQS shortPath []).trace := by
  cases hg : GenerateDynamicLinkPath env.rand (pathLength cfg shortPath) with
  | none => rw [createNewShortLink_panic _ _ _ _ _ _ _ hg]; simp
  | some path =>
    cases hi : env.insertErr with
    | none => rw [createNewShortLink_ok _ _ _ _ _ _ _ _ hg hi]; simp
    | some msg => rw [createNewShortLink_fail _ _ _ _ _ _ _ _ _ hg hi]; simp

/-- What `createNewShortLink` does when the length is not negative. -/
theorem createNewShortLink_spec (cfg : Config) (env : Env) (store : Store)
    (host rawQS : GoString) (shortPath : Bool) (pre : List Event)
    (hlen : 0 ≤ pathLength cfg shortPath) :
    ∃ path, GenerateDynamicLinkPath env.rand (pathLength cfg shortPath) = some path
      ∧ (path.length : Int) = pathLength cfg shortPath
      ∧ path.all isAlnum = true
      ∧ (createNewShortLink cfg env store host rawQS shortPath pre).trace
          = pre ++ [.generate (pathLength cfg shortPath) path,
              .insert ⟨host, path, rawQS, !shortPath⟩]
      ∧ (env.insertErr = none →
          (createNewShortLink cfg env store host rawQS shortPath pre).result
              = .ok { ShortLink := sprintfLink cfg.URLScheme host path, Warnings := [] }
          ∧ (createNewShortLink cfg env store host rawQS shortPath pre).store
              = store ++ [⟨host, path, rawQS, !shortPath⟩]) := by
  have hg := GenerateDynamicLinkPath_eq env.rand _ hlen
  obtain ⟨_, h2, h3⟩ := GenerateDynamicLinkPath_some _ _ _ hg
  refine ⟨_, hg, h2, h3, ?_, ?_⟩
  · cases hi : env.insertErr with
    | none => rw [createNewShortLink_ok _ _ _ _ _ _ _ _ hg hi]
    | some msg => rw [createNewShortLink_fail _ _ _ _ _ _ _ _ _ hg hi]
  · intro hi
    rw [createNewShortLink_ok _ _ _ _ _ _ _ _ hg hi]
    exact ⟨rfl, rfl⟩

/-- C8: a guessable miss creates one guessable record. When the suffix option
is `SHORT`, the checks pass (the host cleans to `host`, the domain is allowed,
the app-store id is numeric), the reuse lookup reports not-found and
`ShortPathLength` is not negative, `CreateDynamicLink` generates a path of
exactly `ShortPathLength` alphanumeric characters and sends exactly one
`INSERT`, of the row (cleaned host, that path, canonical query string,
`is_unguessable_path = false`); when the database executes it, the table gains
that one row and the call returns `URLScheme://host/path`. -/
theorem guessable_miss_creates_record (U : Unicode) (cfg : Config) (env : Env) (store : Store)
    (params : CreateDynamicLinkRequest) (host : GoString)
    (hshort : params.Suffix.Option = B "SHORT")
    (hclean : CleanHost U params.DynamicLinkInfo.Host = .ok host)
    (hdom : IsDomainAllowed U cfg.DomainAllowList params.DynamicLinkInfo.Link = true)
    (hisi : IsNumericString params.DynamicLinkInfo.IosParameters.IosAppStoreId = true)
    (hmiss : FindExistingShortLink env store host (canonicalQuery params) = .error .sqlErrNoRows)
    (hlen : 0 ≤ cfg.ShortPathLength) :
    ∃ path, GenerateDynamicLinkPath env.rand cfg.ShortPathLength = some path
      ∧ (path.length : Int) = cfg.ShortPathLength
      ∧ path.all isAlnum = true
      ∧ (CreateDynamicLink U cfg env store params).trace
          = [.find host (canonicalQuery params), .generate cfg.ShortPathLength path,
              .insert ⟨host, path, canonicalQuery params, false⟩]
      ∧ (env.insertErr = none →
          (CreateDynamicLink U cfg env store params).result
              = .ok { ShortLink := cfg.URLScheme ++ B "://" ++ host ++ B "/" ++ path,
                      Warnings := buildWarnings params }
          ∧ (CreateDynamicLink U cfg env store params).store
              = store ++ [⟨host, path, canonicalQuery params, false⟩]) := by
  have hw := wantsShort_of_short params hshort
  rw [CreateDynamicLink_valid U cfg env store params host (validate_ok U cfg params host hclean hdom hisi)]
  simp only [hw]
  rw [createOrGetShortLink_missed _ _ _ _ _ hmiss]
  have hlen' : 0 ≤ pathLength cfg true := by simpa [pathLength] using hlen
  obtain ⟨path, h1, h2, h3, h4, h5⟩ := createNewShortLink_spec cfg env store host
    (Values.Encode (buildQueryParams params)) true
    [.find host (Values.Encode (buildQueryParams params))] hlen'
  have hpl : pathLength cfg true = cfg.ShortPathLength := by simp [pathLength]
  rw [hpl] at h1 h2 h4
  refine ⟨path, h1, h2, h3, ?_, ?_⟩
  · rw [h4]; rfl
  · intro hi
    obtain ⟨h6, h7⟩ := h5 hi
    rw [h6, h7]
    exact ⟨rfl, rfl⟩

set_option maxRecDepth 100000 in
/-- C8 (witness): the sample request on an empty table. -/
theorem guessable_miss_creates_record_witness :
    sampleRequest.Suffix.Option = B "SHORT"
    ∧ CleanHost sampleUnicode sampleRequest.DynamicLinkInfo.Host = .ok (B "example.com")
    ∧ FindExistingShortLink sampleEnv [] (B "example.com") (canonicalQuery sampleRequest)
        = .error .sqlErrNoRows
    ∧ ∃ path, GenerateDynamicLinkPath sampleEnv.rand sampleConfig.ShortPathLength = some path
      ∧ (path.length : Int) = sampleConfig.ShortPathLength
      ∧ path.all isAlnum = true
      ∧ (CreateDynamicLink sampleUnicode sampleConfig sampleEnv [] sampleRequest).trace
          = [.find (B "example.com") (canonicalQuery sampleRequest),
              .generate sampleConfig.ShortPathLength path,
              .insert ⟨B "example.com", path, canonicalQuery sampleRequest, false⟩]
      ∧ (sampleEnv.insertErr = none →
          (CreateDynamicLink sampleUnicode sampleConfig sampleEnv [] sampleRequest).result
              = .ok { ShortLink := sampleConfig.URLScheme ++ B "://" ++ B "example.com" ++ B "/"
                        ++ path,
                      Warnings := buildWarnings sampleRequest }
          ∧ (CreateDynamicLink sampleUnicode sampleConfig sampleEnv [] sampleRequest).store
              = [] ++ [⟨B "example.com", path, canonicalQuery sampleRequest, false⟩]) :=
  ⟨by decide, by decide!, by decide!,
    guessable_miss_creates_record sampleUnicode sampleConfig sampleEnv [] sampleRequest
      (B "example.com") (by decide) (by decide!) (by decide!) (by decide!) (by decide!)
      (by decide)⟩

theorem createOrGetShortLink_trace_find (cfg : Config) (env : Env) (store : Store)
    (host : GoString) (queryParams : Values) :
    Event.find host (Values.Encode queryParams)
      ∈ (createOrGetShortLink cfg env store host queryParams true).trace := by
  cases hf : FindExistingShortLink env store host (Values.Encode queryParams) with
  | ok path => rw [createOrGetShortLink_found _ _ _ _ _ _ hf]; simp
  | error err =>
    by_cases he : err = .sqlErrNoRows
    · subst he
      rw [createOrGetShortLink_missed _ _ _ _ _ hf]
      exact createNewShortLink_trace_prefix _ _ _ _ _ _ _ _ (by simp)
    · rw [createOrGetShortLink_failed _ _ _ _ _ _ hf he]; simp

/-- C9: the unguessable regime. For a request that passes the checks, the
reuse lookup is made if and only if the suffix option is exactly `SHORT`. For
every other value, whatever the table already holds, a path of exactly
`UnguessablePathLength` alphanumeric characters is generated (the length not
being negative) and exactly one `INSERT` is sent, of a row with
`is_unguessable_path = true`; when the database executes it the table gains
that row and the call returns `URLScheme://host/path`. -/
theorem unguessable_regime (U : Unicode) (cfg : Config) (env : Env) (store : Store)
    (params : CreateDynamicLinkRequest) (host : GoString)
    (hclean : CleanHost U params.DynamicLinkInfo.Host = .ok host)
    (hdom : IsDomainAllowed U cfg.DomainAllowList params.DynamicLinkInfo.Link = true)
    (hisi : IsNumericString params.DynamicLinkInfo.IosParameters.IosAppStoreId = true) :
    ((∃ h q, Event.find h q ∈ (CreateDynamicLink U cfg env store params).trace)
        ↔ params.Suffix.Option = B "SHORT")
    ∧ (params.Suffix.Option ≠ B "SHORT" → 0 ≤ cfg.UnguessablePathLength →
        ∃ path, GenerateDynamicLinkPath env.rand cfg.UnguessablePathLength = some path
          ∧ (path.length : Int) = cfg.UnguessablePathLength
          ∧ path.all isAlnum = true
          ∧ (CreateDynamicLink U cfg env store params).trace
              = [.generate cfg.UnguessablePathLength path,
                  .insert ⟨host, path, canonicalQuery params, true⟩]
          ∧ (env.insertErr = none →
              (CreateDynamicLink U cfg env store params).result
                  = .ok { ShortLink := cfg.URLScheme ++ B "://" ++ host ++ B "/" ++ path,
                          Warnings := buildWarnings params }
              ∧ (CreateDynamicLink U cfg env store params).store
                  = store ++ [⟨host, path, canonicalQuery params, true⟩])) := by
  rw [CreateDynamicLink_valid U cfg env store params host
    (validate_ok U cfg params host hclean hdom hisi)]
  simp only
  refine ⟨⟨?_, ?_⟩, ?_⟩
  · rintro ⟨h, q, hmem⟩
    by_contra hns
    rw [wantsShort_of_not_short params hns, createOrGetShortLink_long] at hmem
    exact createNewShortLink_trace_find _ _ _ _ _ _ _ _ hmem
  · intro hs
    rw [wantsShort_of_short params hs]
    exact ⟨_, _, createOrGetShortLink_trace_find _ _ _ _ _⟩
  · intro hns hlen
    rw [wantsShort_of_not_short params hns, createOrGetShortLink_long]
    have hlen' : 0 ≤ pathLength cfg false := by simpa [pathLength] using hlen
    obtain ⟨path, h1, h2, h3, h4, h5⟩ := createNewShortLink_spec cfg env store host
      (Values.Encode (buildQueryParams params)) false [] hlen'
    have hpl : pathLength cfg false = cfg.UnguessablePathLength := by simp [pathLength]
    rw [hpl] at h1 h2 h4
    refine ⟨path, h1, h2, h3, ?_, ?_⟩
    · rw [h4]; rfl
    · intro hi
      obtain ⟨h6, h7⟩ := h5 hi
      rw [h6, h7]
      exact ⟨rfl, rfl⟩

set_option maxRecDepth 100000 in
/-- C9 (witness): the unguessable sample request on a table that already holds
a guessable row for the same host and query string: no reuse query, a path of
10 characters, one more row, marked unguessable. -/
theorem unguessable_regime_witness :
    CleanHost sampleUnicode sampleUnguessable.DynamicLinkInfo.Host = .ok (B "example.com")
    ∧ sampleUnguessable.Suffix.Option ≠ B "SHORT"
    ∧ (CreateDynamicLink sampleUnicode sampleConfig sampleEnv sampleStore sampleUnguessable).store
        = sampleStore ++ [⟨B "example.com", B "dkryFMT07e",
            B "apn=com.app&link=https%3A%2F%2Ftarget.com", true⟩]
    ∧ ((∃ h q, Event.find h q ∈ (CreateDynamicLink sampleUnicode sampleConfig sampleEnv
          sampleStore sampleUnguessable).trace) ↔ sampleUnguessable.Suffix.Option = B "SHORT")
    ∧ ∃ path, GenerateDynamicLinkPath sampleEnv.rand sampleConfig.UnguessablePathLength = some path
      ∧ (path.length : Int) = sampleConfig.UnguessablePathLength
      ∧ path.all isAlnum = true
      ∧ (CreateDynamicLink sampleUnicode sampleConfig sampleEnv sampleStore sampleUnguessable).trace
          = [.generate sampleConfig.UnguessablePathLength path,
              .insert ⟨B "example.com", path, canonicalQuery sampleUnguessable, true⟩]
      ∧ (sampleEnv.insertErr = none →
          (CreateDynamicLink sampleUnicode sampleConfig sampleEnv sampleStore
              sampleUnguessable).result
              = .ok { ShortLink := sampleConfig.URLScheme ++ B "://" ++ B "example.com" ++ B "/"
                        ++ path,
                      Warnings := buildWarnings sampleUnguessable }
          ∧ (CreateDynamicLink sampleUnicode sampleConfig sampleEnv sampleStore
              sampleUnguessable).store
              = sampleStore ++ [⟨B "example.com", path, canonicalQuery sampleUnguessable, true⟩]) :=
  ⟨by decide!, by decide, by decide!,
    (unguessable_regime sampleUnicode sampleConfig sampleEnv sampleStore sampleUnguessable
      (B "example.com") (by decide!) (by decide!) (by decide!)).1,
    (unguessable_regime sampleUnicode sampleConfig sampleEnv sampleStore sampleUnguessable
      (B "example.com") (by decide!) (by decide!) (by decide!)).2 (by decide) (by decide)⟩

/-- C10: lookup failures propagate. When the suffix option is `SHORT`, the
checks pass and the reuse lookup returns an error other than `sql.ErrNoRows`,
`CreateDynamicLink` returns that very error, leaves the table unchanged and
does nothing but the lookup: no path is generated and no row inserted. Only
`sql.ErrNoRows` falls through to creation: for a length that is not negative a
path is then generated. -/
theorem lookup_failure_propagates (U : Unicode) (cfg : Config) (env : Env) (store : Store)
    (params : CreateDynamicLinkRequest) (host : GoString) (err : AppError)
    (hshort : params.Suffix.Option = B "SHORT")
    (hclean : CleanHost U params.DynamicLinkInfo.Host = .ok host)
    (hdom : IsDomainAllowed U cfg.DomainAllowList params.DynamicLinkInfo.Link = true)
    (hisi : IsNumericString params.DynamicLinkInfo.IosParameters.IosAppStoreId = true)
    (hfind : FindExistingShortLink env store host (canonicalQuery params) = .error err) :
    (err ≠ .sqlErrNoRows →
        (CreateDynamicLink U cfg env store params).result = .error err
        ∧ (CreateDynamicLink U cfg env store params).store = store
        ∧ (CreateDynamicLink U cfg env store params).trace
            = [.find host (canonicalQuery params)])
    ∧ (err = .sqlErrNoRows → 0 ≤ cfg.ShortPathLength →
        ∃ path, Event.generate cfg.ShortPathLength path
          ∈ (CreateDynamicLink U cfg env store params).trace) := by
  rw [CreateDynamicLink_valid U cfg env store params host
    (validate_ok U cfg params host hclean hdom hisi)]
  simp only [wantsShort_of_short params hshort]
  refine ⟨?_, ?_⟩
  · intro he
    rw [createOrGetShortLink_failed _ _ _ _ _ _ hfind he]
    exact ⟨rfl, rfl, rfl⟩
  · intro he hlen
    subst he
    rw [createOrGetShortLink_missed _ _ _ _ _ hfind]
    have hlen' : 0 ≤ pathLength cfg true := by simpa [pathLength] using hlen
    obtain ⟨path, _, _, _, h4, _⟩ := createNewShortLink_spec cfg env store host
      (Values.Encode (buildQueryParams params)) true
      [.find host (Values.Encode (buildQueryParams params))] hlen'
    have hpl : pathLength cfg true = cfg.ShortPathLength := by simp [pathLength]
    rw [hpl] at h4
    exact ⟨path, by rw [h4]; simp⟩

set_option maxRecDepth 100000 in
/-- C10 (witness): the sample request when the reuse query fails with
"connection lost". -/
theorem lookup_failure_propagates_witness :
    FindExistingShortLink sampleEnvFindFails sampleStore (B "example.com")
        (canonicalQuery sampleRequest) = .error (.driver "connection lost")
    ∧ (CreateDynamicLink sampleUnicode sampleConfig sampleEnvFindFails sampleStore
          sampleRequest).result = .error (.driver "connection lost")
    ∧ (CreateDynamicLink sampleUnicode sampleConfig sampleEnvFindFails sampleStore
          sampleRequest).store = sampleStore
    ∧ (CreateDynamicLink sampleUnicode sampleConfig sampleEnvFindFails sampleStore
          sampleRequest).trace = [.find (B "example.com") (canonicalQuery sampleRequest)] :=
  ⟨by decide!,
    (lookup_failure_propagates sampleUnicode sampleConfig sampleEnvFindFails sampleStore
      sampleRequest (B "example.com") (.driver "connection lost") (by decide) (by decide!)
      (by decide!) (by decide!) (by decide!)).1 (by decide)⟩

theorem sprintfLink_inj (scheme host p1 p2 : GoString)
    (h : sprintfLink scheme host p1 = sprintfLink scheme host p2) : p1 = p2 := by
  unfold sprintfLink at h
  exact List.append_cancel_left h

/-- A successful call for an unguessable request returns the generated path
and adds its row. -/
theorem CreateDynamicLink_unguessable_ok (U : Unicode) (cfg : Config) (env : Env) (store : Store)
    (params : CreateDynamicLinkRequest) (response : ShortLinkResponse)
    (hlong : params.Suffix.Option ≠ B "SHORT")
    (hok : (CreateDynamicLink U cfg env store params).result = .ok response) :
    ∃ host path, validate U cfg params = .ok host
      ∧ GenerateDynamicLinkPath env.rand cfg.UnguessablePathLength = some path
      ∧ response.ShortLink = sprintfLink cfg.URLScheme host path
      ∧ (CreateDynamicLink U cfg env store params).store
          = store ++ [⟨host, path, canonicalQuery params, true⟩]
      ∧ (CreateDynamicLink U cfg env store params).trace
          = [.generate cfg.UnguessablePathLength path,
              .insert ⟨host, path, canonicalQuery params, true⟩] := by
  cases hv : validate U cfg params with
  | error e =>
    rw [CreateDynamicLink_invalid U cfg env store params e hv] at hok
    exact absurd hok (by simp)
  | ok host =>
    rw [CreateDynamicLink_valid U cfg env store params host hv] at hok ⊢
    simp only [wantsShort_of_not_short params hlong, createOrGetShortLink_long] at hok ⊢
    have hpl : pathLength cfg false = cfg.UnguessablePathLength := by simp [pathLength]
    cases hg : GenerateDynamicLinkPath env.rand (pathLength cfg false) with
    | none =>
      rw [createNewShortLink_panic _ _ _ _ _ _ _ hg] at hok
      exact absurd hok (by simp [attachWarnings])
    | some path =>
      cases hi : env.insertErr with
      | some msg =>
        rw [createNewShortLink_fail _ _ _ _ _ _ _ _ _ hg hi] at hok
        exact absurd hok (by simp [attachWarnings])
      | none =>
        rw [createNewShortLink_ok _ _ _ _ _ _ _ _ hg hi] at hok ⊢
        simp only [attachWarnings, Result.ok.injEq] at hok
        rw [hpl] at hg
        refine ⟨host, path, rfl, hg, ?_, ?_, ?_⟩
        · rw [← hok]
        · rfl
        · rw [hpl]; rfl

/-- C6: unguessable links are never reused. For a request whose suffix
option is not `SHORT`, two successive successful calls of `CreateDynamicLink`,
on a table that keeps (host, path) unique as its data model requires, return
two different short paths. Each call returns the path generated from its own
random bytes and adds a row for it, without any reuse lookup. -/
theorem unguessable_never_reused (U : Unicode) (cfg : Config) (env1 env2 : Env)
    (store : Store) (params : CreateDynamicLinkRequest) (r1 r2 : ShortLinkResponse)
    (hlong : params.Suffix.Option ≠ B "SHORT")
    (hok1 : (CreateDynamicLink U cfg env1 store params).result = .ok r1)
    (hok2 : (CreateDynamicLink U cfg env2 (CreateDynamicLink U cfg env1 store params).store
        params).result = .ok r2)
    (huniq : uniqueHostPath (CreateDynamicLink U cfg env2
        (CreateDynamicLink U cfg env1 store params).store params).store = true) :
    r1.ShortLink ≠ r2.ShortLink
    ∧ ∃ host path1 path2,
      path1 ≠ path2
      ∧ r1.ShortLink = cfg.URLScheme ++ B "://" ++ host ++ B "/" ++ path1
      ∧ r2.ShortLink = cfg.URLScheme ++ B "://" ++ host ++ B "/" ++ path2
      ∧ GenerateDynamicLinkPath env1.rand cfg.UnguessablePathLength = some path1
      ∧ GenerateDynamicLinkPath env2.rand cfg.UnguessablePathLength = some path2
      ∧ (CreateDynamicLink U cfg env2 (CreateDynamicLink U cfg env1 store params).store
            params).store
          = store ++ [⟨host, path1, canonicalQuery params, true⟩,
              ⟨host, path2, canonicalQuery params, true⟩]
      ∧ (∀ h q, Event.find h q ∉ (CreateDynamicLink U cfg env1 store params).trace)
      ∧ (∀ h q, Event.find h q ∉ (CreateDynamicLink U cfg env2
            (CreateDynamicLink U cfg env1 store params).store params).trace) := by
  obtain ⟨host, path1, hv1, hg1, hl1, hs1, ht1⟩ :=
    CreateDynamicLink_unguessable_ok U cfg env1 store params r1 hlong hok1
  obtain ⟨host', path2, hv2, hg2, hl2, hs2, ht2⟩ :=
    CreateDynamicLink_unguessable_ok U cfg env2 _ params r2 hlong hok2
  have hh : host' = host := by
    rw [hv1] at hv2
    exact (Except.ok.inj hv2).symm
  subst hh
  have hstore : (CreateDynamicLink U cfg env2 (CreateDynamicLink U cfg env1 store params).store
        params).store
      = store ++ [⟨host', path1, canonicalQuery params, true⟩,
          ⟨host', path2, canonicalQuery params, true⟩] := by
    rw [hs2, hs1]; simp
  have hne : path1 ≠ path2 := by
    intro e
    rw [hstore] at huniq
    simp only [uniqueHostPath, decide_eq_true_eq, List.map_append, List.map_cons, List.map_nil]
      at huniq
    have h2 := (List.nodup_append.1 huniq).2.1
    simp [e] at h2
  refine ⟨?_, host', path1, path2, hne, hl1, hl2, hg1, hg2, hstore, ?_, ?_⟩
  · intro heq
    rw [hl1, hl2] at heq
    exact hne (sprintfLink_inj _ _ _ _ heq)
  · intro h q; rw [ht1]; simp
  · intro h q; rw [ht2]; simp

set_option maxRecDepth 100000 in
/-- C6 (witness): the unguessable sample request, called twice in succession
on the empty table; the second call draws other random bytes, the table ends
with two rows under different paths, and the two short links differ. -/
theorem unguessable_never_reused_witness :
    sampleUnguessable.Suffix.Option ≠ B "SHORT"
    ∧ (CreateDynamicLink sampleUnicode sampleConfig sampleEnv [] sampleUnguessable).result
        = .ok ⟨B "https://example.com/dkryFMT07e", []⟩
    ∧ (CreateDynamicLink sampleUnicode sampleConfig { rand := fun _ => 0 }
          (CreateDynamicLink sampleUnicode sampleConfig sampleEnv [] sampleUnguessable).store
          sampleUnguessable).result
        = .ok ⟨B "https://example.com/aaaaaaaaaa", []⟩
    ∧ uniqueHostPath (CreateDynamicLink sampleUnicode sampleConfig { rand := fun _ => 0 }
          (CreateDynamicLink sampleUnicode sampleConfig sampleEnv [] sampleUnguessable).store
          sampleUnguessable).store = true
    ∧ B "https://example.com/dkryFMT07e" ≠ B "https://example.com/aaaaaaaaaa" :=
  ⟨by decide, by decide!, by decide!, by decide!,
    (unguessable_never_reused sampleUnicode sampleConfig sampleEnv
      { rand := fun _ => 0 } [] sampleUnguessable ⟨B "https://example.com/dkryFMT07e", []⟩
      ⟨B "https://example.com/aaaaaaaaaa", []⟩ (by decide) (by decide!) (by decide!)
      (by decide!)).1⟩

/-! ## Parsing a short link, cleaning a plain host -/

set_option maxRecDepth 100000 in
theorem isPathByte_facts : ∀ c : Byte, isPathByte c = true →
    (c ≠ ch '#' ∧ c ≠ ch '?' ∧ c ≠ ch '%' ∧ (c.val < 32 || c.val = 127) = false) := by
  decide!

set_option maxRecDepth 100000 in
theorem isAlnum_facts : ∀ c : Byte, isAlnum c = true →
    (isPathByte c = true ∧ c ≠ ch '/' ∧ (B "/").contains c = false) := by
  decide!

theorem hasSuffix_single_not_mem (s : GoString) (c : Byte) (hc : c ∉ s) :
    hasSuffix s [c] = false := by
  unfold hasSuffix
  cases hr : s.reverse with
  | nil => simp [hasPrefix]
  | cons d r =>
    have hd : d ∈ s := by
      have : d ∈ s.reverse := by rw [hr]; simp
      simpa using this
    have : d ≠ c := fun e => hc (e ▸ hd)
    simp [hasPrefix_single, this]

theorem unescape_path_plain : ∀ s : GoString, ch '%' ∉ s → unescape .encodePath s = .ok s
  | [], _ => rfl
  | c :: s, h => by
    have h1 : c ≠ ch '%' := fun e => h (by simp [e])
    have h2 : ch '%' ∉ s := fun e => h (by simp [e])
    rw [unescape_cons_not_pct _ _ _ h1, unescape_path_plain s h2]
    by_cases hp : c = ch '+'
    · simp [hp, Except.map]
    · simp [hp, Except.map]

/-- What `Parse` makes of `scheme://host` followed by nothing or by a path of
letters, digits and slashes. -/
theorem Parse_host_path (scheme host tail : GoString) (hs : isValidScheme scheme = true)
    (hh : isPlainHostname host = true) (ht : tail.all isPathByte = true)
    (hshape : tail = [] ∨ ∃ p, tail = ch '/' :: p) :
    Parse (scheme ++ B "://" ++ host ++ tail)
      = .ok { Scheme := scheme.map lowerByte, Host := host, Path := tail } := by
  obtain ⟨hsne, hsall⟩ := isValidScheme_all hs
  have hh' := hh
  simp only [isPlainHostname, Bool.and_eq_true] at hh'
  obtain ⟨_, hhall⟩ := hh'
  have eraw : scheme ++ B "://" ++ host ++ tail = scheme ++ ch ':' :: (B "//" ++ host ++ tail) := by
    simp [B, ch]
  have hnot : ∀ d : Byte, d ≠ ch ':' → d ≠ ch '/' →
      (∀ c, isSchemeByte c = true → c ≠ d) → (∀ c, isHostnameByte c = true → c ≠ d) →
      (∀ c, isPathByte c = true → c ≠ d) → d ∉ scheme ++ ch ':' :: (B "//" ++ host ++ tail) := by
    intro d hd1 hd2 hds hdh hdp h
    simp only [List.mem_append, List.mem_cons] at h
    rcases h with h | h | (h | h) | h
    · exact hds _ (List.all_eq_true.1 hsall _ h) rfl
    · exact hd1 h
    · have : d = ch '/' := by
        simp only [B, ch, String.toList, List.map_cons, List.map_nil, List.mem_cons,
          List.mem_nil_iff, or_false, or_self] at h
        exact h
      exact hd2 this
    · exact hdh _ (List.all_eq_true.1 hhall _ h) rfl
    · exact hdp _ (List.all_eq_true.1 ht _ h) rfl
  have hhash : ch '#' ∉ scheme ++ ch ':' :: (B "//" ++ host ++ tail) :=
    hnot _ (by decide) (by decide) (fun c hc => (isSchemeByte_facts c hc).1)
      (fun c hc => (isHostnameByte_facts c hc).2.2.2.2.2.2.2.2.1)
      (fun c hc => (isPathByte_facts c hc).1)
  have hqm : ch '?' ∉ B "//" ++ host ++ tail := by
    intro h
    exact hnot _ (by decide) (by decide) (fun c hc => (isSchemeByte_facts c hc).2.1)
      (fun c hc => (isHostnameByte_facts c hc).2.2.2.2.2.2.2.1)
      (fun c hc => (isPathByte_facts c hc).2.1)
      (List.mem_append_right _ (List.mem_cons_of_mem _ h))
  have hctl : stringContainsCTLByte (scheme ++ ch ':' :: (B "//" ++ host ++ tail)) = false := by
    have e : scheme ++ ch ':' :: (B "//" ++ host ++ tail)
        = scheme ++ (B "://" ++ (host ++ tail)) := by simp [B, ch]
    rw [e]
    simp only [stringContainsCTLByte_append]
    rw [stringContainsCTLByte_of_all hsall (fun c hc => (isSchemeByte_facts c hc).2.2.1),
      stringContainsCTLByte_of_all hhall
        (fun c hc => (isHostnameByte_facts c hc).2.2.2.2.2.2.2.2.2.2.1),
      stringContainsCTLByte_of_all ht (fun c hc => (isPathByte_facts c hc).2.2.2)]
    decide
  have hstar : scheme ++ ch ':' :: (B "//" ++ host ++ tail) ≠ B "*" := by
    intro h
    have := congrArg List.length h
    simp [B] at this
    omega
  have hsuf : hasSuffix (B "//" ++ host ++ tail) (B "?") = false :=
    hasSuffix_single_not_mem _ _ hqm
  have hcut : cut (B "//" ++ host ++ tail) (B "?") = (B "//" ++ host ++ tail, [], false) :=
    cut_single_not_mem _ _ hqm
  have hsl : ch '/' ∉ host := fun h =>
    (isHostnameByte_facts _ (List.all_eq_true.1 hhall _ h)).2.2.2.2.2.2.1 rfl
  have hlow : scheme.map lowerByte ≠ [] := by simpa using hsne
  have hp1 : hasPrefix (B "//" ++ host ++ tail) (B "/") = true := rfl
  have hp2 : hasPrefix (B "//" ++ host ++ tail) (B "//") = true := by
    simp [B, hasPrefix]
  have hdrop : (B "//" ++ host ++ tail).drop 2 = host ++ tail := rfl
  have hpct : ch '%' ∉ tail := fun h =>
    (isPathByte_facts _ (List.all_eq_true.1 ht _ h)).2.2.1 rfl
  have hauth : (match index (host ++ tail) (B "/") with
      | some i => ((host ++ tail).take i, (host ++ tail).drop i)
      | none => (host ++ tail, [])) = (host, tail) := by
    rcases hshape with h | ⟨p, h⟩
    · subst h
      have : index (host ++ []) (B "/") = none := by
        rw [List.append_nil]; exact index_single_not_mem _ _ hsl
      rw [this]; simp
    · subst h
      have e : B "/" = [ch '/'] := rfl
      rw [e, index_single_append _ _ _ hsl]
      simp
  have hparse : parse (scheme ++ ch ':' :: (B "//" ++ host ++ tail))
      = .ok { Scheme := scheme.map lowerByte, Host := host, Path := tail } := by
    unfold parse
    rw [hctl, if_neg (by simp), if_neg hstar, getScheme_valid _ _ hs]
    simp only [hsuf, hcut, Bool.false_and, Bool.false_eq_true, if_false, hp1, hp2, hlow,
      Bool.not_true, ne_eq, not_false_eq_true, decide_True, Bool.true_or,
      Bool.and_self, Bool.and_true, if_true, hdrop, hauth, parseAuthority_plain host hh, setPath,
      unescape_path_plain tail hpct]
  unfold Parse
  rw [eraw]
  have e : B "#" = [ch '#'] := rfl
  rw [e, cut_single_not_mem _ _ hhash]
  simp only [hparse, if_true]

theorem index_head_not_mem (d : Byte) (sub : GoString) :
    ∀ s : GoString, d ∉ s → index s (d :: sub) = none
  | [], _ => by simp [index]
  | a :: s, h => by
    have ha : a ≠ d := fun e => h (by simp [e])
    have hs : d ∉ s := fun e => h (by simp [e])
    simp [index, hasPrefix, ha, index_head_not_mem d sub s hs]

theorem trimSpaceRight_plain (U : Unicode) (c : Byte) (r : GoString)
    (hc : isHostnameByte c = true) : trimSpaceRight U (c :: r) = (c :: r).reverse := by
  obtain ⟨_, _, _, _, _, _, _, _, _, _, _, h1, h2⟩ := isHostnameByte_facts c hc
  have h1' : ¬ 128 ≤ c.val := by omega
  simp [trimSpaceRight, h1', h2]

theorem trimSpace_plain (U : Unicode) (host : GoString) (hh : isPlainHostname host = true) :
    trimSpace U host = host := by
  simp only [isPlainHostname, Bool.and_eq_true] at hh
  obtain ⟨hne, hall⟩ := hh
  cases host with
  | nil => simp at hne
  | cons c s =>
    have hc : isHostnameByte c = true := List.all_eq_true.1 hall c (by simp)
    obtain ⟨_, _, _, _, _, _, _, _, _, _, _, h1, h2⟩ := isHostnameByte_facts c hc
    have h1' : ¬ 128 ≤ c.val := by omega
    rw [trimSpace]
    simp only [h1', if_false, h2, Bool.false_eq_true]
    cases hr : (c :: s).reverse with
    | nil => simp at hr
    | cons d r =>
      have hd : d ∈ c :: s := by
        have : d ∈ (c :: s).reverse := by rw [hr]; simp
        exact List.mem_reverse.1 this
      rw [trimSpaceRight_plain U d r (List.all_eq_true.1 hall d hd), ← hr, List.reverse_reverse]

theorem splitHostPort_plain (host : GoString) (hh : isPlainHostname host = true) :
    splitHostPort host = host := by
  simp only [isPlainHostname, Bool.and_eq_true] at hh
  obtain ⟨hne, hall⟩ := hh
  have hcol : ch ':' ∉ host := not_mem_of_all hall (by decide)
  have hbr : hasPrefix host (B "[") = false := by
    cases host with
    | nil => simp at hne
    | cons c s =>
      simp only [List.all_cons, Bool.and_eq_true] at hall
      have := (isHostnameByte_facts c hall.1).2.2.2.2.2.1
      have e : B "[" = [ch '['] := rfl
      simp [e, hasPrefix_single, this]
  have e2 : B ":" = [ch ':'] := rfl
  unfold splitHostPort
  rw [e2, lastIndex_single_not_mem _ _ hcol]
  simp [hbr]

/-- `CleanHost` leaves a plain hostname as it is. -/
theorem CleanHost_plain (U : Unicode) (host : GoString) (hh : isPlainHostname host = true) :
    CleanHost U host = .ok host := by
  have hne : host ≠ [] := by
    simp only [isPlainHostname, Bool.and_eq_true] at hh
    simpa using hh.1
  have hall : host.all isHostnameByte = true := by
    simp only [isPlainHostname, Bool.and_eq_true] at hh
    exact hh.2
  have hcol : ch ':' ∉ host := not_mem_of_all hall (by decide)
  have hcont : contains host (B "://") = false := by
    have e : B "://" = ch ':' :: B "//" := rfl
    simp [contains, e, index_head_not_mem _ _ _ hcol]
  have hparse := Parse_host_path (B "https") host [] (by decide) hh (by simp) (Or.inl rfl)
  have e : B "https://" ++ host = B "https" ++ B "://" ++ host ++ [] := by simp [B]
  unfold CleanHost
  simp only [trimSpace_plain U host hh, hne, if_false, hcont, Bool.not_false, if_true, e, hparse,
    URL.Hostname, splitHostPort_plain host hh]

/-! ## Claim C7: create, then resolve -/

theorem splitByte_not_mem (s : GoString) (sep : Byte) (h : sep ∉ s) : splitByte s sep = [s] := by
  have := splitByteAux_append sep [] s [] h
  simp only [List.append_nil] at this
  simp [splitByte, this, splitByteAux]

theorem trim_path (path : GoString) (hne : path ≠ []) (hall : path.all isAlnum = true) :
    trim (ch '/' :: path) (B "/") = path := by
  have hcut : ∀ c ∈ path, (B "/").contains c = false := fun c hc =>
    (isAlnum_facts c (List.all_eq_true.1 hall c hc)).2.2
  have h0 : (B "/").contains (ch '/') = true := by decide
  have h1 : (ch '/' :: path).dropWhile (fun c => (B "/").contains c) = path := by
    rw [List.dropWhile_cons, if_pos h0]
    cases path with
    | nil => rfl
    | cons c s => rw [List.dropWhile_cons, if_neg (by simpa using hcut c (by simp))]
  have h2 : path.reverse.dropWhile (fun c => (B "/").contains c) = path.reverse := by
    cases hr : path.reverse with
    | nil => rfl
    | cons d r =>
      have hd : d ∈ path := by
        have : d ∈ path.reverse := by rw [hr]; simp
        exact List.mem_reverse.1 this
      rw [List.dropWhile_cons, if_neg (by simpa using hcut d hd)]
  unfold trim
  rw [h1, h2, List.reverse_reverse]

theorem GetQueryParamsByHostAndPath_new (env : Env) (store : Store) (row : ShortLinkRecord)
    (hget : env.getErr = none)
    (hfresh : ∀ r ∈ store, ¬(r.host = row.host ∧ r.path = row.path)) :
    GetQueryParamsByHostAndPath env (store ++ [row]) row.host row.path = .ok row.query_params := by
  have hnone : store.find? (fun r => decide (r.host = row.host ∧ r.path = row.path)) = none := by
    rw [List.find?_eq_none]
    intro r hr
    simpa using hfresh r hr
  unfold GetQueryParamsByHostAndPath
  rw [hget]
  simp only [List.find?_append, hnone, Option.none_or]
  simp [List.find?]

/-- Resolving the short link of a freshly inserted row whose path is a
non-empty alphanumeric string. -/
theorem ResolveShortPath_new (cfg : Config) (env : Env) (store : Store) (host path q : GoString)
    (unguessable : Bool) (hscheme : isValidScheme cfg.URLScheme = true)
    (hhost : isPlainHostname host = true) (hne : path ≠ []) (hall : path.all isAlnum = true)
    (hq : q ≠ []) (hget : env.getErr = none)
    (hfresh : ∀ r ∈ store, ¬(r.host = host ∧ r.path = path)) :
    (ResolveShortPath cfg env (store ++ [⟨host, path, q, unguessable⟩])
        (sprintfLink cfg.URLScheme host path)).result
      = .ok { LongLink := sprintfLink cfg.URLScheme host path ++ B "?" ++ q } := by
  have e : sprintfLink cfg.URLScheme host path
      = cfg.URLScheme ++ B "://" ++ host ++ (ch '/' :: path) := by
    simp [sprintfLink, B, ch]
  have htail : (ch '/' :: path).all isPathByte = true := by
    rw [List.all_cons, Bool.and_eq_true]
    refine ⟨by decide, ?_⟩
    rw [List.all_eq_true]
    intro c hc
    exact (isAlnum_facts c (List.all_eq_true.1 hall c hc)).1
  have hparse := Parse_host_path cfg.URLScheme host (ch '/' :: path) hscheme hhost htail
    (Or.inr ⟨path, rfl⟩)
  have hsl : ch '/' ∉ path := fun h =>
    (isAlnum_facts _ (List.all_eq_true.1 hall _ h)).2.1 rfl
  have hget' := GetQueryParamsByHostAndPath_new env store ⟨host, path, q, unguessable⟩ hget hfresh
  simp only at hget'
  unfold ResolveShortPath
  rw [e, hparse]
  simp only [trim_path path hne hall, splitByte_not_mem path _ hsl]
  unfold getLongLinkFromHostAndPath
  rw [hget']
  simp [hq, sprintfLink, B, ch]

/-- C7: end to end, create then resolve. For every request whose host is a
plain hostname, with a valid URL scheme and path lengths of at least 1
configured: if `CreateDynamicLink` returns the short link `L` and has added a
row under a (host, path) that no other row of the table has, then
`ResolveShortPath(L)` on the resulting table, the database executing the
query, returns `longLink = L + "?" + q`, where `q` is the canonical query
string of the request. -/
theorem create_then_resolve (U : Unicode) (cfg : Config) (env1 env2 : Env) (store : Store)
    (params : CreateDynamicLinkRequest) (response : ShortLinkResponse)
    (hhost : isPlainHostname params.DynamicLinkInfo.Host = true)
    (hscheme : isValidScheme cfg.URLScheme = true)
    (hshort : 1 ≤ cfg.ShortPathLength) (hlong : 1 ≤ cfg.UnguessablePathLength)
    (hok : (CreateDynamicLink U cfg env1 store params).result = .ok response)
    (hnew : ∃ row, (CreateDynamicLink U cfg env1 store params).store = store ++ [row]
      ∧ ∀ r ∈ store, ¬(r.host = row.host ∧ r.path = row.path))
    (hget : env2.getErr = none) :
    (ResolveShortPath cfg env2 (CreateDynamicLink U cfg env1 store params).store
        response.ShortLink).result
      = .ok { LongLink := response.ShortLink ++ B "?" ++ canonicalQuery params } := by
  obtain ⟨host, path, hv, hresp, hcase⟩ := CreateDynamicLink_ok_cases U cfg env1 store params
    response hok
  have hclean := validate_ok_host U cfg params host hv
  rw [CleanHost_plain U _ hhost] at hclean
  have hh : params.DynamicLinkInfo.Host = host := Except.ok.inj hclean
  obtain ⟨row, hstore, hfresh⟩ := hnew
  rcases hcase with ⟨hsame, _, _⟩ | ⟨hg, hadd⟩
  · rw [hsame] at hstore
    have := congrArg List.length hstore
    simp at this
  · rw [hadd] at hstore
    have hrow : row = ⟨host, path, canonicalQuery params, !wantsShort params⟩ := by
      have := List.append_cancel_left hstore
      simpa using this.symm
    subst hrow
    obtain ⟨_, hlen, hall⟩ := GenerateDynamicLinkPath_some _ _ _ hg
    have hpos : 1 ≤ pathLength cfg (wantsShort params) := by
      unfold pathLength
      split <;> assumption
    have hne : path ≠ [] := by
      intro h
      rw [h] at hlen
      simp at hlen
      omega
    rw [hadd, hresp]
    simp only
    exact ResolveShortPath_new cfg env2 store host path _ _ hscheme (hh ▸ hhost) hne hall
      (canonicalQuery_ne_nil params) hget hfresh

set_option maxRecDepth 100000 in
/-- C7 (witness): host `example.com`, link `https://target.com` (and `apn`),
on an empty table. -/
theorem create_then_resolve_witness :
    isPlainHostname sampleRequest.DynamicLinkInfo.Host = true
    ∧ (CreateDynamicLink sampleUnicode sampleConfig sampleEnv [] sampleRequest).result
        = .ok ⟨B "https://example.com/dkryFM", []⟩
    ∧ (ResolveShortPath sampleConfig sampleEnv
          (CreateDynamicLink sampleUnicode sampleConfig sampleEnv [] sampleRequest).store
          (B "https://example.com/dkryFM")).result
        = .ok { LongLink := B "https://example.com/dkryFM" ++ B "?"
                  ++ canonicalQuery sampleRequest } :=
  ⟨by decide, by decide!,
    create_then_resolve sampleUnicode sampleConfig sampleEnv sampleEnv [] sampleRequest
      ⟨B "https://example.com/dkryFM", []⟩ (by decide) (by decide) (by decide) (by decide)
      (by decide!)
      ⟨⟨B "example.com", B "dkryFM", B "apn=com.app&link=https%3A%2F%2Ftarget.com", false⟩,
        by decide!, by simp⟩
      rfl⟩

/-! ## Claims C11 to C13: the checks of `CreateDynamicLink` -/

theorem validate_error_cases (U : Unicode) (cfg : Config) (params : CreateDynamicLinkRequest)
    (e : AppError) (hv : validate U cfg params = .error e) :
    (∃ err, CleanHost U params.DynamicLinkInfo.Host = .error err ∧ e = .wrap "invalid host" err)
    ∨ (IsDomainAllowed U cfg.DomainAllowList params.DynamicLinkInfo.Link = false
        ∧ e = .ErrDomainLinkNotAllowed)
    ∨ (params.DynamicLinkInfo.IosParameters.IosAppStoreId ≠ []
        ∧ IsNumericString params.DynamicLinkInfo.IosParameters.IosAppStoreId = false
        ∧ e = .ErrInvalidAppStoreID) := by
  unfold validate at hv
  cases hc : CleanHost U params.DynamicLinkInfo.Host with
  | error err =>
    rw [hc] at hv
    exact Or.inl ⟨err, rfl, (Except.error.inj hv).symm⟩
  | ok host =>
    rw [hc] at hv
    simp only at hv
    split at hv
    · next h1 =>
      refine Or.inr (Or.inl ⟨?_, (Except.error.inj hv).symm⟩)
      simpa using h1
    · split at hv
      · next h2 =>
        refine Or.inr (Or.inr ⟨h2.1, ?_, (Except.error.inj hv).symm⟩)
        simpa using h2.2
      · exact absurd hv (by simp)

theorem validate_domain (U : Unicode) (cfg : Config) (params : CreateDynamicLinkRequest)
    (host : GoString) (hclean : CleanHost U params.DynamicLinkInfo.Host = .ok host)
    (hdom : IsDomainAllowed U cfg.DomainAllowList params.DynamicLinkInfo.Link = false) :
    validate U cfg params = .error .ErrDomainLinkNotAllowed := by
  simp [validate, hclean, hdom]

theorem validate_isi (U : Unicode) (cfg : Config) (params : CreateDynamicLinkRequest)
    (host : GoString) (hclean : CleanHost U params.DynamicLinkInfo.Host = .ok host)
    (hdom : IsDomainAllowed U cfg.DomainAllowList params.DynamicLinkInfo.Link = true)
    (hne : params.DynamicLinkInfo.IosParameters.IosAppStoreId ≠ [])
    (hisi : IsNumericString params.DynamicLinkInfo.IosParameters.IosAppStoreId = false) :
    validate U cfg params = .error .ErrInvalidAppStoreID := by
  simp [validate, hclean, hdom, hne, hisi]

/-- The errors that `createOrGetShortLink` returns are those of the two
repository calls. -/
theorem createOrGetShortLink_error_cases (cfg : Config) (env : Env) (store : Store)
    (host : GoString) (queryParams : Values) (shortPath : Bool) (e : AppError)
    (he : (createOrGetShortLink cfg env store host queryParams shortPath).result = .error e) :
    (∃ msg, env.findErr = some msg ∧ e = .driver msg)
    ∨ (∃ msg, env.insertErr = some msg ∧ e = .wrap "failed to store link" (.driver msg)) := by
  have hnew : ∀ pre, (createNewShortLink cfg env store host (Values.Encode queryParams)
        shortPath pre).result = .error e →
      ∃ msg, env.insertErr = some msg ∧ e = .wrap "failed to store link" (.driver msg) := by
    intro pre h
    cases hg : GenerateDynamicLinkPath env.rand (pathLength cfg shortPath) with
    | none =>
      rw [createNewShortLink_panic _ _ _ _ _ _ _ hg] at h
      exact absurd h (by simp)
    | some path =>
      cases hi : env.insertErr with
      | none =>
        rw [createNewShortLink_ok _ _ _ _ _ _ _ _ hg hi] at h
        exact absurd h (by simp)
      | some msg =>
        rw [createNewShortLink_fail _ _ _ _ _ _ _ _ _ hg hi] at h
        exact ⟨msg, rfl, (Result.error.inj h).symm⟩
  cases shortPath with
  | false =>
    rw [createOrGetShortLink_long] at he
    exact Or.inr (hnew [] he)
  | true =>
    cases hf : FindExistingShortLink env store host (Values.Encode queryParams) with
    | ok path =>
      rw [createOrGetShortLink_found _ _ _ _ _ _ hf] at he
      exact absurd he (by simp)
    | error err =>
      by_cases hn : err = .sqlErrNoRows
      · subst hn
        rw [createOrGetShortLink_missed _ _ _ _ _ hf] at he
        exact Or.inr (hnew _ he)
      · rw [createOrGetShortLink_failed _ _ _ _ _ _ hf hn] at he
        have hee : err = e := Result.error.inj he
        subst hee
        rw [FindExistingShortLink_eq] at hf
        cases hfe : env.findErr with
        | some msg =>
          rw [hfe] at hf
          exact Or.inl ⟨msg, rfl, (Except.error.inj hf).symm⟩
        | none =>
          rw [hfe] at hf
          simp only at hf
          split at hf
          · exact absurd (Except.error.inj hf).symm hn
          · exact absurd hf (by simp)

/-- Every error that `CreateDynamicLink` returns has one of five causes. -/
theorem CreateDynamicLink_error_cases (U : Unicode) (cfg : Config) (env : Env) (store : Store)
    (params : CreateDynamicLinkRequest) (e : AppError)
    (he : (CreateDynamicLink U cfg env store params).result = .error e) :
    (∃ err, CleanHost U params.DynamicLinkInfo.Host = .error err ∧ e = .wrap "invalid host" err)
    ∨ (IsDomainAllowed U cfg.DomainAllowList params.DynamicLinkInfo.Link = false
        ∧ e = .ErrDomainLinkNotAllowed)
    ∨ (params.DynamicLinkInfo.IosParameters.IosAppStoreId ≠ []
        ∧ IsNumericString params.DynamicLinkInfo.IosParameters.IosAppStoreId = false
        ∧ e = .ErrInvalidAppStoreID)
    ∨ (∃ msg, env.findErr = some msg ∧ e = .driver msg)
    ∨ (∃ msg, env.insertErr = some msg ∧ e = .wrap "failed to store link" (.driver msg)) := by
  cases hv : validate U cfg params with
  | error e' =>
    rw [CreateDynamicLink_invalid U cfg env store params e' hv] at he
    have hee : e' = e := Result.error.inj he
    subst hee
    rcases validate_error_cases U cfg params e' hv with h | h | h
    · exact Or.inl h
    · exact Or.inr (Or.inl h)
    · exact Or.inr (Or.inr (Or.inl h))
  | ok host =>
    rw [CreateDynamicLink_valid U cfg env store params host hv] at he
    simp only at he
    cases hr : (createOrGetShortLink cfg env store host (buildQueryParams params)
        (wantsShort params)).result with
    | ok a => rw [hr] at he; exact absurd he (by simp [attachWarnings])
    | panic => rw [hr] at he; exact absurd he (by simp [attachWarnings])
    | error e' =>
      rw [hr] at he
      have hee : e' = e := by simpa [attachWarnings] using he
      subst hee
      rcases createOrGetShortLink_error_cases _ _ _ _ _ _ _ hr with h | h
      · exact Or.inr (Or.inr (Or.inr (Or.inl h)))
      · exact Or.inr (Or.inr (Or.inr (Or.inr h)))

/-- When the database executes both statements and the length asked for is
not negative, `createOrGetShortLink` succeeds. -/
theorem createOrGetShortLink_succeeds (cfg : Config) (env : Env) (store : Store)
    (host : GoString) (queryParams : Values) (shortPath : Bool)
    (hfind : env.findErr = none) (hins : env.insertErr = none)
    (hlen : 0 ≤ pathLength cfg shortPath) :
    ∃ path, (createOrGetShortLink cfg env store host queryParams shortPath).result
      = .ok ⟨sprintfLink cfg.URLScheme host path, []⟩ := by
  have hnew : ∀ pre, ∃ path, (createNewShortLink cfg env store host (Values.Encode queryParams)
      shortPath pre).result = .ok ⟨sprintfLink cfg.URLScheme host path, []⟩ := by
    intro pre
    obtain ⟨path, _, _, _, _, h5⟩ := createNewShortLink_spec cfg env store host
      (Values.Encode queryParams) shortPath pre hlen
    exact ⟨path, (h5 hins).1⟩
  cases shortPath with
  | false =>
    rw [createOrGetShortLink_long]
    exact hnew []
  | true =>
    cases hs : store.find? (reusable host (Values.Encode queryParams)) with
    | some r =>
      exact ⟨r.path, (createOrGetShortLink_reuse cfg env store host queryParams r hs).2.2 hfind⟩
    | none =>
      have hf : FindExistingShortLink env store host (Values.Encode queryParams)
          = .error .sqlErrNoRows := by rw [FindExistingShortLink_eq, hfind, hs]
      rw [createOrGetShortLink_missed _ _ _ _ _ hf]
      exact hnew _

/-- C11: the domain allow-list gate. Whenever host cleaning succeeds and
`IsDomainAllowed(cfg.DomainAllowList, link)` is false, `CreateDynamicLink`
returns `ErrDomainLinkNotAllowed`, leaves the table as it is and makes no
repository call at all. The check reads the destination link only: when
`IsDomainAllowed` holds of the link, the call never returns
`ErrDomainLinkNotAllowed`, whatever the dynamic-link host is. -/
theorem domain_gate (U : Unicode) (cfg : Config) (env : Env) (store : Store)
    (params : CreateDynamicLinkRequest) :
    (∀ host, CleanHost U params.DynamicLinkInfo.Host = .ok host →
        IsDomainAllowed U cfg.DomainAllowList params.DynamicLinkInfo.Link = false →
        (CreateDynamicLink U cfg env store params).result = .error .ErrDomainLinkNotAllowed
        ∧ (CreateDynamicLink U cfg env store params).store = store
        ∧ (CreateDynamicLink U cfg env store params).trace = [])
    ∧ (IsDomainAllowed U cfg.DomainAllowList params.DynamicLinkInfo.Link = true →
        (CreateDynamicLink U cfg env store params).result ≠ .error .ErrDomainLinkNotAllowed) := by
  refine ⟨?_, ?_⟩
  · intro host hclean hdom
    rw [CreateDynamicLink_invalid U cfg env store params _
      (validate_domain U cfg params host hclean hdom)]
    exact ⟨rfl, rfl, rfl⟩
  · intro hdom he
    rcases CreateDynamicLink_error_cases U cfg env store params _ he with
      ⟨_, _, h⟩ | ⟨h, _⟩ | ⟨_, _, h⟩ | ⟨_, _, h⟩ | ⟨_, _, h⟩
    · exact absurd h (by simp)
    · rw [hdom] at h; exact absurd h (by simp)
    · exact absurd h (by simp)
    · exact absurd h (by simp)
    · exact absurd h (by simp)

set_option maxRecDepth 100000 in
/-- C11 (witness): with `target.com` alone on the allow list, the request
whose host is `target.com` and whose link goes to `other.com` is refused, and
the sample request, whose host `example.com` is not on the list and whose link
goes to `target.com`, is created. -/
theorem domain_gate_witness :
    CleanHost sampleUnicode sampleForeignLink.DynamicLinkInfo.Host = .ok (B "target.com")
    ∧ IsDomainAllowed sampleUnicode sampleConfig.DomainAllowList
        sampleForeignLink.DynamicLinkInfo.Link = false
    ∧ ((CreateDynamicLink sampleUnicode sampleConfig sampleEnv sampleStore
          sampleForeignLink).result = .error .ErrDomainLinkNotAllowed
      ∧ (CreateDynamicLink sampleUnicode sampleConfig sampleEnv sampleStore
          sampleForeignLink).store = sampleStore
      ∧ (CreateDynamicLink sampleUnicode sampleConfig sampleEnv sampleStore
          sampleForeignLink).trace = [])
    ∧ (CreateDynamicLink sampleUnicode sampleConfig sampleEnv sampleStore
          sampleRequest).result ≠ .error .ErrDomainLinkNotAllowed :=
  ⟨by decide!, by decide!,
    (domain_gate sampleUnicode sampleConfig sampleEnv sampleStore sampleForeignLink).1
      (B "target.com") (by decide!) (by decide!),
    (domain_gate sampleUnicode sampleConfig sampleEnv sampleStore sampleRequest).2
      (by decide!)⟩

theorem IsNumericString_false_iff (s : GoString) :
    IsNumericString s = false ↔ ∃ c ∈ s, ¬(48 ≤ c.val ∧ c.val ≤ 57) := by
  unfold IsNumericString
  constructor
  · intro h
    split at h
    · exact absurd h (by simp)
    · rw [List.all_eq_false] at h
      obtain ⟨c, hc, hn⟩ := h
      refine ⟨c, hc, ?_⟩
      simp only [Bool.not_eq_true', Bool.not_eq_false, Bool.or_eq_true, decide_eq_true_eq] at hn
      omega
  · rintro ⟨c, hc, hn⟩
    have hne : s ≠ [] := List.ne_nil_of_mem hc
    rw [if_neg hne, List.all_eq_false]
    refine ⟨c, hc, ?_⟩
    simp only [Bool.not_eq_true', Bool.not_eq_false, Bool.or_eq_true, decide_eq_true_eq]
    omega

/-- C12: a non-numeric app-store id is rejected atomically. For every request
that passes the host and domain checks and whose `isi` holds at least one byte
other than the ASCII digits `0` to `9`, `CreateDynamicLink` returns
`ErrInvalidAppStoreID`, leaves the table as it is and makes no repository
call. -/
theorem non_numeric_isi_rejected (U : Unicode) (cfg : Config) (env : Env) (store : Store)
    (params : CreateDynamicLinkRequest) (host : GoString)
    (hclean : CleanHost U params.DynamicLinkInfo.Host = .ok host)
    (hdom : IsDomainAllowed U cfg.DomainAllowList params.DynamicLinkInfo.Link = true)
    (hisi : ∃ c ∈ params.DynamicLinkInfo.IosParameters.IosAppStoreId,
      ¬(48 ≤ c.val ∧ c.val ≤ 57)) :
    (CreateDynamicLink U cfg env store params).result = .error .ErrInvalidAppStoreID
    ∧ (CreateDynamicLink U cfg env store params).store = store
    ∧ (CreateDynamicLink U cfg env store params).trace = [] := by
  have hne : params.DynamicLinkInfo.IosParameters.IosAppStoreId ≠ [] := by
    obtain ⟨c, hc, _⟩ := hisi
    exact List.ne_nil_of_mem hc
  rw [CreateDynamicLink_invalid U cfg env store params _
    (validate_isi U cfg params host hclean hdom hne ((IsNumericString_false_iff _).2 hisi))]
  exact ⟨rfl, rfl, rfl⟩

set_option maxRecDepth 100000 in
/-- C12 (witness): the sample request with `isi` set to `12a`. -/
theorem non_numeric_isi_rejected_witness :
    sampleBadIsi.DynamicLinkInfo.IosParameters.IosAppStoreId = B "12a"
    ∧ (CreateDynamicLink sampleUnicode sampleConfig sampleEnv sampleStore sampleBadIsi).result
        = .error .ErrInvalidAppStoreID
    ∧ (CreateDynamicLink sampleUnicode sampleConfig sampleEnv sampleStore sampleBadIsi).store
        = sampleStore
    ∧ (CreateDynamicLink sampleUnicode sampleConfig sampleEnv sampleStore sampleBadIsi).trace
        = [] :=
  ⟨rfl,
    non_numeric_isi_rejected sampleUnicode sampleConfig sampleEnv sampleStore sampleBadIsi
      (B "example.com") (by decide!) (by decide!) ⟨ch 'a', by decide, by decide⟩⟩

/-- C13: warnings never abort the request. An error returned by
`CreateDynamicLink` has one of these causes: host cleaning failed, the
destination domain is not allowed, the app-store id is not numeric, the reuse
lookup failed, or the `INSERT` failed. In every other case (the configured
path lengths not being negative) the call succeeds and returns the
accumulated warnings: nothing is asked of `si`, `at`, `ct`, `mt`, `pt`, and of
`isi` only that it is numeric. -/
theorem warnings_never_abort (U : Unicode) (cfg : Config) (env : Env) (store : Store)
    (params : CreateDynamicLinkRequest) :
    (∀ e, (CreateDynamicLink U cfg env store params).result = .error e →
        (∃ err, CleanHost U params.DynamicLinkInfo.Host = .error err
          ∧ e = .wrap "invalid host" err)
        ∨ (IsDomainAllowed U cfg.DomainAllowList params.DynamicLinkInfo.Link = false
          ∧ e = .ErrDomainLinkNotAllowed)
        ∨ (params.DynamicLinkInfo.IosParameters.IosAppStoreId ≠ []
          ∧ IsNumericString params.DynamicLinkInfo.IosParameters.IosAppStoreId = false
          ∧ e = .ErrInvalidAppStoreID)
        ∨ (∃ msg, env.findErr = some msg ∧ e = .driver msg)
        ∨ (∃ msg, env.insertErr = some msg ∧ e = .wrap "failed to store link" (.driver msg)))
    ∧ (∀ host, CleanHost U params.DynamicLinkInfo.Host = .ok host →
        IsDomainAllowed U cfg.DomainAllowList params.DynamicLinkInfo.Link = true →
        IsNumericString params.DynamicLinkInfo.IosParameters.IosAppStoreId = true →
        env.findErr = none → env.insertErr = none →
        0 ≤ cfg.ShortPathLength → 0 ≤ cfg.UnguessablePathLength →
        ∃ path, (CreateDynamicLink U cfg env store params).result
          = .ok { ShortLink := cfg.URLScheme ++ B "://" ++ host ++ B "/" ++ path,
                  Warnings := buildWarnings params }) := by
  refine ⟨fun e he => CreateDynamicLink_error_cases U cfg env store params e he, ?_⟩
  intro host hclean hdom hisi hfind hins hs hl
  have hlen : 0 ≤ pathLength cfg (wantsShort params) := by
    unfold pathLength
    split <;> assumption
  obtain ⟨path, hp⟩ := createOrGetShortLink_succeeds cfg env store host (buildQueryParams params)
    (wantsShort params) hfind hins hlen
  rw [CreateDynamicLink_valid U cfg env store params host
    (validate_ok U cfg params host hclean hdom hisi)]
  simp only [hp]
  exact ⟨path, rfl⟩

set_option maxRecDepth 100000 in
/-- C13 (witness): the sample request with a social image that is not a URL
and with `at` set while `isi` and `pt` are empty succeeds, with three
warnings. -/
theorem warnings_never_abort_witness :
    (buildWarnings sampleWarned).length = 3
    ∧ ∃ path, (CreateDynamicLink sampleUnicode sampleConfig sampleEnv [] sampleWarned).result
        = .ok { ShortLink := sampleConfig.URLScheme ++ B "://" ++ B "example.com" ++ B "/" ++ path,
                Warnings := buildWarnings sampleWarned } :=
  ⟨by decide!,
    (warnings_never_abort sampleUnicode sampleConfig sampleEnv [] sampleWarned).2
      (B "example.com") (by decide!) (by decide!) (by decide!) rfl rfl (by decide) (by decide)⟩

/-! ## Claims C14 to C16: the warning rules -/

theorem filter_warnIf (p : Warning → Bool) (v : GoString) (code message : String) :
    (warnIf v code message).filter p
      = if p ⟨code, message⟩ = true then warnIf v code message else [] := by
  unfold warnIf
  by_cases hv : v = [] <;> by_cases hp : p ⟨code, message⟩ = true <;> simp [hv, hp]

theorem unneededFor_cons (missing name : String) (v : GoString)
    (fields : List (String × GoString)) :
    unneededFor missing ((name, v) :: fields)
      = warnIf v (unneeded missing name).WarningCode (unneeded missing name).WarningMessage
          ++ unneededFor missing fields := by
  unfold unneededFor warnIf
  by_cases hv : v = [] <;> simp [hv]

/-- The warnings of the response of a successful call are those of
`buildWarnings`. -/
theorem CreateDynamicLink_ok_warnings (U : Unicode) (cfg : Config) (env : Env) (store : Store)
    (params : CreateDynamicLinkRequest) (response : ShortLinkResponse)
    (hok : (CreateDynamicLink U cfg env store params).result = .ok response) :
    response.Warnings = buildWarnings params := by
  obtain ⟨_, _, _, hresp, _⟩ := CreateDynamicLink_ok_cases U cfg env store params response hok
  rw [hresp]

theorem buildWarnings_blames_isi (params : CreateDynamicLinkRequest) :
    (buildWarnings params).filter (blames "isi")
      = if params.DynamicLinkInfo.IosParameters.IosAppStoreId = [] then
          unneededFor "isi"
            [("at", params.DynamicLinkInfo.AnalyticsInfo.ItunesConnectAnalytics.At),
             ("ct", params.DynamicLinkInfo.AnalyticsInfo.ItunesConnectAnalytics.Ct),
             ("mt", params.DynamicLinkInfo.AnalyticsInfo.ItunesConnectAnalytics.Mt),
             ("pt", params.DynamicLinkInfo.AnalyticsInfo.ItunesConnectAnalytics.Pt)]
        else [] := by
  have h0 : blames "isi" ⟨"MALFORMED_PARAM", "Param \x27si\x27 is not a valid URL"⟩ = false := by
    decide
  have h1 : blames "isi" ⟨"UNRECOGNIZED_PARAM",
      "Param \x27at\x27 is not needed, since \x27isi\x27 is not specified."⟩ = true := by decide
  have h2 : blames "isi" ⟨"UNRECOGNIZED_PARAM",
      "Param \x27ct\x27 is not needed, since \x27isi\x27 is not specified."⟩ = true := by decide
  have h3 : blames "isi" ⟨"UNRECOGNIZED_PARAM",
      "Param \x27mt\x27 is not needed, since \x27isi\x27 is not specified."⟩ = true := by decide
  have h4 : blames "isi" ⟨"UNRECOGNIZED_PARAM",
      "Param \x27pt\x27 is not needed, since \x27isi\x27 is not specified."⟩ = true := by decide
  have h5 : blames "isi" ⟨"UNRECOGNIZED_PARAM",
      "Param \x27at\x27 is not needed, since \x27pt\x27 is not specified."⟩ = false := by decide
  have h6 : blames "isi" ⟨"UNRECOGNIZED_PARAM",
      "Param \x27ct\x27 is not needed, since \x27pt\x27 is not specified."⟩ = false := by decide
  have h7 : blames "isi" ⟨"UNRECOGNIZED_PARAM",
      "Param \x27mt\x27 is not needed, since \x27pt\x27 is not specified."⟩ = false := by decide
  have e1 : unneeded "isi" "at" = ⟨"UNRECOGNIZED_PARAM",
      "Param \x27at\x27 is not needed, since \x27isi\x27 is not specified."⟩ := by decide
  have e2 : unneeded "isi" "ct" = ⟨"UNRECOGNIZED_PARAM",
      "Param \x27ct\x27 is not needed, since \x27isi\x27 is not specified."⟩ := by decide
  have e3 : unneeded "isi" "mt" = ⟨"UNRECOGNIZED_PARAM",
      "Param \x27mt\x27 is not needed, since \x27isi\x27 is not specified."⟩ := by decide
  have e4 : unneeded "isi" "pt" = ⟨"UNRECOGNIZED_PARAM",
      "Param \x27pt\x27 is not needed, since \x27isi\x27 is not specified."⟩ := by decide
  have hnil : unneededFor "isi" [] = [] := rfl
  simp only [unneededFor_cons, hnil, e1, e2, e3, e4, List.append_nil]
  unfold buildWarnings
  simp only [List.filter_append, filter_warnIf, h1, h2, h3, h4, h5, h6, h7, if_true,
    Bool.false_eq_true, if_false, List.append_nil]
  split <;> split <;> split <;>
    simp [List.filter_cons, List.filter_append, filter_warnIf, h0, h1, h2, h3, h4, h5, h6, h7]

/-- C14: the warning rule for a missing `isi`. For every request on which
`CreateDynamicLink` succeeds, the `UNRECOGNIZED_PARAM` warnings of the response
that name `isi` as not specified are, when `isi` is empty, exactly one for
each non-empty field among `at`, `ct`, `mt`, `pt` (in this order, and none for
an empty field), and none at all when `isi` is non-empty. -/
theorem isi_warning_rule (U : Unicode) (cfg : Config) (env : Env) (store : Store)
    (params : CreateDynamicLinkRequest) (response : ShortLinkResponse)
    (hok : (CreateDynamicLink U cfg env store params).result = .ok response) :
    response.Warnings.filter (blames "isi")
      = if params.DynamicLinkInfo.IosParameters.IosAppStoreId = [] then
          unneededFor "isi"
            [("at", params.DynamicLinkInfo.AnalyticsInfo.ItunesConnectAnalytics.At),
             ("ct", params.DynamicLinkInfo.AnalyticsInfo.ItunesConnectAnalytics.Ct),
             ("mt", params.DynamicLinkInfo.AnalyticsInfo.ItunesConnectAnalytics.Mt),
             ("pt", params.DynamicLinkInfo.AnalyticsInfo.ItunesConnectAnalytics.Pt)]
        else [] := by
  rw [CreateDynamicLink_ok_warnings U cfg env store params response hok]
  exact buildWarnings_blames_isi params

set_option maxRecDepth 100000 in
/-- C14 (witness): `sampleWarned` has `at` set and `isi` empty: one warning
names `isi` as not specified, the one for `at`. -/
theorem isi_warning_rule_witness :
    (CreateDynamicLink sampleUnicode sampleConfig sampleEnv [] sampleWarned).result
        = .ok sampleWarnedResponse
    ∧ sampleWarnedResponse.Warnings.filter (blames "isi") = [unneeded "isi" "at"] :=
  ⟨by decide!,
    (isi_warning_rule sampleUnicode sampleConfig sampleEnv [] sampleWarned sampleWarnedResponse
      (by decide!)).trans (by decide!)⟩

theorem buildWarnings_blames_pt (params : CreateDynamicLinkRequest) :
    (buildWarnings params).filter (blames "pt")
      = if params.DynamicLinkInfo.AnalyticsInfo.ItunesConnectAnalytics.Pt = [] then
          unneededFor "pt"
            [("at", params.DynamicLinkInfo.AnalyticsInfo.ItunesConnectAnalytics.At),
             ("ct", params.DynamicLinkInfo.AnalyticsInfo.ItunesConnectAnalytics.Ct),
             ("mt", params.DynamicLinkInfo.AnalyticsInfo.ItunesConnectAnalytics.Mt)]
        else [] := by
  have h0 : blames "pt" ⟨"MALFORMED_PARAM", "Param \x27si\x27 is not a valid URL"⟩ = false := by
    decide
  have h1 : blames "pt" ⟨"UNRECOGNIZED_PARAM",
      "Param \x27at\x27 is not needed, since \x27isi\x27 is not specified."⟩ = false := by decide
  have h2 : blames "pt" ⟨"UNRECOGNIZED_PARAM",
      "Param \x27ct\x27 is not needed, since \x27isi\x27 is not specified."⟩ = false := by decide
  have h3 : blames "pt" ⟨"UNRECOGNIZED_PARAM",
      "Param \x27mt\x27 is not needed, since \x27isi\x27 is not specified."⟩ = false := by decide
  have h4 : blames "pt" ⟨"UNRECOGNIZED_PARAM",
      "Param \x27pt\x27 is not needed, since \x27isi\x27 is not specified."⟩ = false := by decide
  have h5 : blames "pt" ⟨"UNRECOGNIZED_PARAM",
      "Param \x27at\x27 is not needed, since \x27pt\x27 is not specified."⟩ = true := by decide
  have h6 : blames "pt" ⟨"UNRECOGNIZED_PARAM",
      "Param \x27ct\x27 is not needed, since \x27pt\x27 is not specified."⟩ = true := by decide
  have h7 : blames "pt" ⟨"UNRECOGNIZED_PARAM",
      "Param \x27mt\x27 is not needed, since \x27pt\x27 is not specified."⟩ = true := by decide
  have e1 : unneeded "pt" "at" = ⟨"UNRECOGNIZED_PARAM",
      "Param \x27at\x27 is not needed, since \x27pt\x27 is not specified."⟩ := by decide
  have e2 : unneeded "pt" "ct" = ⟨"UNRECOGNIZED_PARAM",
      "Param \x27ct\x27 is not needed, since \x27pt\x27 is not specified."⟩ := by decide
  have e3 : unneeded "pt" "mt" = ⟨"UNRECOGNIZED_PARAM",
      "Param \x27mt\x27 is not needed, since \x27pt\x27 is not specified."⟩ := by decide
  have hnil : unneededFor "pt" [] = [] := rfl
  simp only [unneededFor_cons, hnil, e1, e2, e3, List.append_nil]
  unfold buildWarnings
  simp only [List.filter_append, filter_warnIf, h1, h2, h3, h4, h5, h6, h7, if_true,
    Bool.false_eq_true, if_false, List.append_nil]
  split <;> split <;> split <;>
    simp [List.filter_cons, List.filter_append, filter_warnIf, h0, h1, h2, h3, h4, h5, h6, h7]

theorem buildWarnings_about_at (params : CreateDynamicLinkRequest)
    (hat : params.DynamicLinkInfo.AnalyticsInfo.ItunesConnectAnalytics.At ≠ [])
    (hisi : params.DynamicLinkInfo.IosParameters.IosAppStoreId = [])
    (hpt : params.DynamicLinkInfo.AnalyticsInfo.ItunesConnectAnalytics.Pt = []) :
    (buildWarnings params).filter (isAbout "at")
      = [unneeded "isi" "at", unneeded "pt" "at"] := by
  have h0 : isAbout "at" ⟨"MALFORMED_PARAM", "Param \x27si\x27 is not a valid URL"⟩ = false := by
    decide
  have h1 : isAbout "at" ⟨"UNRECOGNIZED_PARAM",
      "Param \x27at\x27 is not needed, since \x27isi\x27 is not specified."⟩ = true := by decide
  have h2 : isAbout "at" ⟨"UNRECOGNIZED_PARAM",
      "Param \x27ct\x27 is not needed, since \x27isi\x27 is not specified."⟩ = false := by decide
  have h3 : isAbout "at" ⟨"UNRECOGNIZED_PARAM",
      "Param \x27mt\x27 is not needed, since \x27isi\x27 is not specified."⟩ = false := by decide
  have h4 : isAbout "at" ⟨"UNRECOGNIZED_PARAM",
      "Param \x27pt\x27 is not needed, since \x27isi\x27 is not specified."⟩ = false := by decide
  have h5 : isAbout "at" ⟨"UNRECOGNIZED_PARAM",
      "Param \x27at\x27 is not needed, since \x27pt\x27 is not specified."⟩ = true := by decide
  have h6 : isAbout "at" ⟨"UNRECOGNIZED_PARAM",
      "Param \x27ct\x27 is not needed, since \x27pt\x27 is not specified."⟩ = false := by decide
  have h7 : isAbout "at" ⟨"UNRECOGNIZED_PARAM",
      "Param \x27mt\x27 is not needed, since \x27pt\x27 is not specified."⟩ = false := by decide
  have e1 : unneeded "isi" "at" = ⟨"UNRECOGNIZED_PARAM",
      "Param \x27at\x27 is not needed, since \x27isi\x27 is not specified."⟩ := by decide
  have e2 : unneeded "pt" "at" = ⟨"UNRECOGNIZED_PARAM",
      "Param \x27at\x27 is not needed, since \x27pt\x27 is not specified."⟩ := by decide
  rw [e1, e2]
  unfold buildWarnings
  simp only [hisi, hpt, if_true, List.filter_append, filter_warnIf, h1, h2, h3, h4, h5, h6, h7,
    Bool.false_eq_true, if_false, List.append_nil]
  split <;> simp [warnIf, hat, h0]

/-- C15: the warning rule for a missing `pt`, independent of the `isi` rule.
For every request on which `CreateDynamicLink` succeeds, the
`UNRECOGNIZED_PARAM` warnings of the response that name `pt` as not specified
are, when `pt` is empty, exactly one for each non-empty field among `at`, `ct`,
`mt` (whatever `isi` is), and none when `pt` is non-empty. Consequently a
request with `at` set and both `isi` and `pt` empty gets exactly two
`UNRECOGNIZED_PARAM` warnings for `at`: the one of the `isi` rule and the one
of the `pt` rule. -/
theorem pt_warning_rule (U : Unicode) (cfg : Config) (env : Env) (store : Store)
    (params : CreateDynamicLinkRequest) (response : ShortLinkResponse)
    (hok : (CreateDynamicLink U cfg env store params).result = .ok response) :
    response.Warnings.filter (blames "pt")
        = (if params.DynamicLinkInfo.AnalyticsInfo.ItunesConnectAnalytics.Pt = [] then
            unneededFor "pt"
              [("at", params.DynamicLinkInfo.AnalyticsInfo.ItunesConnectAnalytics.At),
               ("ct", params.DynamicLinkInfo.AnalyticsInfo.ItunesConnectAnalytics.Ct),
               ("mt", params.DynamicLinkInfo.AnalyticsInfo.ItunesConnectAnalytics.Mt)]
          else [])
    ∧ (params.DynamicLinkInfo.AnalyticsInfo.ItunesConnectAnalytics.At ≠ [] →
        params.DynamicLinkInfo.IosParameters.IosAppStoreId = [] →
        params.DynamicLinkInfo.AnalyticsInfo.ItunesConnectAnalytics.Pt = [] →
        response.Warnings.filter (isAbout "at") = [unneeded "isi" "at", unneeded "pt" "at"]) := by
  rw [CreateDynamicLink_ok_warnings U cfg env store params response hok]
  exact ⟨buildWarnings_blames_pt params, buildWarnings_about_at params⟩

set_option maxRecDepth 100000 in
/-- C15 (witness): `sampleWarned` has `at` set and both `isi` and `pt` empty:
two `UNRECOGNIZED_PARAM` warnings for `at`. -/
theorem pt_warning_rule_witness :
    (CreateDynamicLink sampleUnicode sampleConfig sampleEnv [] sampleWarned).result
        = .ok sampleWarnedResponse
    ∧ sampleWarnedResponse.Warnings.filter (blames "pt") = [unneeded "pt" "at"]
    ∧ sampleWarnedResponse.Warnings.filter (isAbout "at")
        = [unneeded "isi" "at", unneeded "pt" "at"] :=
  ⟨by decide!,
    ((pt_warning_rule sampleUnicode sampleConfig sampleEnv [] sampleWarned sampleWarnedResponse
      (by decide!)).1).trans (by decide!),
    (pt_warning_rule sampleUnicode sampleConfig sampleEnv [] sampleWarned sampleWarnedResponse
      (by decide!)).2 (by decide) (by decide) (by decide)⟩

theorem buildWarnings_malformed (params : CreateDynamicLinkRequest) :
    (buildWarnings params).filter isMalformed
      = if params.DynamicLinkInfo.SocialMetaTagInfo.SocialImageLink ≠ []
            ∧ IsURL params.DynamicLinkInfo.SocialMetaTagInfo.SocialImageLink = false then
          [siWarning]
        else [] := by
  have h0 : isMalformed ⟨"MALFORMED_PARAM", "Param \x27si\x27 is not a valid URL"⟩ = true := by
    decide
  have h1 : ∀ m, isMalformed ⟨"UNRECOGNIZED_PARAM", m⟩ = false := by
    intro m
    simp [isMalformed]
  unfold buildWarnings
  simp only [List.filter_append, filter_warnIf, h1, Bool.false_eq_true, if_false,
    List.append_nil]
  by_cases hs : params.DynamicLinkInfo.SocialMetaTagInfo.SocialImageLink ≠ []
      ∧ IsURL params.DynamicLinkInfo.SocialMetaTagInfo.SocialImageLink = false
  · have hs' : params.DynamicLinkInfo.SocialMetaTagInfo.SocialImageLink ≠ []
        ∧ (!IsURL params.DynamicLinkInfo.SocialMetaTagInfo.SocialImageLink) = true := by
      simpa using hs
    rw [if_pos hs, if_pos hs']
    split <;> split <;> simp [h0, siWarning, List.filter_append, filter_warnIf, h1]
  · have hs' : ¬(params.DynamicLinkInfo.SocialMetaTagInfo.SocialImageLink ≠ []
        ∧ (!IsURL params.DynamicLinkInfo.SocialMetaTagInfo.SocialImageLink) = true) := by
      simpa using hs
    rw [if_neg hs, if_neg hs']
    split <;> split <;> simp [List.filter_append, filter_warnIf, h1]

theorem IsURL_iff (s : GoString) :
    IsURL s = true ↔ ∃ u, Parse s = .ok u ∧ u.Scheme ≠ [] ∧ u.Host ≠ [] := by
  unfold IsURL
  cases hp : Parse s with
  | error e => simp
  | ok u => simp

theorem si_mem_keys (info : DynamicLinkInfo) (hsi : info.SocialMetaTagInfo.SocialImageLink ≠ []) :
    B "si" ∈ alphabeticalKeys.filter (keyEmitted info) := by
  apply List.mem_filter.2
  refine ⟨by decide, ?_⟩
  have : fieldValue info (B "si") = info.SocialMetaTagInfo.SocialImageLink := rfl
  simp [keyEmitted, emitted, this, hsi]

/-- C16: the warning rule for the social image. For every request on which
`CreateDynamicLink` succeeds, the response holds the `MALFORMED_PARAM` warning
for `si` exactly when `si` is non-empty and `IsURL(si)` is false, and holds no
other `MALFORMED_PARAM` warning. `IsURL(s)` is true iff `s` parses as a URL
with a non-empty scheme and a non-empty host; `example.com`, `https://` and
the empty string are not URLs. A non-empty `si` is written into the query
string in either case: `si` is one of its keys and parsing it back gives the
value. -/
theorem si_warning_rule (U : Unicode) (cfg : Config) (env : Env) (store : Store)
    (params : CreateDynamicLinkRequest) (response : ShortLinkResponse)
    (hok : (CreateDynamicLink U cfg env store params).result = .ok response) :
    (siWarning ∈ response.Warnings ↔
        (params.DynamicLinkInfo.SocialMetaTagInfo.SocialImageLink ≠ []
          ∧ IsURL params.DynamicLinkInfo.SocialMetaTagInfo.SocialImageLink = false))
    ∧ response.Warnings.filter isMalformed
        = (if params.DynamicLinkInfo.SocialMetaTagInfo.SocialImageLink ≠ []
              ∧ IsURL params.DynamicLinkInfo.SocialMetaTagInfo.SocialImageLink = false then
            [siWarning]
          else [])
    ∧ (∀ s, IsURL s = true ↔ ∃ u, Parse s = .ok u ∧ u.Scheme ≠ [] ∧ u.Host ≠ [])
    ∧ IsURL (B "example.com") = false ∧ IsURL (B "https://") = false ∧ IsURL (B "") = false
    ∧ (params.DynamicLinkInfo.SocialMetaTagInfo.SocialImageLink ≠ [] →
        B "si" ∈ keysOf (canonicalQuery params)
        ∧ Values.Get (parseQuery (canonicalQuery params)) (B "si")
            = params.DynamicLinkInfo.SocialMetaTagInfo.SocialImageLink) := by
  rw [CreateDynamicLink_ok_warnings U cfg env store params response hok]
  have hfil := buildWarnings_malformed params
  refine ⟨?_, hfil, IsURL_iff, by decide!, by decide!, by decide!, ?_⟩
  · have hm : isMalformed siWarning = true := by decide
    constructor
    · intro hmem
      have : siWarning ∈ (buildWarnings params).filter isMalformed :=
        List.mem_filter.2 ⟨hmem, hm⟩
      rw [hfil] at this
      by_contra hc
      rw [if_neg hc] at this
      simp at this
    · intro hc
      have : siWarning ∈ (buildWarnings params).filter isMalformed := by
        rw [hfil, if_pos hc]
        simp
      exact (List.mem_filter.1 this).1
  · intro hsi
    have hmem := si_mem_keys params.DynamicLinkInfo hsi
    refine ⟨?_, ?_⟩
    · rw [keysOf_canonicalQuery]
      exact hmem
    · rw [parseQuery_canonicalQuery, Values.Get_single _ _ _ hmem]
      rfl

set_option maxRecDepth 100000 in
/-- C16 (witness): `sampleWarned` has the social image `example.com`, which is
not a URL: the warning is there, and `si=example.com` is in the query string. -/
theorem si_warning_rule_witness :
    (CreateDynamicLink sampleUnicode sampleConfig sampleEnv [] sampleWarned).result
        = .ok sampleWarnedResponse
    ∧ siWarning ∈ sampleWarnedResponse.Warnings
    ∧ canonicalQuery sampleWarned
        = B "apn=com.app&at=1000l&link=https%3A%2F%2Ftarget.com&si=example.com"
    ∧ B "si" ∈ keysOf (canonicalQuery sampleWarned) :=
  ⟨by decide!,
    (si_warning_rule sampleUnicode sampleConfig sampleEnv [] sampleWarned sampleWarnedResponse
      (by decide!)).1.2 ⟨by decide, by decide!⟩,
    by decide!,
    ((si_warning_rule sampleUnicode sampleConfig sampleEnv [] sampleWarned sampleWarnedResponse
      (by decide!)).2.2.2.2.2.2 (by decide)).1⟩

/-! ## Claim C17: how decoding fails -/

/-- C17: the failure modes of decoding. For every string `s`,
`ParseLongDynamicLink(s)` fails with `ErrInvalidURLFormat` iff `s` does not
parse as a URL, fails with `ErrHostInvalid` iff `s` parses to a URL with an
empty host, and succeeds iff `s` parses to a URL with a non-empty host; on
failure the request returned is the zero value. `not a valid url` parses, to a
URL without host, and fails with `ErrHostInvalid`. -/
theorem decode_failure_modes (s : GoString) :
    ((ParseLongDynamicLink s).2 = some .ErrInvalidURLFormat ↔ ∃ e, Parse s = .error e)
    ∧ ((ParseLongDynamicLink s).2 = some .ErrHostInvalid ↔ ∃ u, Parse s = .ok u ∧ u.Host = [])
    ∧ ((ParseLongDynamicLink s).2 = none ↔ ∃ u, Parse s = .ok u ∧ u.Host ≠ [])
    ∧ ((ParseLongDynamicLink s).2 ≠ none → (ParseLongDynamicLink s).1 = {})
    ∧ (∃ u, Parse (B "not a valid url") = .ok u ∧ u.Host = [])
    ∧ ParseLongDynamicLink (B "not a valid url") = ({}, some .ErrHostInvalid) := by
  refine ⟨?_, ?_, ?_, ?_, ⟨{ Path := B "not a valid url" }, by decide!, rfl⟩, by decide!⟩
  all_goals
    unfold ParseLongDynamicLink
    cases hp : Parse s with
    | error e => simp
    | ok u =>
      by_cases hh : u.Host = [] <;> simp [hh]

/-! ## Claim C19: rebuilding the long link -/

theorem GetQueryParamsByHostAndPath_eq (env : Env) (store : Store) (host path : GoString) :
    GetQueryParamsByHostAndPath env store host path
      = match env.getErr with
        | some msg => .error (.wrap "database error" (.driver msg))
        | none =>
          match store.find? (stored host path) with
          | none => .error .ErrLinkNotFound
          | some r => .ok r.query_params := rfl

/-- `ResolveShortPath` on `requested://host/path` passes the host and the path
on to the rebuild; the scheme of the requested link is dropped. -/
theorem ResolveShortPath_plain (cfg : Config) (env : Env) (store : Store)
    (requested host path : GoString) (hscheme : isValidScheme requested = true)
    (hhost : isPlainHostname host = true) (hne : path ≠ []) (hall : path.all isAlnum = true) :
    ResolveShortPath cfg env store (requested ++ B "://" ++ host ++ B "/" ++ path)
      = getLongLinkFromHostAndPath cfg env store host path := by
  have e : requested ++ B "://" ++ host ++ B "/" ++ path
      = requested ++ B "://" ++ host ++ (ch '/' :: path) := by
    simp [B, ch]
  have htail : (ch '/' :: path).all isPathByte = true := by
    rw [List.all_cons, Bool.and_eq_true]
    refine ⟨by decide, ?_⟩
    rw [List.all_eq_true]
    intro c hc
    exact (isAlnum_facts c (List.all_eq_true.1 hall c hc)).1
  have hparse := Parse_host_path requested host (ch '/' :: path) hscheme hhost htail
    (Or.inr ⟨path, rfl⟩)
  have hsl : ch '/' ∉ path := fun h =>
    (isAlnum_facts _ (List.all_eq_true.1 hall _ h)).2.1 rfl
  unfold ResolveShortPath
  rw [e, hparse]
  simp only [trim_path path hne hall, splitByte_not_mem path _ hsl]

/-- C19: rebuilding the long link. For every host and path the rebuild makes
one query and leaves the table as it is. The database executing the query: if
the table has no row for (host, path) the rebuild fails with `ErrLinkNotFound`;
otherwise, with `r` the row found, it returns `URLScheme://host/path`, followed
by `?` and the stored query string exactly when that string is non-empty. The
scheme is the configured one: `ResolveShortPath` hands over host and path of
the requested link and drops its scheme. -/
theorem link_rebuilding (cfg : Config) (env : Env) (store : Store) (host path : GoString) :
    ((getLongLinkFromHostAndPath cfg env store host path).store = store
      ∧ (getLongLinkFromHostAndPath cfg env store host path).trace = [.get host path])
    ∧ (env.getErr = none → (∀ r ∈ store, ¬(r.host = host ∧ r.path = path)) →
        (getLongLinkFromHostAndPath cfg env store host path).result = .error .ErrLinkNotFound)
    ∧ (env.getErr = none → (∃ r ∈ store, r.host = host ∧ r.path = path) →
        ∃ r, store.find? (stored host path) = some r ∧ r ∈ store ∧ r.host = host ∧ r.path = path
          ∧ (getLongLinkFromHostAndPath cfg env store host path).result
              = .ok { LongLink := cfg.URLScheme ++ B "://" ++ host ++ B "/" ++ path
                        ++ (if r.query_params ≠ [] then B "?" ++ r.query_params else []) })
    ∧ (∀ requested, isValidScheme requested = true → isPlainHostname host = true →
        path ≠ [] → path.all isAlnum = true →
        ResolveShortPath cfg env store (requested ++ B "://" ++ host ++ B "/" ++ path)
          = getLongLinkFromHostAndPath cfg env store host path) := by
  refine ⟨?_, ?_, ?_, ?_⟩
  · unfold getLongLinkFromHostAndPath
    cases GetQueryParamsByHostAndPath env store host path <;> exact ⟨rfl, rfl⟩
  · intro hget hnone
    have hf : store.find? (stored host path) = none := by
      rw [List.find?_eq_none]
      intro r hr
      simpa [stored] using hnone r hr
    unfold getLongLinkFromHostAndPath
    rw [GetQueryParamsByHostAndPath_eq, hget, hf]
  · rintro hget ⟨r0, hr0, hhp⟩
    cases hf : store.find? (stored host path) with
    | none =>
      rw [List.find?_eq_none] at hf
      exact absurd (by simpa [stored] using hhp) (hf r0 hr0)
    | some r =>
      have hmem := List.mem_of_find?_eq_some hf
      have hprop := List.find?_some hf
      simp only [stored, decide_eq_true_eq] at hprop
      refine ⟨r, rfl, hmem, hprop.1, hprop.2, ?_⟩
      unfold getLongLinkFromHostAndPath
      rw [GetQueryParamsByHostAndPath_eq, hget, hf]
      by_cases hq : r.query_params = [] <;> simp [hq, sprintfLink]
  · intro requested hs hh hne hall
    exact ResolveShortPath_plain cfg env store requested host path hs hh hne hall

set_option maxRecDepth 100000 in
/-- C19 (witness): the stored row of `sampleStore`, requested under the scheme
`http`, is rebuilt under the configured scheme `https`; a path that is not
stored is not found. -/
theorem link_rebuilding_witness :
    (ResolveShortPath sampleConfig sampleEnv sampleStore
        (B "http" ++ B "://" ++ B "example.com" ++ B "/" ++ B "abc123")).result
      = .ok ⟨B "https://example.com/abc123?apn=com.app&link=https%3A%2F%2Ftarget.com"⟩
    ∧ (getLongLinkFromHostAndPath sampleConfig sampleEnv sampleStore (B "example.com")
        (B "zzz")).result = .error .ErrLinkNotFound :=
  ⟨((link_rebuilding sampleConfig sampleEnv sampleStore (B "example.com") (B "abc123")).2.2.2
      (B "http") (by decide) (by decide) (by decide) (by decide)).symm ▸ (by decide!),
    (link_rebuilding sampleConfig sampleEnv sampleStore (B "example.com") (B "zzz")).2.1 rfl
      (by decide)⟩

/-! ## Claim C20: paths of several segments -/

theorem splitByteAux_length (sep : Byte) :
    ∀ (s cur : GoString), (splitByteAux sep s cur).length = s.count sep + 1
  | [], cur => by simp [splitByteAux]
  | c :: s, cur => by
    by_cases hc : c = sep
    · subst hc
      simp [splitByteAux, splitByteAux_length c s []]
    · have hc' : (c == sep) = false := by simpa using hc
      simp [splitByteAux, hc, splitByteAux_length sep s (c :: cur), List.count_cons, hc']

theorem splitByte_length (s : GoString) (sep : Byte) :
    (splitByte s sep).length = s.count sep + 1 :=
  splitByteAux_length sep s []

/-- C20: paths of several segments are rejected. For every requested link
that parses and whose path, once the leading and trailing slashes are trimmed,
still holds a `/`, `ResolveShortPath` fails with an error that wraps
`ErrInvalidPathFormat`, leaves the table as it is and makes no query. -/
theorem multi_segment_rejected (cfg : Config) (env : Env) (store : Store) (s : GoString)
    (u : URL) (hp : Parse s = .ok u) (hseg : ch '/' ∈ trim u.Path (B "/")) :
    (ResolveShortPath cfg env store s).result
        = .error (.wrap "unexpected path format" .ErrInvalidPathFormat)
    ∧ AppError.is (.wrap "unexpected path format" .ErrInvalidPathFormat) .ErrInvalidPathFormat
        = true
    ∧ (ResolveShortPath cfg env store s).store = store
    ∧ (ResolveShortPath cfg env store s).trace = [] := by
  have hlen := splitByte_length (trim u.Path (B "/")) (ch '/')
  have hcount : 0 < (trim u.Path (B "/")).count (ch '/') := List.count_pos_iff.2 hseg
  unfold ResolveShortPath
  rw [hp]
  simp only
  cases hsp : splitByte (trim u.Path (B "/")) (ch '/') with
  | nil => rw [hsp] at hlen; simp at hlen
  | cons a rest =>
    cases rest with
    | nil => rw [hsp] at hlen; simp at hlen; omega
    | cons b rest' => exact ⟨rfl, by decide, rfl, rfl⟩

set_option maxRecDepth 100000 in
/-- C20 (witness): `https://h/a/b`. -/
theorem multi_segment_rejected_witness :
    Parse (B "https://h/a/b") = .ok { Scheme := B "https", Host := B "h", Path := B "/a/b" }
    ∧ (ResolveShortPath sampleConfig sampleEnv sampleStore (B "https://h/a/b")).result
        = .error (.wrap "unexpected path format" .ErrInvalidPathFormat)
    ∧ (ResolveShortPath sampleConfig sampleEnv sampleStore (B "https://h/a/b")).trace = [] :=
  ⟨by decide!,
    (multi_segment_rejected sampleConfig sampleEnv sampleStore (B "https://h/a/b")
      { Scheme := B "https", Host := B "h", Path := B "/a/b" } (by decide!) (by decide!)).1,
    (multi_segment_rejected sampleConfig sampleEnv sampleStore (B "https://h/a/b")
      { Scheme := B "https", Host := B "h", Path := B "/a/b" } (by decide!) (by decide!)).2.2.2⟩

/-! ## Claim C18: the field mapping of decoding -/

/-- What the loop of `parseQuery` does with one piece. -/
theorem parseQueryLoop_succ (fuel : Nat) (m : Values) (query : GoString) (hq : query ≠ []) :
    parseQueryLoop (fuel + 1) m query
      = parseQueryLoop fuel
          (match decodePiece (cut query (B "&")).1 with
            | none => m
            | some kv => Values.Add m kv.1 kv.2)
          (cut query (B "&")).2.1 := by
  rw [parseQueryLoop]
  simp only [hq, if_false]
  unfold decodePiece
  by_cases h1 : contains (cut query (B "&")).1 (B ";") = true
  · simp [h1]
  · by_cases h2 : (cut query (B "&")).1 = []
    · simp [h1, h2]
    · simp only [h1, h2, if_false, Bool.false_eq_true]
      cases hk : QueryUnescape (cut (cut query (B "&")).1 (B "=")).1 with
      | error e => simp
      | ok key =>
        cases hv : QueryUnescape (cut (cut query (B "&")).1 (B "=")).2.1 with
        | error e => simp
        | ok value => simp

theorem cut_single_cases (c : Byte) (q : GoString) :
    (c ∉ q ∧ cut q [c] = (q, [], false))
    ∨ (∃ a rest, q = a ++ c :: rest ∧ c ∉ a ∧ cut q [c] = (a, rest, true)) := by
  by_cases h : c ∈ q
  · obtain ⟨a, rest, hq, ha⟩ := List.eq_append_cons_of_mem h
    exact Or.inr ⟨a, rest, hq, ha, by rw [hq]; exact cut_single_append c a rest ha⟩
  · exact Or.inl ⟨h, cut_single_not_mem c q h⟩

theorem splitByte_append_sep (sep : Byte) (a rest : GoString) (ha : sep ∉ a) :
    splitByte (a ++ sep :: rest) sep = a :: splitByte rest sep := by
  have := splitByteAux_append sep (sep :: rest) a [] ha
  simp [splitByte, this, splitByteAux]

/-- The pairs of a raw query: those of its first piece, then those of what
follows the first `&`. -/
theorem decodedPairs_cut (q : GoString) :
    decodedPairs q
      = (decodePiece (cut q (B "&")).1).toList ++ decodedPairs (cut q (B "&")).2.1 := by
  have e : B "&" = [ch '&'] := rfl
  have hnil : decodedPairs [] = [] := by decide
  rcases cut_single_cases (ch '&') q with ⟨hn, hc⟩ | ⟨a, rest, hq, ha, hc⟩
  · rw [e, hc]
    simp only [hnil, List.append_nil]
    unfold decodedPairs
    rw [splitByte_not_mem q _ hn]
    cases hd : decodePiece q <;> simp [List.filterMap_cons, hd]
  · rw [e, hc]
    simp only
    unfold decodedPairs
    rw [hq, splitByte_append_sep _ _ _ ha]
    cases hd : decodePiece a <;> simp [List.filterMap_cons, hd]

theorem cut_single_length (c : Byte) (q : GoString) (hq : q ≠ []) :
    (cut q [c]).2.1.length < q.length := by
  rcases cut_single_cases c q with ⟨_, hc⟩ | ⟨a, rest, hq', _, hc⟩
  · rw [hc]
    simpa using List.length_pos.2 hq
  · rw [hc, hq']
    simp
    omega

/-- The loop of `parseQuery` adds the pairs of the raw query in order; fuel
equal to the length of the query is enough. -/
theorem parseQueryLoop_eq : ∀ (fuel : Nat) (m : Values) (q : GoString), q.length ≤ fuel →
    parseQueryLoop fuel m q = (decodedPairs q).foldl (fun m kv => Values.Add m kv.1 kv.2) m
  | 0, m, q, h => by
    have hq : q = [] := List.length_eq_zero.1 (Nat.le_zero.1 h)
    subst hq
    have hnil : decodedPairs [] = [] := by decide
    simp [parseQueryLoop, hnil]
  | fuel + 1, m, q, h => by
    by_cases hq : q = []
    · subst hq
      have hnil : decodedPairs [] = [] := by decide
      simp [parseQueryLoop, hnil]
    · have e : B "&" = [ch '&'] := rfl
      have hlt := cut_single_length (ch '&') q hq
      rw [parseQueryLoop_succ fuel m q hq,
        parseQueryLoop_eq fuel _ _ (by rw [e]; omega)]
      conv_rhs => rw [decodedPairs_cut q]
      cases decodePiece (cut q (B "&")).1 <;> simp [List.foldl_append]

theorem parseQuery_eq (q : GoString) :
    parseQuery q = (decodedPairs q).foldl (fun m kv => Values.Add m kv.1 kv.2) [] :=
  parseQueryLoop_eq q.length [] q (Nat.le_refl _)

theorem Values.at_Add (m : Values) (k v key : GoString) :
    Values.at (Values.Add m k v) key
      = if k = key then Values.at m key ++ [v] else Values.at m key := by
  induction m with
  | nil =>
    by_cases h : k = key
    · subst h; simp [Values.at, Values.Add]
    · have hb : (key == k) = false := by simpa using fun e : key = k => h e.symm
      simp [Values.at, Values.Add, List.lookup, h, hb]
  | cons a m ih =>
    obtain ⟨k', vs⟩ := a
    by_cases hk : k' = k
    · subst hk
      by_cases h : k' = key
      · subst h; simp [Values.at, Values.Add, List.lookup]
      · have hb : (key == k') = false := by simpa using fun e : key = k' => h e.symm
        simp [Values.at, Values.Add, List.lookup, h, hb]
    · by_cases h' : k' = key
      · subst h'
        have hkk : ¬ k = k' := fun e => hk e.symm
        simp [Values.at, Values.Add, List.lookup, hk, hkk]
      · have hb : (key == k') = false := by simpa using fun e : key = k' => h' e.symm
        simp only [Values.at] at ih
        simp [Values.at, Values.Add, List.lookup, hk, hb, ih]

/-- After the pairs are added to a map, `Get` gives the first value of the
key: the one the map had, or else the first among the pairs. -/
theorem Values.Get_foldl (key : GoString) : ∀ (pairs : List (GoString × GoString)) (m : Values),
    Values.Get (pairs.foldl (fun m kv => Values.Add m kv.1 kv.2) m) key
      = if Values.at m key = [] then (pairs.lookup key).getD [] else Values.Get m key
  | [], m => by
    by_cases h : Values.at m key = []
    · simp [Values.Get, h]
    · simp [h]
  | (k, v) :: pairs, m => by
    rw [List.foldl_cons, Values.Get_foldl key pairs, Values.at_Add, List.lookup_cons]
    by_cases hk : k = key
    · subst hk
      by_cases hm : Values.at m k = []
      · simp [hm, Values.Get, Values.at_Add]
      · have : Values.at m k ++ [v] ≠ [] := by simp
        rw [if_pos rfl, if_neg this, if_neg hm]
        simp only [Values.Get, Values.at_Add, if_true]
        cases hat : Values.at m k with
        | nil => exact absurd hat hm
        | cons x xs => simp
    · have hb : (key == k) = false := by simpa using fun e : key = k => hk e.symm
      simp only [hk, if_false, hb]
      by_cases hm : Values.at m key = []
      · simp [hm]
      · simp [hm, Values.Get, Values.at_Add, hk]

/-- `Get` on a parsed query is the first value of the key. -/
theorem Get_parseQuery (q key : GoString) :
    Values.Get (parseQuery q) key = firstValue q key := by
  rw [parseQuery_eq, Values.Get_foldl]
  simp [Values.at, firstValue]

theorem getField_parseQuery (q key : GoString) :
    getField (parseQuery q) key = firstValue q key := by
  unfold getField
  rw [Get_parseQuery]
  by_cases h : firstValue q key = [] <;> simp [h]

theorem firstValue_absent (q key : GoString) (h : ∀ kv ∈ decodedPairs q, kv.1 ≠ key) :
    firstValue q key = [] := by
  unfold firstValue
  have : (decodedPairs q).lookup key = none := by
    rw [List.lookup_eq_none_iff]
    intro kv hkv
    have := h kv hkv
    simpa using fun e : key = kv.1 => this e.symm
  rw [this]
  rfl

theorem ParseLongDynamicLink_ok (s : GoString) (u : URL) (hp : Parse s = .ok u)
    (hh : u.Host ≠ []) :
    ParseLongDynamicLink s
      = ({ DynamicLinkInfo :=
            { Host := u.Host
              Link := firstValue u.RawQuery (B "link")
              AndroidParameters :=
                { AndroidPackageName := firstValue u.RawQuery (B "apn")
                  AndroidFallbackLink := firstValue u.RawQuery (B "afl")
                  AndroidMinPackageVersionCode := firstValue u.RawQuery (B "amv") }
              IosParameters :=
                { IosAppStoreId := firstValue u.RawQuery (B "isi")
                  IosFallbackLink := firstValue u.RawQuery (B "ifl")
                  IosIpadFallbackLink := firstValue u.RawQuery (B "ipfl") }
              OtherPlatformParameters := { FallbackURL := firstValue u.RawQuery (B "ofl") }
              AnalyticsInfo :=
                { MarketingParameters :=
                    { UtmSource := firstValue u.RawQuery (B "utm_source")
                      UtmMedium := firstValue u.RawQuery (B "utm_medium")
                      UtmCampaign := firstValue u.RawQuery (B "utm_campaign")
                      UtmTerm := firstValue u.RawQuery (B "utm_term")
                      UtmContent := firstValue u.RawQuery (B "utm_content") }
                  ItunesConnectAnalytics :=
                    { At := firstValue u.RawQuery (B "at")
                      Ct := firstValue u.RawQuery (B "ct")
                      Mt := firstValue u.RawQuery (B "mt")
                      Pt := firstValue u.RawQuery (B "pt") } }
              SocialMetaTagInfo :=
                { SocialTitle := firstValue u.RawQuery (B "st")
                  SocialDescription := firstValue u.RawQuery (B "sd")
                  SocialImageLink := firstValue u.RawQuery (B "si") } }
           Suffix := { Option := firstValue u.RawQuery (B "path") } }, none) := by
  unfold ParseLongDynamicLink
  rw [hp]
  simp only [hh, if_false, URL.Query, getField_parseQuery, Get_parseQuery]

/-- C18: when a long link parses with a non-empty host, `ParseLongDynamicLink`
succeeds, `Host` is the host component of the URL, and every field is the
unescaped first value of its query key (`path` goes into `Suffix.Option`); a key
that does not occur, or whose first value is empty, gives an empty field; and
two links with the same host that agree on the first values of the keys of the
table decode to the same request, whatever other keys they carry. -/
theorem decode_field_mapping (s : GoString) (u : URL) (hp : Parse s = .ok u)
    (hh : u.Host ≠ []) :
    ParseLongDynamicLink s
      = ({ DynamicLinkInfo :=
            { Host := u.Host
              Link := firstValue u.RawQuery (B "link")
              AndroidParameters :=
                { AndroidPackageName := firstValue u.RawQuery (B "apn")
                  AndroidFallbackLink := firstValue u.RawQuery (B "afl")
                  AndroidMinPackageVersionCode := firstValue u.RawQuery (B "amv") }
              IosParameters :=
                { IosAppStoreId := firstValue u.RawQuery (B "isi")
                  IosFallbackLink := firstValue u.RawQuery (B "ifl")
                  IosIpadFallbackLink := firstValue u.RawQuery (B "ipfl") }
              OtherPlatformParameters := { FallbackURL := firstValue u.RawQuery (B "ofl") }
              AnalyticsInfo :=
                { MarketingParameters :=
                    { UtmSource := firstValue u.RawQuery (B "utm_source")
                      UtmMedium := firstValue u.RawQuery (B "utm_medium")
                      UtmCampaign := firstValue u.RawQuery (B "utm_campaign")
                      UtmTerm := firstValue u.RawQuery (B "utm_term")
                      UtmContent := firstValue u.RawQuery (B "utm_content") }
                  ItunesConnectAnalytics :=
                    { At := firstValue u.RawQuery (B "at")
                      Ct := firstValue u.RawQuery (B "ct")
                      Mt := firstValue u.RawQuery (B "mt")
                      Pt := firstValue u.RawQuery (B "pt") } }
              SocialMetaTagInfo :=
                { SocialTitle := firstValue u.RawQuery (B "st")
                  SocialDescription := firstValue u.RawQuery (B "sd")
                  SocialImageLink := firstValue u.RawQuery (B "si") } }
           Suffix := { Option := firstValue u.RawQuery (B "path") } }, none)
    ∧ (∀ key, (∀ kv ∈ decodedPairs u.RawQuery, kv.1 ≠ key) → firstValue u.RawQuery key = [])
    ∧ (∀ key, (decodedPairs u.RawQuery).lookup key = some [] → firstValue u.RawQuery key = [])
    ∧ (∀ s2 u2, Parse s2 = .ok u2 → u2.Host = u.Host →
        (∀ key ∈ decodeKeys, firstValue u2.RawQuery key = firstValue u.RawQuery key) →
        ParseLongDynamicLink s2 = ParseLongDynamicLink s) := by
  refine ⟨ParseLongDynamicLink_ok s u hp hh, fun key h => firstValue_absent _ _ h, ?_, ?_⟩
  · intro key h
    simp [firstValue, h]
  · intro s2 u2 hp2 hh2 hk
    have hhost : u2.Host ≠ [] := by rw [hh2]; exact hh
    rw [ParseLongDynamicLink_ok s2 u2 hp2 hhost, ParseLongDynamicLink_ok s u hp hh, hh2]
    simp only [decodeKeys, alphabeticalKeys, List.mem_cons, forall_eq_or_imp,
      List.mem_singleton, forall_eq, List.not_mem_nil, false_implies, implies_true,
      and_true] at hk
    obtain ⟨h0, h1, h2, h3, h4, h5, h6, h7, h8, h9, h10, h11, h12, h13, h14, h15, h16, h17,
      h18, h19, h20⟩ := hk
    rw [h0, h1, h2, h3, h4, h5, h6, h7, h8, h9, h10, h11, h12, h13, h14, h15, h16, h17,
      h18, h19, h20]

set_option maxRecDepth 100000 in
/-- The long link of the repository's own test decodes to the request that the
test expects, and an extra key `unknown` appended to it changes nothing. -/
theorem decode_field_mapping_witness :
    ParseLongDynamicLink sampleLongLink = (sampleLongLinkRequest, none)
    ∧ firstValue sampleLongLinkURL.RawQuery (B "unknown") = []
    ∧ ParseLongDynamicLink (sampleLongLink ++ B "&unknown=1&apn=other")
        = ParseLongDynamicLink sampleLongLink :=
  have hp : Parse sampleLongLink = .ok sampleLongLinkURL := by decide!
  have hh : sampleLongLinkURL.Host ≠ [] := by decide!
  have h := decode_field_mapping sampleLongLink sampleLongLinkURL hp hh
  ⟨h.1.trans (by decide!),
   h.2.1 (B "unknown") (by decide!),
   h.2.2.2 (sampleLongLink ++ B "&unknown=1&apn=other")
     { sampleLongLinkURL with RawQuery := sampleLongLinkURL.RawQuery ++ B "&unknown=1&apn=other" }
     (by decide!) rfl (by decide!)⟩

/-! ## Claim C21: paths without a segment -/

theorem trim_onlySlashes (p : GoString) (h : onlySlashes p = true) : trim p (B "/") = [] := by
  have h1 : p.dropWhile (fun c => (B "/").contains c) = [] := by
    rw [List.dropWhile_eq_nil_iff]
    intro c hc
    have := List.all_eq_true.1 h c hc
    simp only [decide_eq_true_eq] at this
    rw [this]
    decide
  unfold trim
  rw [h1]
  rfl

theorem getLongLinkFromHostAndPath_trace (cfg : Config) (env : Env) (store : Store)
    (host path : GoString) :
    (getLongLinkFromHostAndPath cfg env store host path).store = store
    ∧ (getLongLinkFromHostAndPath cfg env store host path).trace = [.get host path] := by
  unfold getLongLinkFromHostAndPath
  cases GetQueryParamsByHostAndPath env store host path <;> exact ⟨rfl, rfl⟩

theorem getLongLinkFromHostAndPath_error (cfg : Config) (env : Env) (store : Store)
    (host path : GoString) (e : AppError)
    (h : (getLongLinkFromHostAndPath cfg env store host path).result = .error e) :
    e = .ErrLinkNotFound ∨ ∃ msg, e = .wrap "database error" (.driver msg) := by
  unfold getLongLinkFromHostAndPath at h
  rw [GetQueryParamsByHostAndPath_eq] at h
  cases hg : env.getErr with
  | some msg =>
    rw [hg] at h
    simp only [Result.error.injEq] at h
    exact Or.inr ⟨msg, h.symm⟩
  | none =>
    rw [hg] at h
    cases hf : store.find? (stored host path) with
    | none =>
      rw [hf] at h
      simp only [Result.error.injEq] at h
      exact Or.inl h.symm
    | some r =>
      rw [hf] at h
      simp at h

/-- C21: what the code does with a path without a segment. When the requested
link parses and its path is empty or made of slashes only, `ResolveShortPath`
does not stop with the path-format error: `strings.Split` of the empty string
is the one-element list holding the empty string, so the call goes on to the
rebuild for the empty path, queries the table for it, and the only errors it
can return are `ErrLinkNotFound` and a wrapped database error. -/
theorem zero_segment_is_looked_up (cfg : Config) (env : Env) (store : Store) (s : GoString)
    (u : URL) (hp : Parse s = .ok u) (hz : onlySlashes u.Path = true) :
    ResolveShortPath cfg env store s = getLongLinkFromHostAndPath cfg env store u.Host []
    ∧ (ResolveShortPath cfg env store s).trace = [.get u.Host []]
    ∧ (∀ e, (ResolveShortPath cfg env store s).result = .error e →
        AppError.is e .ErrInvalidPathFormat = false)
    ∧ (env.getErr = none → (∀ r ∈ store, ¬(r.host = u.Host ∧ r.path = [])) →
        (ResolveShortPath cfg env store s).result = .error .ErrLinkNotFound) := by
  have e : ResolveShortPath cfg env store s
      = getLongLinkFromHostAndPath cfg env store u.Host [] := by
    unfold ResolveShortPath
    rw [hp]
    simp only [trim_onlySlashes u.Path hz]
    rfl
  rw [e]
  refine ⟨rfl, (getLongLinkFromHostAndPath_trace cfg env store u.Host []).2, ?_, ?_⟩
  · intro err herr
    rcases getLongLinkFromHostAndPath_error cfg env store u.Host [] err herr with h | ⟨msg, h⟩
    · rw [h]; rfl
    · rw [h]; simp [AppError.is]
  · intro hget hnone
    have hf : store.find? (stored u.Host []) = none := by
      rw [List.find?_eq_none]
      intro r hr
      simpa [stored] using hnone r hr
    unfold getLongLinkFromHostAndPath
    rw [GetQueryParamsByHostAndPath_eq, hget, hf]

set_option maxRecDepth 100000 in
/-- C21 (witness): `https://h/` is looked up under the empty path and, on the
table `sampleStore`, is not found; `https://h` behaves the same. -/
theorem zero_segment_is_looked_up_witness :
    (ResolveShortPath sampleConfig sampleEnv sampleStore (B "https://h/")).trace
        = [.get (B "h") []]
    ∧ (ResolveShortPath sampleConfig sampleEnv sampleStore (B "https://h/")).result
        = .error .ErrLinkNotFound
    ∧ (ResolveShortPath sampleConfig sampleEnv sampleStore (B "https://h")).result
        = .error .ErrLinkNotFound :=
  have h := zero_segment_is_looked_up sampleConfig sampleEnv sampleStore (B "https://h/")
    ⟨B "https", [], B "h", B "/", [], []⟩ (by decide!) (by decide)
  ⟨h.2.1, h.2.2.2 rfl (by decide!), by decide!⟩

/-! ## Claim C22: the required fields -/

/-- `ValidateURLScheme` returns `nil` exactly for a link that parses with the
scheme `http` or `https`. -/
theorem ValidateURLScheme_none_iff (link : GoString) :
    ValidateURLScheme link = none
      ↔ ∃ u, Parse link = .ok u ∧ (u.Scheme = B "http" ∨ u.Scheme = B "https") := by
  unfold ValidateURLScheme
  cases hp : Parse link with
  | error e => simp
  | ok u =>
    by_cases hs : [B "http", B "https"].contains u.Scheme = true
    · have hs' := hs
      simp only [List.contains_eq_any_beq, List.any_cons, List.any_nil, Bool.or_false,
        Bool.or_eq_true, beq_iff_eq] at hs'
      simp only [hs, if_true, true_iff]
      rcases hs' with h | h
      · exact ⟨u, rfl, Or.inl h⟩
      · exact ⟨u, rfl, Or.inr h⟩
    · simp only [hs, if_false]
      constructor
      · intro h; exact absurd h (by simp)
      · rintro ⟨u2, hu, h⟩
        simp only [Except.ok.injEq] at hu
        subst hu
        exfalso
        apply hs
        simp only [List.contains_eq_any_beq, List.any_cons, List.any_nil, Bool.or_false,
          Bool.or_eq_true, beq_iff_eq]
        rcases h with h | h
        · exact Or.inl h
        · exact Or.inr h

/-- C22: validation of the required fields. With `req` the request assembled
from the input: an empty host gives `ErrMissingHost`; a host with an empty
link gives `ErrMissingLink`; with both present, an error of
`ValidateURLScheme` on the link is returned as it is, and there is one
whenever the link parses with a scheme other than `http` and `https`. Whenever
`PrepareDynamicLinkRequest` succeeds, the request returned is the assembled
one, its host and link are not empty, and the link parses with the scheme
`http` or `https`. -/
theorem required_fields (input : RawInput) :
    (∀ req, assembleRequest input = .ok req → req.DynamicLinkInfo.Host = [] →
        PrepareDynamicLinkRequest input = ({}, some .ErrMissingHost))
    ∧ (∀ req, assembleRequest input = .ok req → req.DynamicLinkInfo.Host ≠ [] →
        req.DynamicLinkInfo.Link = [] →
        PrepareDynamicLinkRequest input = ({}, some .ErrMissingLink))
    ∧ (∀ req err, assembleRequest input = .ok req → req.DynamicLinkInfo.Host ≠ [] →
        req.DynamicLinkInfo.Link ≠ [] → ValidateURLScheme req.DynamicLinkInfo.Link = some err →
        PrepareDynamicLinkRequest input = ({}, some err))
    ∧ (∀ req u, assembleRequest input = .ok req → req.DynamicLinkInfo.Host ≠ [] →
        req.DynamicLinkInfo.Link ≠ [] → Parse req.DynamicLinkInfo.Link = .ok u →
        u.Scheme ≠ B "http" → u.Scheme ≠ B "https" →
        PrepareDynamicLinkRequest input
          = ({}, some (.errorf "link has invalid scheme. Must have schemes [http https]")))
    ∧ (∀ req, PrepareDynamicLinkRequest input = (req, none) →
        assembleRequest input = .ok req
        ∧ req.DynamicLinkInfo.Host ≠ [] ∧ req.DynamicLinkInfo.Link ≠ []
        ∧ ∃ u, Parse req.DynamicLinkInfo.Link = .ok u
            ∧ (u.Scheme = B "http" ∨ u.Scheme = B "https")) := by
  refine ⟨?_, ?_, ?_, ?_, ?_⟩
  · intro req ha hh
    simp [PrepareDynamicLinkRequest, ha, hh]
  · intro req ha hh hl
    simp [PrepareDynamicLinkRequest, ha, hh, hl]
  · intro req err ha hh hl hv
    simp [PrepareDynamicLinkRequest, ha, hh, hl, hv]
  · intro req u ha hh hl hp h1 h2
    have hv : ValidateURLScheme req.DynamicLinkInfo.Link
        = some (.errorf "link has invalid scheme. Must have schemes [http https]") := by
      unfold ValidateURLScheme
      rw [hp]
      have hc : [B "http", B "https"].contains u.Scheme = false := by
        simp only [List.contains_eq_any_beq, List.any_cons, List.any_nil, Bool.or_false,
          Bool.or_eq_false_iff, beq_eq_false_iff_ne, ne_eq]
        exact ⟨h1, h2⟩
      simp only [hc, Bool.false_eq_true, if_false]
    simp [PrepareDynamicLinkRequest, ha, hh, hl, hv]
  · intro req h
    unfold PrepareDynamicLinkRequest at h
    cases ha : assembleRequest input with
    | error err => rw [ha] at h; simp at h
    | ok r =>
      rw [ha] at h
      simp only at h
      by_cases hh : r.DynamicLinkInfo.Host = []
      · rw [if_pos hh] at h; simp at h
      · rw [if_neg hh] at h
        by_cases hl : r.DynamicLinkInfo.Link = []
        · rw [if_pos hl] at h; simp at h
        · rw [if_neg hl] at h
          cases hv : ValidateURLScheme r.DynamicLinkInfo.Link with
          | some err => rw [hv] at h; simp at h
          | none =>
            rw [hv] at h
            simp only [Prod.mk.injEq, and_true] at h
            subst h
            exact ⟨rfl, hh, hl, (ValidateURLScheme_none_iff _).1 hv⟩

set_option maxRecDepth 100000 in
/-- C22 (witness): the long link of the repository's test is accepted; a
structured request without host is refused with `ErrMissingHost`, one without
link with `ErrMissingLink`, and one whose link has the scheme `ftp` with the
error of the scheme validator. -/
theorem required_fields_witness :
    PrepareDynamicLinkRequest ⟨some sampleLongLink, none⟩ = (sampleLongLinkRequest, none)
    ∧ sampleLongLinkRequest.DynamicLinkInfo.Host ≠ []
    ∧ PrepareDynamicLinkRequest ⟨none, some {}⟩ = ({}, some .ErrMissingHost)
    ∧ PrepareDynamicLinkRequest ⟨none, some sampleNoLink⟩ = ({}, some .ErrMissingLink)
    ∧ PrepareDynamicLinkRequest ⟨none, some sampleFtpLink⟩
        = ({}, some (.errorf "link has invalid scheme. Must have schemes [http https]")) :=
  have h0 : PrepareDynamicLinkRequest ⟨some sampleLongLink, none⟩
      = (sampleLongLinkRequest, none) := by decide!
  ⟨h0,
   ((required_fields ⟨some sampleLongLink, none⟩).2.2.2.2 sampleLongLinkRequest h0).2.1,
   (required_fields ⟨none, some {}⟩).1 {} rfl rfl,
   (required_fields ⟨none, some sampleNoLink⟩).2.1 sampleNoLink rfl (by decide) rfl,
   (required_fields ⟨none, some sampleFtpLink⟩).2.2.2.1 sampleFtpLink
     ⟨B "ftp", [], B "target.com", [], [], []⟩ rfl (by decide) (by decide) (by decide!)
     (by decide) (by decide)⟩

/-! ## Claim C23: how `ExchangeShortLink` maps the errors of the resolver -/

theorem ExchangeShortLink_error (cfg : Config) (env : Env) (store : Store) (link : GoString)
    (err : AppError) (hne : link ≠ [])
    (h : (ResolveShortPath cfg env store link).result = .error err) :
    (ExchangeShortLink cfg env store (some link)).response
      = if AppError.is err .ErrLinkNotFound then .error 404 "Link not found" "NOT_FOUND"
        else if AppError.is err .ErrInvalidRequestedLink then
          .error 400 "Invalid requested link" "INVALID_ARGUMENT"
        else .error 500 "Failed to resolve link" "INTERNAL" := by
  unfold ExchangeShortLink
  simp only [hne, if_false, h]
  split <;> [rfl; (split <;> rfl)]

/-- C23: the error mapping of `ExchangeShortLink`. A requested link that does
not parse is answered with 400 / `INVALID_ARGUMENT` and a link that is not
found with 404 / `NOT_FOUND`; but a link for which `ResolveShortPath` returns
the path-format error is answered with 500 / `INTERNAL`, as a failure of the
database is: the handler has no case for `ErrInvalidPathFormat`. -/
theorem wrong_shape_is_answered_500 (cfg : Config) (env : Env) (store : Store)
    (link : GoString) (hne : link ≠ []) :
    ((∃ e, Parse link = .error e) →
        (ExchangeShortLink cfg env store (some link)).response
          = .error 400 "Invalid requested link" "INVALID_ARGUMENT")
    ∧ ((ResolveShortPath cfg env store link).result = .error .ErrLinkNotFound →
        (ExchangeShortLink cfg env store (some link)).response
          = .error 404 "Link not found" "NOT_FOUND")
    ∧ ((ResolveShortPath cfg env store link).result
          = .error (.wrap "unexpected path format" .ErrInvalidPathFormat) →
        (ExchangeShortLink cfg env store (some link)).response
          = .error 500 "Failed to resolve link" "INTERNAL")
    ∧ (∀ msg, (ResolveShortPath cfg env store link).result
          = .error (.wrap "database error" (.driver msg)) →
        (ExchangeShortLink cfg env store (some link)).response
          = .error 500 "Failed to resolve link" "INTERNAL") := by
  refine ⟨?_, ?_, ?_, ?_⟩
  · rintro ⟨e, he⟩
    have h : (ResolveShortPath cfg env store link).result = .error .ErrInvalidRequestedLink := by
      unfold ResolveShortPath
      rw [he]
    rw [ExchangeShortLink_error cfg env store link _ hne h]
    rfl
  · intro h
    rw [ExchangeShortLink_error cfg env store link _ hne h]
    rfl
  · intro h
    rw [ExchangeShortLink_error cfg env store link _ hne h]
    rfl
  · intro msg h
    rw [ExchangeShortLink_error cfg env store link _ hne h]
    simp [AppError.is]

set_option maxRecDepth 100000 in
/-- C23 (witness): `https://h/a/b` has two segments and is answered with 500 /
`INTERNAL`, without a query to the table. -/
theorem wrong_shape_is_answered_500_witness :
    (ExchangeShortLink sampleConfig sampleEnv sampleStore (some (B "https://h/a/b"))).response
        = .error 500 "Failed to resolve link" "INTERNAL"
    ∧ (ExchangeShortLink sampleConfig sampleEnv sampleStore (some (B "https://h/a/b"))).trace
        = [] :=
  ⟨(wrong_shape_is_answered_500 sampleConfig sampleEnv sampleStore (B "https://h/a/b")
      (by decide)).2.2.1 (by decide!), by decide!⟩

/-! ## Claim C24: the reuse policy as an invariant of the table -/

/-- The table after `createNewShortLink`: unchanged, or with one new row. -/
theorem createNewShortLink_store (cfg : Config) (env : Env) (store : Store)
    (host rawQS : GoString) (shortPath : Bool) (pre : List Event) :
    (createNewShortLink cfg env store host rawQS shortPath pre).store = store
    ∨ ∃ path, (createNewShortLink cfg env store host rawQS shortPath pre).store
        = store ++ [⟨host, path, rawQS, !shortPath⟩] := by
  cases hg : GenerateDynamicLinkPath env.rand (pathLength cfg shortPath) with
  | none => rw [createNewShortLink_panic _ _ _ _ _ _ _ hg]; exact Or.inl rfl
  | some path =>
    cases hi : env.insertErr with
    | none => rw [createNewShortLink_ok _ _ _ _ _ _ _ _ hg hi]; exact Or.inr ⟨path, rfl⟩
    | some msg => rw [createNewShortLink_fail _ _ _ _ _ _ _ _ _ hg hi]; exact Or.inl rfl

/-- The table after `createOrGetShortLink`: unchanged, or with one new row; a
new guessable row is added only when the table has no guessable row for this
host and query string. -/
theorem createOrGetShortLink_store (cfg : Config) (env : Env) (store : Store)
    (host : GoString) (queryParams : Values) (shortPath : Bool) :
    (createOrGetShortLink cfg env store host queryParams shortPath).store = store
    ∨ ∃ path, (createOrGetShortLink cfg env store host queryParams shortPath).store
          = store ++ [⟨host, path, Values.Encode queryParams, !shortPath⟩]
        ∧ (shortPath = true →
            store.find? (reusable host (Values.Encode queryParams)) = none) := by
  cases shortPath with
  | false =>
    rw [createOrGetShortLink_long]
    rcases createNewShortLink_store cfg env store host (Values.Encode queryParams) false []
      with h | ⟨path, h⟩
    · exact Or.inl h
    · exact Or.inr ⟨path, h, fun hf => absurd hf (by simp)⟩
  | true =>
    cases hf : FindExistingShortLink env store host (Values.Encode queryParams) with
    | ok path => rw [createOrGetShortLink_found _ _ _ _ _ _ hf]; exact Or.inl rfl
    | error err =>
      by_cases he : err = .sqlErrNoRows
      · subst he
        rw [createOrGetShortLink_missed _ _ _ _ _ hf]
        rcases createNewShortLink_store cfg env store host (Values.Encode queryParams) true
          [.find host (Values.Encode queryParams)] with h | ⟨path, h⟩
        · exact Or.inl h
        · refine Or.inr ⟨path, h, fun _ => ?_⟩
          rw [FindExistingShortLink_eq] at hf
          cases hfe : env.findErr with
          | some msg => rw [hfe] at hf; simp at hf
          | none =>
            rw [hfe] at hf
            cases hs : store.find? (reusable host (Values.Encode queryParams)) with
            | none => rfl
            | some r => rw [hs] at hf; simp at hf
      · rw [createOrGetShortLink_failed _ _ _ _ _ _ hf he]; exact Or.inl rfl

/-- The table after `CreateDynamicLink`: unchanged, or with one new row, which
is guessable only when the table had no guessable row for its host and query
string. -/
theorem CreateDynamicLink_store (U : Unicode) (cfg : Config) (env : Env) (store : Store)
    (params : CreateDynamicLinkRequest) :
    (CreateDynamicLink U cfg env store params).store = store
    ∨ ∃ row, (CreateDynamicLink U cfg env store params).store = store ++ [row]
        ∧ (row.is_unguessable_path = false →
            store.find? (reusable row.host row.query_params) = none) := by
  cases hv : validate U cfg params with
  | error e =>
    rw [CreateDynamicLink_invalid U cfg env store params e hv]
    exact Or.inl rfl
  | ok host =>
    rw [CreateDynamicLink_valid U cfg env store params host hv]
    rcases createOrGetShortLink_store cfg env store host (buildQueryParams params)
      (wantsShort params) with h | ⟨path, h, hnone⟩
    · exact Or.inl h
    · refine Or.inr ⟨_, h, fun hg => hnone ?_⟩
      simpa using hg

/-- C24: the reuse policy is an invariant of sequential execution. If the
table holds at most one guessable row for every pair of host and query
string, it still does after any call of `CreateDynamicLink`, whatever the
request, the random bytes and the failures of the database are. -/
theorem reuse_policy_invariant (U : Unicode) (cfg : Config) (env : Env) (store : Store)
    (params : CreateDynamicLinkRequest)
    (h : ∀ host rawQS, (store.filter (reusable host rawQS)).length ≤ 1) :
    ∀ host rawQS,
      ((CreateDynamicLink U cfg env store params).store.filter (reusable host rawQS)).length
        ≤ 1 := by
  intro host rawQS
  rcases CreateDynamicLink_store U cfg env store params with hs | ⟨row, hs, hnone⟩
  · rw [hs]; exact h host rawQS
  · rw [hs, List.filter_append]
    by_cases hr : reusable host rawQS row = true
    · have hrow : row.host = host ∧ row.query_params = rawQS
          ∧ row.is_unguessable_path = false := by
        simpa [reusable] using hr
      have hf := hnone hrow.2.2
      rw [hrow.1, hrow.2.1] at hf
      have hnil : store.filter (reusable host rawQS) = [] := by
        rw [List.filter_eq_nil_iff]
        intro r hrmem
        exact List.find?_eq_none.1 hf r hrmem
      rw [hnil]
      simp only [List.nil_append]
      exact (List.length_filter_le _ _).trans (by simp)
    · have : [row].filter (reusable host rawQS) = [] := by
        simp [List.filter_cons, hr]
      rw [this, List.append_nil]
      exact h host rawQS

set_option maxRecDepth 100000 in
/-- C24 (witness): on the table `sampleStore`, which has one guessable row,
the request `sampleWarned` with the option `SHORT` adds a second guessable
row, for another query string; the table still has at most one guessable row
for every host and query string. -/
theorem reuse_policy_invariant_witness :
    (CreateDynamicLink sampleUnicode sampleConfig sampleEnv sampleStore sampleWarned).store.length
        = 2
    ∧ ∀ host rawQS,
        ((CreateDynamicLink sampleUnicode sampleConfig sampleEnv sampleStore
            sampleWarned).store.filter (reusable host rawQS)).length ≤ 1 :=
  ⟨by decide!,
    reuse_policy_invariant sampleUnicode sampleConfig sampleEnv sampleStore sampleWarned
      (fun _ _ => (List.length_filter_le _ _).trans (by decide))⟩

/-! ## Claim C25: membership in the domain allow list -/

set_option maxRecDepth 100000 in
/-- C25: membership in the domain allow list. `IsDomainAllowed(allowList,
rawLink)` is true iff `rawLink` parses as a URL and its hostname (the host
without port), lower-cased, equals the lower-cased, whitespace-trimmed form of
at least one entry of the list. Hence it is false for every link when the list
is empty, false for `not a valid url`, which has no host, false for
`https://sub.example.com` against `[example.com]`, and true for
`https://EXAMPLE.com/x` and `https://example.com:8080` against
`[example.com]`, also when the entry is written ` Example.COM `. -/
theorem domain_allow_list_membership (U : Unicode) (allowList : List GoString)
    (rawLink : GoString) :
    (IsDomainAllowed U allowList rawLink = true
      ↔ ∃ u, Parse rawLink = .ok u
          ∧ ∃ allowed ∈ allowList,
              toLower U (splitHostPort u.Host) = toLower U (trimSpace U allowed))
    ∧ IsDomainAllowed U [] rawLink = false
    ∧ splitHostPort (B "example.com:8080") = B "example.com"
    ∧ IsDomainAllowed U [B "example.com"] (B "https://sub.example.com") = false
    ∧ IsDomainAllowed U [B "example.com"] (B "https://EXAMPLE.com/x") = true
    ∧ IsDomainAllowed U [B "example.com"] (B "https://example.com:8080") = true
    ∧ IsDomainAllowed U [B " Example.COM "] (B "https://example.com:8080") = true
    ∧ IsDomainAllowed U [B "example.com"] (B "not a valid url") = false := by
  refine ⟨?_, ?_, by decide!, rfl, rfl, rfl, rfl, rfl⟩
  · unfold IsDomainAllowed URL.Hostname
    cases hp : Parse rawLink with
    | error e => simp
    | ok u => simp
  · unfold IsDomainAllowed
    cases Parse rawLink <;> simp

/-! ## Claim C27: the numeric-string check -/

set_option maxRecDepth 100000 in
theorem runeSize_facts : ∀ s0 : Byte, 0xC2 ≤ s0.val → s0.val ≤ 0xF4 →
    (0x80 ≤ acceptLo s0 ∧ acceptHi s0 ≤ 0xBF
      ∧ (runeSize s0 ≤ 2 → 2 ≤ s0.val % 32)
      ∧ (¬ runeSize s0 ≤ 2 → runeSize s0 ≤ 3 → 1 ≤ s0.val % 16 ∨ 0xA0 ≤ acceptLo s0)
      ∧ (¬ runeSize s0 ≤ 3 → 1 ≤ s0.val % 8 ∨ 0x90 ≤ acceptLo s0)) := by
  decide!

/-- A rune that starts with a byte of `0x80` or more is not an ASCII digit. -/
theorem decodeRune_not_digit (s0 : Byte) (rest : GoString) (h : 128 ≤ s0.val) :
    ((decodeRune (s0 :: rest)).1 < 48 || (decodeRune (s0 :: rest)).1 > 57) = true := by
  unfold decodeRune
  simp only [Bool.or_eq_true, decide_eq_true_eq]
  split
  · omega
  · split
    · omega
    · next hx =>
      obtain ⟨f1, f2, f3, f4, f5⟩ := runeSize_facts s0 (by omega) (by omega)
      split
      · omega
      · split
        · omega
        · split
          · omega
          · next hr =>
            split
            · next h2 => have := f3 h2; simp only; omega
            · next h2 =>
              split
              · omega
              · split
                · omega
                · split
                  · next h3 => have := f4 h2 h3; simp only; omega
                  · next h3 =>
                    have := f5 h3
                    split
                    · omega
                    · split
                      · omega
                      · simp only; omega

theorem decodeRune_ascii (s0 : Byte) (rest : GoString) (h : s0.val < 128) :
    decodeRune (s0 :: rest) = (s0.val, 1) := by
  simp [decodeRune, h]

/-- The test on the runes and the test on the bytes agree. -/
theorem rangeRunesAux_all : ∀ (fuel : Nat) (s : GoString), s.length ≤ fuel →
    (rangeRunesAux fuel s).all (fun c => !(c < 48 || c > 57))
      = s.all (fun c => !(c.val < 48 || c.val > 57))
  | 0, s, h => by
    have : s = [] := List.length_eq_zero.1 (Nat.le_zero.1 h)
    subst this
    rfl
  | fuel + 1, [], _ => rfl
  | fuel + 1, c :: s, h => by
    rw [rangeRunesAux, List.all_cons, List.all_cons]
    by_cases hc : c.val < 128
    · rw [decodeRune_ascii c s hc]
      simp only [List.drop_succ_cons, List.drop_zero]
      rw [rangeRunesAux_all fuel s (by simpa using h)]
    · have h1 := decodeRune_not_digit c s (by omega)
      have h2 : (c.val < 48 || c.val > 57) = true := by
        simp only [Bool.or_eq_true, decide_eq_true_eq]
        omega
      rw [h1, h2]
      simp

theorem IsNumericString_eq_runes (s : GoString) :
    IsNumericString s = IsNumericStringRunes s := by
  unfold IsNumericString IsNumericStringRunes rangeRunes
  rw [rangeRunesAux_all s.length s (Nat.le_refl _)]

/-- C27: the numeric-string check. For every string `s`, `IsNumericString(s)`
is true iff `s` is empty or every rune that the loop over `s` yields is one of
the ASCII digits `0` to `9`; that is the case iff every byte of `s` is such a
digit. Any other character makes it false: the full-width digits `１２３`, the
Arabic-Indic digit `٣`, `123a45`, `123 45`. -/
theorem numeric_string_check (s : GoString) :
    (IsNumericStringRunes s = true ↔ s = [] ∨ ∀ c ∈ rangeRunes s, 48 ≤ c ∧ c ≤ 57)
    ∧ IsNumericString s = IsNumericStringRunes s
    ∧ (IsNumericString s = true ↔ s = [] ∨ ∀ b ∈ s, 48 ≤ b.val ∧ b.val ≤ 57)
    ∧ IsNumericString [] = true
    ∧ IsNumericString (B "12345") = true
    ∧ rangeRunes fullWidth123 = [0xFF11, 0xFF12, 0xFF13]
    ∧ IsNumericString fullWidth123 = false
    ∧ rangeRunes arabicIndic3 = [0x663]
    ∧ IsNumericString arabicIndic3 = false
    ∧ IsNumericString (B "123a45") = false
    ∧ IsNumericString (B "123 45") = false := by
  refine ⟨?_, IsNumericString_eq_runes s, ?_, rfl, by decide, by decide, by decide, by decide,
    by decide, by decide, by decide⟩
  · unfold IsNumericStringRunes
    by_cases hs : s = []
    · simp [hs]
    · simp only [hs, if_false, false_or, List.all_eq_true, Bool.not_eq_true', Bool.or_eq_false_iff,
        decide_eq_false_iff_not, Nat.not_lt, gt_iff_lt]
  · unfold IsNumericString
    by_cases hs : s = []
    · simp [hs]
    · simp only [hs, if_false, false_or, List.all_eq_true, Bool.not_eq_true', Bool.or_eq_false_iff,
        decide_eq_false_iff_not, Nat.not_lt, gt_iff_lt]

/-! ## Claim C28: the scheme whitelist -/

set_option maxRecDepth 100000 in
/-- C28 (counterexample): `://example.com` does not parse, and the error that
`ValidateURLScheme` returns for it is a new error with the text
`invalid URL format: ...`; it is not the value `ErrInvalidURLFormat`, and
`errors.Is` does not find that value in it. -/
theorem unparsable_link_counterexample :
    Parse (B "://example.com") = .error (.other "missing protocol scheme")
    ∧ ValidateURLScheme (B "://example.com")
        = some (.errorfV "invalid URL format: " (.other "missing protocol scheme"))
    ∧ ValidateURLScheme (B "://example.com") ≠ some .ErrInvalidURLFormat
    ∧ AppError.is (.errorfV "invalid URL format: " (.other "missing protocol scheme"))
        .ErrInvalidURLFormat = false := by
  decide!

set_option maxRecDepth 100000 in
/-- C28: the scheme whitelist. For every string `link`,
`ValidateURLScheme(link)` returns no error iff `link` parses as a URL whose
scheme is `http` or `https`. When `link` does not parse, the error is the text
`invalid URL format: ` followed by the error of the parser; no error that the
function returns is or wraps `ErrInvalidURLFormat`. It returns the scheme error
for `ftp://example.com`, `file:///path/to/file`, `not a url` and the empty
string, and no error for `http://example.com` and `https://example.com`. -/
theorem scheme_whitelist (link : GoString) :
    (ValidateURLScheme link = none
      ↔ ∃ u, Parse link = .ok u ∧ (u.Scheme = B "http" ∨ u.Scheme = B "https"))
    ∧ (∀ e, Parse link = .error e →
        ValidateURLScheme link = some (.errorfV "invalid URL format: " e))
    ∧ (∀ err, ValidateURLScheme link = some err → AppError.is err .ErrInvalidURLFormat = false)
    ∧ ValidateURLScheme (B "ftp://example.com")
        = some (.errorf "link has invalid scheme. Must have schemes [http https]")
    ∧ ValidateURLScheme (B "file:///path/to/file")
        = some (.errorf "link has invalid scheme. Must have schemes [http https]")
    ∧ ValidateURLScheme (B "not a url")
        = some (.errorf "link has invalid scheme. Must have schemes [http https]")
    ∧ ValidateURLScheme (B "")
        = some (.errorf "link has invalid scheme. Must have schemes [http https]")
    ∧ ValidateURLScheme (B "http://example.com") = none
    ∧ ValidateURLScheme (B "https://example.com") = none := by
  refine ⟨ValidateURLScheme_none_iff link, ?_, ?_, by decide!, by decide!, by decide!,
    by decide!, by decide!, by decide!⟩
  · intro e he
    unfold ValidateURLScheme
    rw [he]
  · intro err h
    unfold ValidateURLScheme at h
    cases hp : Parse link with
    | error e =>
      rw [hp] at h
      simp only [Option.some.injEq] at h
      subst h
      rfl
    | ok u =>
      rw [hp] at h
      simp only at h
      split at h
      · exact absurd h (by simp)
      · simp only [Option.some.injEq] at h
        subst h
        rfl

set_option maxRecDepth 100000 in
/-- C28 (witness): the scheme of `HTTPS://Example.com/x` is lower-cased by the
parser and accepted; `://example.com` does not parse and gets the text
`invalid URL format: missing protocol scheme`. -/
theorem scheme_whitelist_witness :
    ValidateURLScheme (B "HTTPS://Example.com/x") = none
    ∧ ValidateURLScheme (B "://example.com")
        = some (.errorfV "invalid URL format: " (.other "missing protocol scheme")) :=
  ⟨(scheme_whitelist (B "HTTPS://Example.com/x")).1.2
      ⟨⟨B "https", [], B "Example.com", B "/x", [], []⟩, by decide!, Or.inr rfl⟩,
    (scheme_whitelist (B "://example.com")).2.1 _ (by decide!)⟩

/-! ## Claim C29: the shape of a generated path -/

set_option maxRecDepth 100000 in
theorem pathByte_mem : ∀ x : Byte, pathByte x ∈ alphanumeric := by
  decide!

set_option maxRecDepth 100000 in
theorem mem_alphanumeric_iff : ∀ c : Byte, c ∈ alphanumeric ↔ isAlnum c = true := by
  decide!

set_option maxRecDepth 100000 in
theorem alphanumeric_index : ∀ x : Byte,
    x.val % (alphanumeric.length % 256) < alphanumeric.length := by
  decide!

/-- C29: the shape of a generated path. For every length `n ≥ 0` and every
outcome of the random source, `GenerateDynamicLinkPath(n)` returns (it does
not panic) a string of exactly `n` bytes, the `i`-th being the character of
the alphabet at index `rand i mod 62`; every one is among the 62 characters
`a`-`z`, `A`-`Z`, `0`-`9`, and the index is below the length of the alphabet
for every byte. -/
theorem generated_path_shape (rand : Nat → Byte) (n : Int) (hn : 0 ≤ n) :
    (∃ path, GenerateDynamicLinkPath rand n = some path
      ∧ (path.length : Int) = n
      ∧ (∀ i, i < path.length →
          path.get? i = alphanumeric.get? ((rand i).val % (alphanumeric.length % 256)))
      ∧ (∀ c ∈ path, c ∈ alphanumeric)
      ∧ path.all isAlnum = true)
    ∧ alphanumeric.length = 62
    ∧ alphanumeric.Nodup
    ∧ (∀ c : Byte, c ∈ alphanumeric ↔ isLetter c = true ∨ isDigit c = true)
    ∧ (∀ x : Byte, x.val % (alphanumeric.length % 256) < alphanumeric.length) := by
  refine ⟨⟨_, GenerateDynamicLinkPath_eq rand n hn, ?_, ?_, ?_, ?_⟩, rfl, by decide!, ?_,
    alphanumeric_index⟩
  · simp only [List.length_map, List.length_range]
    omega
  · intro i hi
    simp only [List.length_map, List.length_range] at hi
    rw [alphanumeric_get]
    simp [List.getElem?_map, List.getElem?_range hi]
  · intro c hc
    simp only [List.mem_map] at hc
    obtain ⟨x, _, rfl⟩ := hc
    exact pathByte_mem x
  · rw [List.all_eq_true]
    intro c hc
    simp only [List.mem_map] at hc
    obtain ⟨x, _, rfl⟩ := hc
    exact pathByte_isAlnum x
  · intro c
    rw [mem_alphanumeric_iff c]
    simp [isAlnum]

set_option maxRecDepth 100000 in
/-- C29 (witness): with the random bytes 3, 10, 17, 24, 31, 38 the path of
length 6 is `dkryFM`. -/
theorem generated_path_shape_witness :
    GenerateDynamicLinkPath sampleEnv.rand 6 = some (B "dkryFM")
    ∧ ∃ path, GenerateDynamicLinkPath sampleEnv.rand 6 = some path
        ∧ (path.length : Int) = 6 ∧ path.all isAlnum = true :=
  ⟨by decide!,
    match (generated_path_shape sampleEnv.rand 6 (by decide)).1 with
    | ⟨path, h1, h2, _, _, h5⟩ => ⟨path, h1, h2, h5⟩⟩

/-! ## Parsing `scheme://host:port/path` -/

set_option maxRecDepth 100000 in
theorem isAuthorityByte_facts : ∀ c : Byte, isAuthorityByte c = true →
    (c ≠ ch '%' ∧ c ≠ ch '+' ∧ shouldEscape c .encodeHost = false ∧ c ≠ ch '@'
      ∧ c ≠ ch '[' ∧ c ≠ ch '/' ∧ c ≠ ch '?' ∧ c ≠ ch '#'
      ∧ (c.val < 32 || c.val = 127) = false) := by
  decide!

set_option maxRecDepth 100000 in
theorem isAuthorityByte_plain : ∀ c : Byte,
    (isAuthorityByte c = true ∨ c ∈ B "https://") → c.val < 128 ∧ asciiSpace c = false := by
  decide!

set_option maxRecDepth 100000 in
theorem isDigit_facts : ∀ c : Byte, isDigit c = true →
    (isHostnameByte c = true ∧ c ≠ ch ':' ∧ c ≠ ch '/') := by
  decide!

theorem unescape_authority : ∀ s : GoString, s.all isAuthorityByte = true →
    unescape .encodeHost s = .ok s
  | [], _ => rfl
  | c :: s, h => by
    simp only [List.all_cons, Bool.and_eq_true] at h
    obtain ⟨h1, h2, h3, _⟩ := isAuthorityByte_facts c h.1
    rw [unescape_cons_not_pct _ _ _ h1]
    simp [h2, h3, unescape_authority s h.2, Except.map]

theorem lastIndex_single_append (c : Byte) (t : GoString) (ht : c ∉ t) :
    ∀ s : GoString, lastIndex (s ++ c :: t) [c] = some s.length
  | [] => by
    simp [lastIndex, lastIndex_single_not_mem c t ht, hasPrefix_single]
  | a :: s => by
    simp [lastIndex, lastIndex_single_append c t ht s]

/-- The shape of an optional numeric port. -/
theorem host_port_cases (port : GoString) (hp : isOptionalPort port = true) :
    port = [] ∨ ∃ digits, port = ch ':' :: digits ∧ digits ≠ [] ∧ digits.all isDigit = true
      ∧ ch ':' ∉ digits ∧ validOptionalPort (ch ':' :: digits) = true := by
  cases port with
  | nil => exact Or.inl rfl
  | cons c digits =>
    simp only [isOptionalPort, Bool.and_eq_true, decide_eq_true_eq] at hp
    obtain ⟨⟨hc, hne⟩, hall⟩ := hp
    subst hc
    refine Or.inr ⟨digits, rfl, by simpa using hne, hall, ?_, ?_⟩
    · exact not_mem_of_all hall (by decide)
    · simp only [validOptionalPort, beq_self_eq_true, Bool.true_and]
      exact hall

theorem host_port_all (host port : GoString) (hh : isPlainHostname host = true)
    (hp : isOptionalPort port = true) : (host ++ port).all isAuthorityByte = true := by
  simp only [isPlainHostname, Bool.and_eq_true] at hh
  rw [List.all_append, Bool.and_eq_true]
  constructor
  · rw [List.all_eq_true]
    intro c hc
    simp [isAuthorityByte, List.all_eq_true.1 hh.2 c hc]
  · rcases host_port_cases port hp with h | ⟨digits, h, _, hall, _, _⟩
    · subst h; rfl
    · subst h
      rw [List.all_cons, Bool.and_eq_true]
      refine ⟨by decide, ?_⟩
      rw [List.all_eq_true]
      intro c hc
      simp [isAuthorityByte, (isDigit_facts c (List.all_eq_true.1 hall c hc)).1]

theorem hasPrefix_bracket_plain (host rest : GoString) (hh : isPlainHostname host = true) :
    hasPrefix (host ++ rest) (B "[") = false := by
  simp only [isPlainHostname, Bool.and_eq_true] at hh
  obtain ⟨hne, hall⟩ := hh
  cases host with
  | nil => simp at hne
  | cons c s =>
    simp only [List.all_cons, Bool.and_eq_true] at hall
    have := (isHostnameByte_facts c hall.1).2.2.2.2.2.1
    have e : B "[" = [ch '['] := rfl
    simp [e, hasPrefix_single, this]

/-- `parseAuthority` accepts a plain hostname with an optional numeric port as
it is. -/
theorem parseAuthority_host_port (host port : GoString) (hh : isPlainHostname host = true)
    (hp : isOptionalPort port = true) : parseAuthority (host ++ port) = .ok (host ++ port) := by
  have hall := host_port_all host port hh hp
  have hat : ch '@' ∉ host ++ port := fun h =>
    (isAuthorityByte_facts _ (List.all_eq_true.1 hall _ h)).2.2.2.1 rfl
  have e1 : B "@" = [ch '@'] := rfl
  have e2 : B ":" = [ch ':'] := rfl
  unfold parseAuthority
  rw [e1, lastIndex_single_not_mem _ _ hat]
  simp only
  unfold parseHost
  rw [hasPrefix_bracket_plain host port hh]
  simp only [Bool.false_eq_true, if_false]
  rcases host_port_cases port hp with h | ⟨digits, h, _, _, hcol, hvalid⟩
  · subst h
    have hh' := hh
    simp only [isPlainHostname, Bool.and_eq_true] at hh'
    have hc : ch ':' ∉ host ++ [] := by
      rw [List.append_nil]
      exact not_mem_of_all hh'.2 (by decide)
    rw [e2, lastIndex_single_not_mem _ _ hc]
    exact unescape_authority _ hall
  · subst h
    rw [e2, lastIndex_single_append _ _ hcol]
    simp only [List.drop_left, hvalid, Bool.not_true, Bool.false_eq_true, if_false]
    exact unescape_authority _ hall

/-- `Hostname()` cuts the optional numeric port off a plain hostname. -/
theorem splitHostPort_host_port (host port : GoString) (hh : isPlainHostname host = true)
    (hp : isOptionalPort port = true) : splitHostPort (host ++ port) = host := by
  have e2 : B ":" = [ch ':'] := rfl
  have hbr := hasPrefix_bracket_plain host [] hh
  rw [List.append_nil] at hbr
  rcases host_port_cases port hp with h | ⟨digits, h, _, _, hcol, hvalid⟩
  · subst h
    rw [List.append_nil]
    exact splitHostPort_plain host hh
  · subst h
    unfold splitHostPort
    rw [e2, lastIndex_single_append _ _ hcol]
    simp only [List.drop_left, hvalid, if_true, List.take_left, hbr, Bool.false_and,
      Bool.false_eq_true, if_false]

/-- What `Parse` makes of `scheme://authority` followed by nothing or by a
path: the authority and the path are free of `?` and `#` and of control
bytes, the authority is accepted by `parseAuthority` and the path is well
escaped. -/
theorem Parse_authority_path (scheme authority host tail path : GoString)
    (hs : isValidScheme scheme = true)
    (hasl : ch '/' ∉ authority) (haq : ch '?' ∉ authority) (hah : ch '#' ∉ authority)
    (hactl : stringContainsCTLByte authority = false)
    (hauth : parseAuthority authority = .ok host)
    (htq : ch '?' ∉ tail) (hth : ch '#' ∉ tail) (htctl : stringContainsCTLByte tail = false)
    (hshape : tail = [] ∨ ∃ p, tail = ch '/' :: p)
    (hesc : unescape .encodePath tail = .ok path) :
    Parse (scheme ++ B "://" ++ authority ++ tail)
      = .ok { Scheme := scheme.map lowerByte, Host := host, Path := path } := by
  obtain ⟨hsne, hsall⟩ := isValidScheme_all hs
  have eraw : scheme ++ B "://" ++ authority ++ tail
      = scheme ++ ch ':' :: (B "//" ++ authority ++ tail) := by
    simp [B, ch]
  have hrest : ∀ d : Byte, d ≠ ch '/' → d ∉ authority → d ∉ tail →
      d ∉ B "//" ++ authority ++ tail := by
    intro d hd2 hda hdt h
    simp only [List.mem_append] at h
    rcases h with (h | h) | h
    · have : d = ch '/' := by
        simp only [B, ch, String.toList, List.map_cons, List.map_nil, List.mem_cons,
          List.mem_nil_iff, or_false, or_self] at h
        exact h
      exact hd2 this
    · exact hda h
    · exact hdt h
  have hqm : ch '?' ∉ B "//" ++ authority ++ tail := hrest _ (by decide) haq htq
  have hhash : ch '#' ∉ scheme ++ ch ':' :: (B "//" ++ authority ++ tail) := by
    intro h
    simp only [List.mem_append, List.mem_cons] at h
    rcases h with h | h | h
    · exact (isSchemeByte_facts _ (List.all_eq_true.1 hsall _ h)).1 rfl
    · exact absurd h (by decide)
    · exact hrest _ (by decide) hah hth (by simp only [List.mem_append]; exact h)
  have hctl : stringContainsCTLByte (scheme ++ ch ':' :: (B "//" ++ authority ++ tail))
      = false := by
    have e : scheme ++ ch ':' :: (B "//" ++ authority ++ tail)
        = scheme ++ (B "://" ++ (authority ++ tail)) := by simp [B, ch]
    rw [e]
    simp only [stringContainsCTLByte_append]
    rw [stringContainsCTLByte_of_all hsall (fun c hc => (isSchemeByte_facts c hc).2.2.1),
      hactl, htctl]
    decide
  have hstar : scheme ++ ch ':' :: (B "//" ++ authority ++ tail) ≠ B "*" := by
    intro h
    have := congrArg List.length h
    simp [B] at this
    omega
  have hsuf : hasSuffix (B "//" ++ authority ++ tail) (B "?") = false :=
    hasSuffix_single_not_mem _ _ hqm
  have hcut : cut (B "//" ++ authority ++ tail) (B "?")
      = (B "//" ++ authority ++ tail, [], false) :=
    cut_single_not_mem _ _ hqm
  have hlow : scheme.map lowerByte ≠ [] := by simpa using hsne
  have hp1 : hasPrefix (B "//" ++ authority ++ tail) (B "/") = true := rfl
  have hp2 : hasPrefix (B "//" ++ authority ++ tail) (B "//") = true := by
    simp [B, hasPrefix]
  have hdrop : (B "//" ++ authority ++ tail).drop 2 = authority ++ tail := rfl
  have hparse : parse (scheme ++ ch ':' :: (B "//" ++ authority ++ tail))
      = .ok { Scheme := scheme.map lowerByte, Host := host, Path := path } := by
    unfold parse
    rw [hctl, if_neg (by simp), if_neg hstar, getScheme_valid _ _ hs]
    simp only [hsuf, hcut, Bool.false_and, Bool.false_eq_true, if_false, hp1, hp2, hlow,
      Bool.not_true, ne_eq, not_false_eq_true, decide_True, Bool.true_or,
      Bool.and_self, Bool.and_true, if_true, hdrop]
    rcases hshape with h | ⟨p, h⟩
    · subst h
      have hi : index (authority ++ []) (B "/") = none := by
        rw [List.append_nil]; exact index_single_not_mem _ _ hasl
      rw [hi]
      simp only [List.append_nil, hauth, setPath]
      rw [show unescape Encoding.encodePath [] = .ok path from hesc]
    · subst h
      have e : B "/" = [ch '/'] := rfl
      rw [e, index_single_append _ _ _ hasl]
      simp only [List.take_left, List.drop_left, hauth, setPath, hesc]
  unfold Parse
  rw [eraw]
  have e : B "#" = [ch '#'] := rfl
  rw [e, cut_single_not_mem _ _ hhash]
  simp only [hparse, if_true]
/-! ## Claim C26: normalising the host -/

set_option maxRecDepth 100000 in
theorem asciiSpace_lt : ∀ c : Byte, asciiSpace c = true → c.val < 128 := by
  decide!

theorem trimSpace_leading (U : Unicode) (s : GoString) :
    ∀ ws : GoString, ws.all asciiSpace = true → trimSpace U (ws ++ s) = trimSpace U s
  | [], _ => rfl
  | c :: ws, h => by
    simp only [List.all_cons, Bool.and_eq_true] at h
    have h1 : ¬ 128 ≤ c.val := by have := asciiSpace_lt c h.1; omega
    rw [List.cons_append, trimSpace]
    simp only [h1, if_false, h.1, if_true]
    exact trimSpace_leading U s ws h.2

theorem trimSpaceRight_leading (U : Unicode) (r : GoString) :
    ∀ ws : GoString, ws.all asciiSpace = true → trimSpaceRight U (ws ++ r) = trimSpaceRight U r
  | [], _ => rfl
  | c :: ws, h => by
    simp only [List.all_cons, Bool.and_eq_true] at h
    have h1 : ¬ 128 ≤ c.val := by have := asciiSpace_lt c h.1; omega
    rw [List.cons_append, trimSpaceRight]
    simp only [h1, if_false, h.1, if_true]
    exact trimSpaceRight_leading U r ws h.2

/-- `TrimSpace` removes the ASCII white space around a string that starts and
ends with an ASCII byte that is not white space. -/
theorem trimSpace_surrounded (U : Unicode) (ws1 core ws2 : GoString)
    (h1 : ws1.all asciiSpace = true) (h2 : ws2.all asciiSpace = true)
    (hfirst : ∀ c, core.head? = some c → c.val < 128 ∧ asciiSpace c = false)
    (hlast : ∀ c, core.getLast? = some c → c.val < 128 ∧ asciiSpace c = false) :
    trimSpace U (ws1 ++ core ++ ws2) = core := by
  rw [List.append_assoc, trimSpace_leading U _ ws1 h1]
  cases core with
  | nil =>
    rw [List.nil_append]
    have := trimSpace_leading U [] ws2 h2
    rw [List.append_nil] at this
    rw [this]
    rfl
  | cons c s =>
    obtain ⟨hc1, hc2⟩ := hfirst c rfl
    have hc1' : ¬ 128 ≤ c.val := by omega
    rw [List.cons_append, trimSpace]
    simp only [hc1', if_false, hc2, Bool.false_eq_true]
    have hr : (c :: (s ++ ws2)).reverse = ws2.reverse ++ (c :: s).reverse := by
      rw [← List.cons_append, List.reverse_append]
    rw [hr, trimSpaceRight_leading U _ ws2.reverse (by simpa using h2)]
    cases hrev : (c :: s).reverse with
    | nil => simp at hrev
    | cons d r =>
      have hd : (c :: s).getLast? = some d := by
        rw [List.getLast?_eq_head?_reverse, hrev]
        rfl
      obtain ⟨hd1, hd2⟩ := hlast d hd
      have hd1' : ¬ 128 ≤ d.val := by omega
      rw [trimSpaceRight]
      simp only [hd1', if_false, hd2, Bool.false_eq_true]
      rw [← hrev, List.reverse_reverse]

theorem index_append_skip (d : Byte) (sub b : GoString) :
    ∀ a : GoString, d ∉ a →
      index (a ++ b) (d :: sub) = (index b (d :: sub)).map (· + a.length)
  | [], _ => by simp
  | x :: a, h => by
    have hx : x ≠ d := fun e => h (by simp [e])
    have ha : d ∉ a := fun e => h (by simp [e])
    have hp : hasPrefix (x :: (a ++ b)) (d :: sub) = false := by
      simp [hasPrefix, hx]
    rw [List.cons_append, index, hp, index_append_skip d sub b a ha]
    cases index b (d :: sub) <;> simp [Nat.add_assoc]

theorem contains_append_skip (d : Byte) (sub a b : GoString) (h : d ∉ a) :
    contains (a ++ b) (d :: sub) = contains b (d :: sub) := by
  unfold contains
  rw [index_append_skip d sub b a h]
  cases index b (d :: sub) <;> rfl
theorem contains_sep_host_port (h port suffix : GoString) (hh : isPlainHostname h = true)
    (hport : isOptionalPort port = true) (hsep : contains suffix (B "://") = false) :
    contains (h ++ port ++ suffix) (B "://") = false := by
  have e : B "://" = ch ':' :: B "//" := rfl
  have hh' := hh
  simp only [isPlainHostname, Bool.and_eq_true] at hh'
  have hcol : ch ':' ∉ h := not_mem_of_all hh'.2 (by decide)
  rw [e] at hsep ⊢
  rw [List.append_assoc, contains_append_skip _ _ _ _ hcol]
  rcases host_port_cases port hport with hp | ⟨digits, hp, hne, hall, hcold, _⟩
  · subst hp
    exact hsep
  · subst hp
    cases digits with
    | nil => exact absurd rfl hne
    | cons d0 ds =>
      have hd0 : d0 ≠ ch '/' :=
        (isDigit_facts d0 (List.all_eq_true.1 hall d0 (by simp))).2.2
      have hp : hasPrefix (ch ':' :: (d0 :: ds) ++ suffix) (ch ':' :: B "//") = false := by
        have e2 : B "//" = [ch '/', ch '/'] := rfl
        simp [hasPrefix, e2, hd0]
      have hi : index (ch ':' :: (d0 :: ds) ++ suffix) (ch ':' :: B "//")
          = (index ((d0 :: ds) ++ suffix) (ch ':' :: B "//")).map (· + 1) := by
        rw [List.cons_append, index]
        rw [List.cons_append] at hp
        rw [hp]
        simp
      have hskip := contains_append_skip (ch ':') (B "//") (d0 :: ds) suffix hcold
      unfold contains at hskip hsep ⊢
      rw [hi]
      rw [hsep] at hskip
      cases hx : index ((d0 :: ds) ++ suffix) (ch ':' :: B "//") with
      | none => rfl
      | some i => rw [hx] at hskip; simp at hskip

/-- `CleanHost` on an input that `TrimSpace` reduces to an optional prefix
`http://` or `https://`, a plain hostname, an optional numeric port and an
optional path. -/
theorem CleanHost_trimmed (U : Unicode) (pre h port suffix path raw : GoString)
    (hpre : pre = [] ∨ pre = B "http://" ∨ pre = B "https://")
    (hh : isPlainHostname h = true) (hport : isOptionalPort port = true)
    (hshape : suffix = [] ∨ ∃ p, suffix = ch '/' :: p)
    (hctl : stringContainsCTLByte suffix = false)
    (hq : ch '?' ∉ suffix) (hf : ch '#' ∉ suffix)
    (hesc : unescape .encodePath suffix = .ok path)
    (hsep : pre = [] → contains suffix (B "://") = false)
    (hraw : trimSpace U raw = pre ++ h ++ port ++ suffix) :
    CleanHost U raw = .ok h := by
  have hall := host_port_all h port hh hport
  have hfacts := fun c hc => isAuthorityByte_facts c (List.all_eq_true.1 hall c hc)
  have hparse : ∀ scheme, isValidScheme scheme = true →
      Parse (scheme ++ B "://" ++ (h ++ port) ++ suffix)
        = .ok { Scheme := scheme.map lowerByte, Host := h ++ port, Path := path } :=
    fun scheme hs =>
      Parse_authority_path scheme (h ++ port) (h ++ port) suffix path hs
        (fun hc => (hfacts _ hc).2.2.2.2.2.1 rfl)
        (fun hc => (hfacts _ hc).2.2.2.2.2.2.1 rfl)
        (fun hc => (hfacts _ hc).2.2.2.2.2.2.2.1 rfl)
        (stringContainsCTLByte_of_all hall
          (fun c hc => (isAuthorityByte_facts c hc).2.2.2.2.2.2.2.2))
        (parseAuthority_host_port h port hh hport) hq hf hctl hshape hesc
  have hhne : h ≠ [] := by
    simp only [isPlainHostname, Bool.and_eq_true] at hh
    simpa using hh.1
  have hne : pre ++ h ++ port ++ suffix ≠ [] := by
    intro e
    simp only [List.append_eq_nil] at e
    exact hhne e.1.1.2
  unfold CleanHost
  simp only [hraw, hne, if_false]
  rcases hpre with hp | hp | hp
  · subst hp
    have hcont : contains ([] ++ h ++ port ++ suffix) (B "://") = false := by
      rw [List.nil_append]
      exact contains_sep_host_port h port suffix hh hport (hsep rfl)
    have e : B "https://" ++ ([] ++ h ++ port ++ suffix)
        = B "https" ++ B "://" ++ (h ++ port) ++ suffix := by simp [B]
    simp only [hcont, Bool.not_false, if_true]
    rw [e, hparse (B "https") (by decide)]
    simp only [URL.Hostname, splitHostPort_host_port h port hh hport]
  · subst hp
    have hcont : contains (B "http://" ++ h ++ port ++ suffix) (B "://") = true := by
      have e1 : B "http://" ++ h ++ port ++ suffix
          = B "http" ++ (ch ':' :: B "//" ++ (h ++ port ++ suffix)) := by simp [B, ch]
      have e2 : B "://" = ch ':' :: B "//" := rfl
      rw [e1, e2, contains_append_skip _ _ _ _ (by decide)]
      simp [contains, index, hasPrefix, B]
    have e : B "http://" ++ h ++ port ++ suffix
        = B "http" ++ B "://" ++ (h ++ port) ++ suffix := by simp [B]
    simp only [hcont, Bool.not_true, Bool.false_eq_true, if_false]
    rw [e, hparse (B "http") (by decide)]
    simp only [URL.Hostname, splitHostPort_host_port h port hh hport]
  · subst hp
    have hcont : contains (B "https://" ++ h ++ port ++ suffix) (B "://") = true := by
      have e1 : B "https://" ++ h ++ port ++ suffix
          = B "https" ++ (ch ':' :: B "//" ++ (h ++ port ++ suffix)) := by simp [B, ch]
      have e2 : B "://" = ch ':' :: B "//" := rfl
      rw [e1, e2, contains_append_skip _ _ _ _ (by decide)]
      simp [contains, index, hasPrefix, B]
    have e : B "https://" ++ h ++ port ++ suffix
        = B "https" ++ B "://" ++ (h ++ port) ++ suffix := by simp [B]
    simp only [hcont, Bool.not_true, Bool.false_eq_true, if_false]
    rw [e, hparse (B "https") (by decide)]
    simp only [URL.Hostname, splitHostPort_host_port h port hh hport]
theorem CleanHost_blank (U : Unicode) (raw : GoString) (h : trimSpace U raw = []) :
    CleanHost U raw = .error (.errorf "host is required") := by
  unfold CleanHost
  simp only [h, if_true]

theorem trimSpace_blank (U : Unicode) (ws : GoString) (h : ws.all asciiSpace = true) :
    trimSpace U ws = [] := by
  have := trimSpace_leading U [] ws h
  rw [List.append_nil] at this
  rw [this]
  rfl

set_option maxRecDepth 100000 in
theorem http_mem : ∀ c : Byte, c ∈ B "http://" → c ∈ B "https://" := by
  decide!

set_option maxRecDepth 100000 in
/-- C26 (counterexample): without a prefix, the path `/%zz` after
`example.com` makes `CleanHost` fail, since the URL does not parse, and the
path `/a://b` makes it return the empty string, since no scheme is added. -/
theorem path_suffix_counterexample :
    isPlainHostname (B "example.com") = true
    ∧ CleanHost sampleUnicode (B "example.com/%zz") = .error (.url (.escapeError (B "%zz")))
    ∧ CleanHost sampleUnicode (B "example.com/a://b") = .ok []
    ∧ CleanHost sampleUnicode (B "example.com/a://b") ≠ .ok (B "example.com") := by
  decide!

/-- C26: normalising the host. Let `h` be a non-empty hostname of ASCII
letters, digits, `.` and `-`, `pre` nothing or `http://` or `https://`, `port`
nothing or a colon with one or more digits, and `suffix` nothing or a path
starting with `/`, free of control bytes, of `?` and of `#`, with well-formed
percent escapes and, when there is no prefix, without `://`. Then `CleanHost`
returns exactly `h`, with no error, for every input that `TrimSpace` reduces to
`pre ++ h ++ port ++ suffix`, in particular when ASCII white space surrounds
it. `CleanHost` fails for every input that `TrimSpace` reduces to the empty
string, in particular for the empty string and for ASCII white space. -/
theorem host_normalisation (U : Unicode) (pre h port suffix : GoString)
    (hpre : pre = [] ∨ pre = B "http://" ∨ pre = B "https://")
    (hh : isPlainHostname h = true) (hport : isOptionalPort port = true)
    (hshape : suffix = [] ∨ ∃ p, suffix = ch '/' :: p)
    (hctl : stringContainsCTLByte suffix = false)
    (hq : ch '?' ∉ suffix) (hf : ch '#' ∉ suffix)
    (hesc : ∃ path, unescape .encodePath suffix = .ok path)
    (hsep : pre = [] → contains suffix (B "://") = false) :
    (∀ raw, trimSpace U raw = pre ++ h ++ port ++ suffix → CleanHost U raw = .ok h)
    ∧ (∀ ws1 ws2, ws1.all asciiSpace = true → ws2.all asciiSpace = true →
        (∀ c, suffix.getLast? = some c → c.val < 128 ∧ asciiSpace c = false) →
        CleanHost U (ws1 ++ (pre ++ h ++ port ++ suffix) ++ ws2) = .ok h)
    ∧ (∀ raw, trimSpace U raw = [] → CleanHost U raw = .error (.errorf "host is required"))
    ∧ (∀ ws, ws.all asciiSpace = true → CleanHost U ws = .error (.errorf "host is required")) := by
  obtain ⟨path, hesc⟩ := hesc
  have hmain : ∀ raw, trimSpace U raw = pre ++ h ++ port ++ suffix → CleanHost U raw = .ok h :=
    fun raw hraw =>
      CleanHost_trimmed U pre h port suffix path raw hpre hh hport hshape hctl hq hf hesc hsep hraw
  refine ⟨hmain, ?_, fun raw hraw => CleanHost_blank U raw hraw,
    fun ws hws => CleanHost_blank U ws (trimSpace_blank U ws hws)⟩
  intro ws1 ws2 h1 h2 hend
  apply hmain
  have hall := host_port_all h port hh hport
  have hhne : h ≠ [] := by
    simp only [isPlainHostname, Bool.and_eq_true] at hh
    simpa using hh.1
  have hpremem : ∀ c ∈ pre, c ∈ B "https://" := by
    intro c hc
    rcases hpre with hp | hp | hp
    · subst hp; simp at hc
    · subst hp
      exact http_mem c hc
    · subst hp; exact hc
  have hmem : ∀ c ∈ pre ++ (h ++ port), c.val < 128 ∧ asciiSpace c = false := by
    intro c hc
    rw [List.mem_append] at hc
    rcases hc with hc | hc
    · exact isAuthorityByte_plain c (Or.inr (hpremem c hc))
    · exact isAuthorityByte_plain c (Or.inl (List.all_eq_true.1 hall c hc))
  have hne : pre ++ (h ++ port) ≠ [] := by
    intro e
    simp only [List.append_eq_nil] at e
    exact hhne e.2.1
  have ecore : pre ++ h ++ port ++ suffix = (pre ++ (h ++ port)) ++ suffix := by
    simp only [List.append_assoc]
  apply trimSpace_surrounded U ws1 _ ws2 h1 h2
  · intro c hc
    rw [ecore, List.head?_append_of_ne_nil _ hne] at hc
    exact hmem c (List.mem_of_mem_head? hc)
  · intro c hc
    rw [ecore, List.getLast?_append] at hc
    cases hs : suffix.getLast? with
    | some d =>
      rw [hs] at hc
      simp only [Option.or_some, Option.some.injEq] at hc
      subst hc
      exact hend d hs
    | none =>
      rw [hs] at hc
      simp only [Option.none_or] at hc
      exact hmem c (List.mem_of_getLast?_eq_some hc)

set_option maxRecDepth 100000 in
/-- C26 (witness): `https://example.com:8080/path` between blanks and a tab
is cleaned to `example.com`, and so is `example.com/a%20b` without prefix. -/
theorem host_normalisation_witness :
    CleanHost sampleUnicode (B "  https://example.com:8080/path \t") = .ok (B "example.com")
    ∧ CleanHost sampleUnicode (B "example.com/a%20b") = .ok (B "example.com") :=
  ⟨(host_normalisation sampleUnicode (B "https://") (B "example.com") (B ":8080") (B "/path")
      (Or.inr (Or.inr rfl)) (by decide!) (by decide) (Or.inr ⟨B "path", rfl⟩) (by decide)
      (by decide) (by decide) ⟨B "/path", by decide⟩ (fun e => absurd e (by decide))).2.1
      (B "  ") (B " \t") (by decide) (by decide) (by decide),
    (host_normalisation sampleUnicode [] (B "example.com") [] (B "/a%20b")
      (Or.inl rfl) (by decide!) (by decide) (Or.inr ⟨B "a%20b", rfl⟩) (by decide)
      (by decide) (by decide) ⟨B "/a b", by decide⟩ (fun _ => by decide)).1
      (B "example.com/a%20b") (by decide!)⟩
/-! ## Claim C30: a host that is cleaned to the empty string -/

set_option maxRecDepth 100000 in
/-- C30: what the code does with a host without hostname. `CleanHost`
returns the empty string, with no error, for `https://`, for `/path` and for
`example.com/a://b`. The request with the host `https://` passes
`PrepareDynamicLinkRequest`, and `CreateDynamicLink` stores a row with an
empty host for it and returns the short link `https:///dkryFM`. -/
theorem empty_host_is_stored (U : Unicode) :
    CleanHost U (B "https://") = .ok []
    ∧ CleanHost U (B "/path") = .ok []
    ∧ CleanHost U (B "example.com/a://b") = .ok []
    ∧ PrepareDynamicLinkRequest ⟨none, some sampleEmptyHost⟩ = (sampleEmptyHost, none)
    ∧ (CreateDynamicLink U sampleConfig sampleEnv [] sampleEmptyHost).result
        = .ok ⟨B "https:///dkryFM", []⟩
    ∧ (CreateDynamicLink U sampleConfig sampleEnv [] sampleEmptyHost).store
        = [⟨[], B "dkryFM", B "apn=com.app&link=https%3A%2F%2Ftarget.com", false⟩] :=
  ⟨rfl, rfl, rfl, by decide!, rfl, rfl⟩

/-! ## Claim C31: the modulo bias of the path alphabet -/

set_option maxRecDepth 1000000 in
theorem preimages_table :
    (alphanumeric.take 8).map preimages = List.replicate 8 5
    ∧ (alphanumeric.drop 8).map preimages = List.replicate 54 4 := by
  decide!

theorem preimages_outside (c : Byte) (h : c ∉ alphanumeric) : preimages c = 0 := by
  unfold preimages
  rw [List.length_eq_zero, List.filter_eq_nil_iff]
  intro b _ hb
  simp only [decide_eq_true_eq] at hb
  exact h (List.get?_mem hb)

/-- C31: the modulo bias of the path alphabet. The map from a byte `b` to
`alphanumeric[b mod 62]` is not uniform over the 256 byte values: each of the
first 8 characters of the alphabet, `a` to `h`, has exactly 5 preimages, and
each of the other 54 characters has exactly 4; a byte outside the alphabet has
none. -/
theorem modulo_bias :
    alphanumeric.take 8 = B "abcdefgh"
    ∧ (alphanumeric.drop 8).length = 54
    ∧ (alphanumeric.take 8).map preimages = List.replicate 8 5
    ∧ (alphanumeric.drop 8).map preimages = List.replicate 54 4
    ∧ (∀ c : Byte, preimages c
        = if c ∈ B "abcdefgh" then 5 else if c ∈ alphanumeric then 4 else 0)
    ∧ preimages (ch 'a') ≠ preimages (ch 'i') := by
  have htake : alphanumeric.take 8 = B "abcdefgh" := by decide
  have h5 : ∀ c ∈ alphanumeric.take 8, preimages c = 5 := fun c hc =>
    List.eq_of_mem_replicate (preimages_table.1 ▸ List.mem_map_of_mem preimages hc)
  have h4 : ∀ c ∈ alphanumeric.drop 8, preimages c = 4 := fun c hc =>
    List.eq_of_mem_replicate (preimages_table.2 ▸ List.mem_map_of_mem preimages hc)
  refine ⟨htake, by decide, preimages_table.1, preimages_table.2, ?_, ?_⟩
  · intro c
    by_cases hc : c ∈ B "abcdefgh"
    · rw [if_pos hc]
      exact h5 c (htake ▸ hc)
    · rw [if_neg hc]
      by_cases ha : c ∈ alphanumeric
      · rw [if_pos ha]
        rw [← List.take_append_drop 8 alphanumeric, List.mem_append] at ha
        rcases ha with ha | ha
        · exact absurd (htake ▸ ha) hc
        · exact h4 c ha
      · rw [if_neg ha]
        exact preimages_outside c ha
  · rw [h5 (ch 'a') (by decide), h4 (ch 'i') (by decide)]
    decide

/-! ## Claim C32: the warnings depend on the request only -/

/-- C32: the warnings depend on the request only. For every request and any
two tables, also under different configurations, random bytes and database
outcomes, if `CreateDynamicLink` succeeds on both, the two responses carry the
same list of warnings, in the same order: the list `buildWarnings` computes
from the request. So a request that reuses a guessable short link gets the
warnings of the same request minting a new one. -/
theorem warnings_depend_on_request_only (U : Unicode) (cfg1 cfg2 : Config) (env1 env2 : Env)
    (store1 store2 : Store) (params : CreateDynamicLinkRequest)
    (r1 r2 : ShortLinkResponse)
    (h1 : (CreateDynamicLink U cfg1 env1 store1 params).result = .ok r1)
    (h2 : (CreateDynamicLink U cfg2 env2 store2 params).result = .ok r2) :
    r1.Warnings = r2.Warnings ∧ r1.Warnings = buildWarnings params := by
  have e1 := CreateDynamicLink_ok_warnings U cfg1 env1 store1 params r1 h1
  have e2 := CreateDynamicLink_ok_warnings U cfg2 env2 store2 params r2 h2
  exact ⟨e1.trans e2.symm, e1⟩

set_option maxRecDepth 100000 in
/-- C32 (witness): `sampleWarned` mints the path `dkryFM` on the empty table
and reuses the path `Zx81Qp` on the table `sampleWarnedStore`, without
generating or inserting anything; the two short links differ and the two
responses carry the same three warnings. -/
theorem warnings_depend_on_request_only_witness :
    (CreateDynamicLink sampleUnicode sampleConfig sampleEnv [] sampleWarned).trace
        = [.find (B "example.com")
              (B "apn=com.app&at=1000l&link=https%3A%2F%2Ftarget.com&si=example.com"),
            .generate 6 (B "dkryFM"),
            .insert ⟨B "example.com", B "dkryFM",
              B "apn=com.app&at=1000l&link=https%3A%2F%2Ftarget.com&si=example.com", false⟩]
    ∧ (CreateDynamicLink sampleUnicode sampleConfig sampleEnv sampleWarnedStore
          sampleWarned).trace
        = [.find (B "example.com")
              (B "apn=com.app&at=1000l&link=https%3A%2F%2Ftarget.com&si=example.com")]
    ∧ sampleWarnedResponse.ShortLink ≠ sampleReusedResponse.ShortLink
    ∧ sampleWarnedResponse.Warnings = sampleReusedResponse.Warnings
    ∧ sampleWarnedResponse.Warnings = buildWarnings sampleWarned :=
  ⟨by decide!, by decide!, by decide,
    warnings_depend_on_request_only sampleUnicode sampleConfig sampleConfig sampleEnv
      sampleEnv [] sampleWarnedStore sampleWarned sampleWarnedResponse sampleReusedResponse
      (by decide!) (by decide!)⟩

end DynamicLinks
